import Mathlib

/-!
# Comm::ConnOpener (src/src/comm/ConnOpener.cc)

A shallow embedding of the connection opener job.  The job is a record of the
member variables of `Comm::ConnOpener`; every member function is a function on
that record.  Calls that leave the job (comm layer, event queue, ipcache, peer
statistics, the scheduling of the completion callback) are appended, in program
order, to the `trace` field, so that what the job did to its collaborators can
be read back.  Values the job reads from its surroundings (`squid_curtime`,
`errno`, the results of `comm_openex`, `comm_connect_addr` and `getsockname`)
are the fields of `Env`, one `Env` per handler invocation.

`int` and `time_t` values are unbounded here: the counters only ever grow by one
per handler call and the time arithmetic is a single subtraction of two clock
readings, so no wrap-around is reachable.

Three smaller pieces follow the job, each in a namespace of its own:
`snmpTreeSiblingEntry` of src/src/snmp_core.cc (`Snmp`), `log_quoted_string` of
src/src/format/Format.cc (`Format`), and the HTTP date functions of
src/lib/rfc1123.c (`Rfc1123`).  In `Rfc1123` a C string is the list of its
characters before the terminating NUL; in `Format` the strings lie in a memory
of bytes and the function works on pointers into it, so that the call with one
buffer for input and output can be followed too.  The definitions of all four
come first, the theorems after them.
-/

namespace Comm

/-- Modelled from the spec: the comm layer result codes.  The enumeration is
declared in a header that is not part of the sources; the constructors are the
values ConnOpener.cc names, and `COMM_ERROR` stands for the immediate failure
that reaches the `default` arm of the switch in `connect`. -/
inductive comm_err_t
  | COMM_OK
  | COMM_ERROR
  | COMM_TIMEOUT
  | COMM_INPROGRESS
  | COMM_ERR_CONNECT
  | COMM_ERR_CLOSING
  deriving DecidableEq, Repr

/-- Modelled from the spec: an `Ip::Address`, of which the job only asks
`IsIPv4` and `SetIPv4`, and which it copies as a whole. -/
structure Address where
  addr : Nat
  port : Nat
  isIPv4 : Bool
  deriving DecidableEq, Repr

def Address.IsIPv4 (a : Address) : Bool := a.isIPv4

def Address.SetIPv4 (a : Address) : Address := { a with isIPv4 := true }

/-- Modelled from the spec: the `Comm::Connection` object behind `conn_`
(its class is not part of the sources): the descriptor, the two addresses and
the peer it belongs to, if any.  `localAddr` is the member `local`. -/
structure Connection where
  fd : Int
  localAddr : Address
  remote : Address
  peer : Option Nat
  deriving DecidableEq, Repr

/-- Modelled from the spec: a connection is open when it holds a descriptor. -/
def Connection.isOpen (c : Connection) : Bool := decide (0 ≤ c.fd)

/-- A handle of an `AsyncCall` (the completion callback of the caller). -/
abbrev AsyncCall := Nat

/-- The calls the job makes into its collaborators. -/
inductive Effect
  /-- `comm_openex(...)`, with the descriptor it returned -/
  | comm_openex (fd : Int)
  /-- `comm_add_close_handler(fd, calls_.earlyAbort_)` -/
  | comm_add_close_handler (fd : Int)
  /-- `commSetTimeout(fd, timeout, handler)`; `handler = false` is a NULL handler -/
  | commSetTimeout (fd : Int) (timeout : Int) (handler : Bool)
  /-- `commSetSelect(fd, COMM_SELECT_WRITE, handler, ...)`; `handler = false` is NULL -/
  | commSetSelectWrite (fd : Int) (handler : Bool)
  /-- `comm_connect_addr(fd, remote)` -/
  | comm_connect_addr (fd : Int) (remote : Address)
  /-- the socket close done by `conn_->close()` on an open connection -/
  | comm_close (fd : Int)
  /-- `calls_.earlyAbort_->cancel(...)` -/
  | cancelEarlyAbort
  /-- `calls_.timeout_->cancel(...)` -/
  | cancelTimeout
  /-- `eventAdd("Comm::ConnOpener::DelayedConnectRetry", ..., 0.05, 0)` -/
  | eventAddDelayedConnectRetry
  /-- `ipcacheMarkGoodAddr(host_, remote)` -/
  | ipcacheMarkGoodAddr (host : String) (remote : Address)
  /-- `ipcacheMarkBadAddr(host_, remote)` -/
  | ipcacheMarkBadAddr (host : String) (remote : Address)
  /-- `netdbDeleteAddrNetwork(remote)` -/
  | netdbDeleteAddrNetwork (remote : Address)
  /-- `getPeer()->stats.conn_open++` -/
  | peerConnOpenIncr (peer : Nat)
  /-- `getsockname(fd, ...)` -/
  | getsockname (fd : Int)
  /-- the two `fd_table[fd]` writes of `connected` -/
  | fdTableOpen (fd : Int) (localAddr : Address)
  /-- `ScheduleCallHere(callback_)` with the parameters stored in the call -/
  | ScheduleCallHere (call : AsyncCall) (conn : Option Connection) (flag : comm_err_t)
      (xerrno : Int)
  deriving DecidableEq, Repr

/-- The member variables of `Comm::ConnOpener`, and the log of its outgoing calls.
A pointer member is an `Option` (or, for the two job calls in `calls_`, a flag
telling whether the pointer is set). -/
structure ConnOpener where
  host_ : Option String
  conn_ : Option Connection
  callback_ : Option AsyncCall
  totalTries_ : Nat
  failRetries_ : Nat
  connectTimeout_ : Int
  connectStart_ : Int
  earlyAbort_ : Bool
  timeout_ : Bool
  trace : List Effect
  deriving DecidableEq, Repr

/-- Build options and configuration the job reads. -/
structure Config where
  connect_retries : Int
  USE_IPV6 : Bool
  USE_ICMP : Bool
  test_reachability : Bool
  deriving DecidableEq, Repr

/-- What one handler invocation reads from outside the job. -/
structure Env where
  squid_curtime : Int
  /-- the descriptor `comm_openex` returns (negative on failure) -/
  openexFd : Int
  /-- the value `comm_connect_addr` returns -/
  connectResult : comm_err_t
  /-- the address `getsockname` stores, `none` when it fails -/
  sockname : Option Address
  errno : Int
  deriving DecidableEq, Repr

/-- `Comm::ConnOpener::ConnOpener(c, handler, ctimeout)`. -/
def ConnOpener.new (c : Option Connection) (handler : Option AsyncCall) (ctimeout : Int) :
    ConnOpener :=
  { host_ := none
    conn_ := c
    callback_ := handler
    totalTries_ := 0
    failRetries_ := 0
    connectTimeout_ := ctimeout
    connectStart_ := 0
    earlyAbort_ := false
    timeout_ := false
    trace := [] }

/-- `Comm::ConnOpener::setHost`. -/
def setHost (s : ConnOpener) (new_host : Option String) : ConnOpener :=
  { s with host_ := new_host }

/-- `Comm::ConnOpener::getHost`. -/
def getHost (s : ConnOpener) : Option String := s.host_

/-- Append one outgoing call to the log. -/
def emit (s : ConnOpener) (e : Effect) : ConnOpener :=
  { s with trace := s.trace ++ [e] }

/-- Modelled from the spec: `Comm::Connection::close()` (the class is not part
of the sources), as it changes the object: an open connection forgets its
descriptor. -/
def Connection.close (c : Connection) : Connection :=
  if c.isOpen then { c with fd := -1 } else c

/-- Modelled from the spec: `Comm::Connection::close()`, the calls it makes:
the socket of an open connection is closed. -/
def Connection.closeCalls (c : Connection) : List Effect :=
  if c.isOpen then [Effect.comm_close c.fd] else []

/-- The statement `conn_->close();` inside the job. -/
def connClose (s : ConnOpener) : ConnOpener :=
  match s.conn_ with
  | none => s
  | some c => { s with conn_ := some c.close, trace := s.trace ++ c.closeCalls }

/-- `Comm::ConnOpener::doneConnecting(status, xerrno)`. -/
def doneConnecting (s : ConnOpener) (status : comm_err_t) (xerrno : Int) : ConnOpener :=
  let s1 :=
    match s.callback_ with
    | some cb =>
      { s with
        trace := s.trace ++ [Effect.ScheduleCallHere cb s.conn_ status xerrno]
        callback_ := none }
    | none => s
  { s1 with conn_ := none }

/-- `Comm::ConnOpener::doneAll`, given the answer of `AsyncJob::doneAll`. -/
def doneAll (s : ConnOpener) (asyncJobDoneAll : Bool) : Bool :=
  if s.conn_.isSome then false
  else if s.callback_.isSome then false
  else asyncJobDoneAll

/-- The `if (calls_.earlyAbort_ != NULL)` block of `swanSong` and of `connect`:
cancel and clear the close handler call. -/
def cancelEarlyAbort (s : ConnOpener) : ConnOpener :=
  if s.earlyAbort_ then { emit s Effect.cancelEarlyAbort with earlyAbort_ := false } else s

/-- The `if (calls_.timeout_ != NULL)` block of `swanSong`. -/
def cancelTimeout (s : ConnOpener) : ConnOpener :=
  if s.timeout_ then { emit s Effect.cancelTimeout with timeout_ := false } else s

/-- The `if (conn_ != NULL && conn_->isOpen())` block of `swanSong`: drop the
handlers set on the descriptor and close it. -/
def rollback (s : ConnOpener) : ConnOpener :=
  match s.conn_ with
  | some c =>
    if c.isOpen then
      connClose (emit (emit s (Effect.commSetSelectWrite c.fd false))
        (Effect.commSetTimeout c.fd (-1) false))
    else s
  | none => s

/-- `Comm::ConnOpener::swanSong` (the base class `AsyncJob::swanSong` it ends
with touches no member of this class). -/
def swanSong (s : ConnOpener) : ConnOpener :=
  let s3 := rollback (cancelTimeout (cancelEarlyAbort s))
  if s3.callback_.isSome then doneConnecting s3 comm_err_t.COMM_ERR_CONNECT 0 else s3

/-- `Comm::ConnOpener::lookupLocalAddress`, on the connection `c` behind `conn_`. -/
def lookupLocalAddress (env : Env) (s : ConnOpener) (c : Connection) : ConnOpener :=
  let s1 := emit s (Effect.getsockname c.fd)
  match env.sockname with
  | none => s1
  | some a => { s1 with conn_ := some { c with localAddr := a } }

/-- The first statement of `connected`: count the connection on its peer. -/
def peerConnOpen (s : ConnOpener) (c : Connection) : ConnOpener :=
  match c.peer with
  | some p => emit s (Effect.peerConnOpenIncr p)
  | none => s

/-- `Comm::ConnOpener::connected`, on the connection `c` behind `conn_`. -/
def connected (env : Env) (s : ConnOpener) (c : Connection) : ConnOpener :=
  let s2 := lookupLocalAddress env (peerConnOpen s c) c
  match s2.conn_ with
  | some c2 => emit s2 (Effect.fdTableOpen c2.fd c2.localAddr)
  | none => s2

/-- `if (host_ != NULL) ipcacheMarkGoodAddr(host_, conn_->remote);` -/
def markGoodAddr (s : ConnOpener) (c : Connection) : ConnOpener :=
  match s.host_ with
  | some h => emit s (Effect.ipcacheMarkGoodAddr h c.remote)
  | none => s

/-- `if (host_ != NULL) ipcacheMarkBadAddr(host_, conn_->remote);` -/
def markBadAddr (s : ConnOpener) (c : Connection) : ConnOpener :=
  match s.host_ with
  | some h => emit s (Effect.ipcacheMarkBadAddr h c.remote)
  | none => s

/-- The `#if USE_ICMP` block of `connect`. -/
def testReachability (cfg : Config) (s : ConnOpener) (c : Connection) : ConnOpener :=
  if cfg.USE_ICMP && cfg.test_reachability then
    emit s (Effect.netdbDeleteAddrNetwork c.remote)
  else s

/-- Has the job been connecting for longer than its timeout?
(`squid_curtime - connectStart_ > connectTimeout_`) -/
def tookTooLong (env : Env) (s : ConnOpener) : Bool :=
  decide (env.squid_curtime - s.connectStart_ > s.connectTimeout_)

/-- The `case COMM_INPROGRESS` arm of the switch in `connect`. -/
def connectInProgress (env : Env) (s : ConnOpener) (c : Connection) : ConnOpener :=
  if tookTooLong env s then
    doneConnecting (connClose s) comm_err_t.COMM_TIMEOUT env.errno
  else
    emit s (Effect.commSetSelectWrite c.fd true)

/-- The `case COMM_OK` arm of the switch in `connect`. -/
def connectOk (env : Env) (s : ConnOpener) (c : Connection) : ConnOpener :=
  doneConnecting (markGoodAddr (connected env s c) c) comm_err_t.COMM_OK 0

/-- The `default` arm of the switch in `connect`. -/
def connectDefault (cfg : Config) (env : Env) (s : ConnOpener) (c : Connection) : ConnOpener :=
  let s3 := testReachability cfg (markBadAddr { s with failRetries_ := s.failRetries_ + 1 } c) c
  if tookTooLong env s3 then
    doneConnecting (connClose (cancelEarlyAbort s3)) comm_err_t.COMM_TIMEOUT env.errno
  else if (s3.failRetries_ : Int) < cfg.connect_retries then
    emit s3 Effect.eventAddDelayedConnectRetry
  else
    doneConnecting (connClose (cancelEarlyAbort s3)) comm_err_t.COMM_ERR_CONNECT env.errno

/-- The start of `connect`, up to the call of `comm_connect_addr`: the try is
counted and the attempt is made on the connection `c` behind `conn_`. -/
def connectAttempt (s : ConnOpener) (c : Connection) : ConnOpener :=
  emit { s with totalTries_ := s.totalTries_ + 1 } (Effect.comm_connect_addr c.fd c.remote)

/-- `Comm::ConnOpener::connect`.  `none` is the exception thrown by
`Must(conn_ != NULL)`. -/
def connect (cfg : Config) (env : Env) (s : ConnOpener) : Option ConnOpener :=
  match s.conn_ with
  | none => none
  | some c =>
    match env.connectResult with
    | comm_err_t.COMM_INPROGRESS => some (connectInProgress env (connectAttempt s c) c)
    | comm_err_t.COMM_OK => some (connectOk env (connectAttempt s c) c)
    | _ => some (connectDefault cfg env (connectAttempt s c) c)

/-- The part of `start` after the socket is there and before `connect()`:
register the close handler and the timeout on the descriptor of `c`, and note
the time. -/
def startWatches (env : Env) (s : ConnOpener) (c : Connection) : ConnOpener :=
  let s1 := emit { s with earlyAbort_ := true } (Effect.comm_add_close_handler c.fd)
  let s2 := emit { s1 with timeout_ := true } (Effect.commSetTimeout c.fd s1.connectTimeout_ true)
  { s2 with connectStart_ := env.squid_curtime }

/-- The part of `start` after the socket is there, `connect()` included. -/
def startConnecting (cfg : Config) (env : Env) (s : ConnOpener) (c : Connection) :
    Option ConnOpener :=
  connect cfg env (startWatches env s c)

/-- The connection `c` after `start` has given it a socket:
`conn_->local.SetIPv4()` under `USE_IPV6` for an IPv4 remote, then
`conn_->fd = comm_openex(...)`. -/
def openSocket (cfg : Config) (env : Env) (c : Connection) : Connection :=
  let c1 :=
    if cfg.USE_IPV6 && c.remote.IsIPv4 then { c with localAddr := c.localAddr.SetIPv4 } else c
  { c1 with fd := env.openexFd }

/-- `Comm::ConnOpener::start`.  `none` is the exception thrown by
`Must(conn_ != NULL)`. -/
def start (cfg : Config) (env : Env) (s : ConnOpener) : Option ConnOpener :=
  match s.conn_ with
  | none => none
  | some c =>
    if !c.isOpen then
      let c1 := openSocket cfg env c
      let s1 := { emit s (Effect.comm_openex env.openexFd) with conn_ := some c1 }
      if !c1.isOpen then
        some (doneConnecting s1 comm_err_t.COMM_ERR_CONNECT 0)
      else startConnecting cfg env s1 c1
    else startConnecting cfg env s c

/-- `Comm::ConnOpener::earlyAbort(io)`; only `io.xerrno` is read. -/
def earlyAbort (s : ConnOpener) (xerrno : Int) : ConnOpener :=
  doneConnecting s comm_err_t.COMM_ERR_CLOSING xerrno

/-- `Comm::ConnOpener::timeout`. -/
def timeout (cfg : Config) (env : Env) (s : ConnOpener) : Option ConnOpener :=
  connect cfg env s

/-- The handlers the job framework can invoke on a job.  `connect` is what both
legacy wrappers, `InProgressConnectRetry` and `DelayedConnectRetry`, schedule. -/
inductive Handler
  | start
  | connect
  | earlyAbort (xerrno : Int)
  | timeout
  | swanSong
  deriving DecidableEq, Repr

/-- One handler invocation.  A handler that throws at its `Must` has not
touched the job, which is left as it was. -/
def step (cfg : Config) (s : ConnOpener) (ev : Handler × Env) : ConnOpener :=
  match ev.1 with
  | Handler.start => (start cfg ev.2 s).getD s
  | Handler.connect => (connect cfg ev.2 s).getD s
  | Handler.earlyAbort x => earlyAbort s x
  | Handler.timeout => (timeout cfg ev.2 s).getD s
  | Handler.swanSong => swanSong s

/-- A finite sequence of handler invocations, in order. -/
def run (cfg : Config) (s : ConnOpener) (evs : List (Handler × Env)) : ConnOpener :=
  evs.foldl (step cfg) s

/-- Is this outgoing call the scheduling of the completion callback? -/
def Effect.isSchedule : Effect → Bool
  | Effect.ScheduleCallHere _ _ _ _ => true
  | _ => false

/-- Is this outgoing call a connect attempt? -/
def Effect.isAttempt : Effect → Bool
  | Effect.comm_connect_addr _ _ => true
  | _ => false

/-- How many times the completion callback was scheduled. -/
def scheduled (t : List Effect) : Nat := t.countP Effect.isSchedule

/-- How many connect attempts were issued. -/
def attempts (t : List Effect) : Nat := t.countP Effect.isAttempt

/-- The outcomes delivered: call, result code and errno of each scheduling. -/
def deliveries (t : List Effect) : List (AsyncCall × comm_err_t × Int) :=
  t.filterMap fun e =>
    match e with
    | Effect.ScheduleCallHere cb _ flag x => some (cb, flag, x)
    | _ => none

/-- Is this outgoing call the scheduling of a delayed retry? -/
def Effect.isRetryEvent : Effect → Bool
  | Effect.eventAddDelayedConnectRetry => true
  | _ => false

/-- How many delayed retries were put on the event queue. -/
def retriesScheduled (t : List Effect) : Nat := t.countP Effect.isRetryEvent

/-- Is this outgoing call a registration of the writability handler? -/
def Effect.isWriteWatch : Effect → Bool
  | Effect.commSetSelectWrite _ true => true
  | _ => false

/-- How many times the writability handler was registered. -/
def writeWatches (t : List Effect) : Nat := t.countP Effect.isWriteWatch

/-- An immediate failure of `comm_connect_addr`: any result that reaches the
`default` arm of the switch in `connect`. -/
def isFailure (r : comm_err_t) : Bool :=
  r != comm_err_t.COMM_OK && r != comm_err_t.COMM_INPROGRESS

/-- The event loop of a job on which only delayed retries fire: `start()`, then
one `connect()` per entry of `es`. -/
def retryRun (cfg : Config) (s0 : ConnOpener) (e0 : Env) (es : List Env) : ConnOpener :=
  run cfg s0 ((Handler.start, e0) :: es.map (fun e => (Handler.connect, e)))

/-- The job as it waits for a delayed retry after `k` failed attempts. -/
def Retrying (s : ConnOpener) (cb : AsyncCall) (start : Int) (ctimeout : Int) (k : Nat) : Prop :=
  s.conn_.isSome = true ∧ s.callback_ = some cb ∧
  s.totalTries_ = k ∧ s.failRetries_ = k ∧ attempts s.trace = k ∧
  deliveries s.trace = [] ∧ retriesScheduled s.trace = k ∧
  s.connectStart_ = start ∧ s.connectTimeout_ = ctimeout

/-- A sample connection: open on descriptor 5, no peer. -/
def exConn : Connection :=
  { fd := 5
    localAddr := { addr := 0, port := 0, isIPv4 := true }
    remote := { addr := 1, port := 80, isIPv4 := true }
    peer := none }

/-- A sample configuration with `connect_retries = n`. -/
def exCfg (n : Int) : Config :=
  { connect_retries := n, USE_IPV6 := false, USE_ICMP := false, test_reachability := false }

/-- A sample reading of the surroundings: the clock at `now`, and
`comm_connect_addr` returning `r` with errno 111. -/
def exEnv (now : Int) (r : comm_err_t) : Env :=
  { squid_curtime := now, openexFd := 5, connectResult := r, sockname := none, errno := 111 }

/-- A sample job: the sample connection, callback 7, a timeout of 30 seconds. -/
def exJob : ConnOpener := ConnOpener.new (some exConn) (some 7) 30

/-- Is this outgoing call an increment of a peer's open-connection counter? -/
def Effect.isPeerIncr : Effect → Bool
  | Effect.peerConnOpenIncr _ => true
  | _ => false

/-- How many times a peer's open-connection counter was incremented. -/
def peerIncrements (t : List Effect) : Nat := t.countP Effect.isPeerIncr

/-- Is this outgoing call a report to the ipcache about an address? -/
def Effect.isAddrReport : Effect → Bool
  | Effect.ipcacheMarkGoodAddr _ _ => true
  | Effect.ipcacheMarkBadAddr _ _ => true
  | _ => false

/-- How many good or bad address reports were made. -/
def addrReports (t : List Effect) : Nat := t.countP Effect.isAddrReport

/-- The calls of the rollback block of `swanSong` on the connection behind
`conn_`: for an open connection, the two handler removals and the close. -/
def rollbackCalls (conn : Option Connection) : List Effect :=
  match conn with
  | some c =>
    if c.isOpen then
      [Effect.commSetSelectWrite c.fd false, Effect.commSetTimeout c.fd (-1) false,
        Effect.comm_close c.fd]
    else []
  | none => []

/-- The delivery made by `doneConnecting(st, x)` when `callback_` is `cb`:
one outcome for a callback that is set, none for a NULL one. -/
def delivery (cb : Option AsyncCall) (st : comm_err_t) (x : Int) :
    List (AsyncCall × comm_err_t × Int) :=
  match cb with
  | some call => [(call, st, x)]
  | none => []

/-- What a piece of a handler can do about the completion callback: nothing
(`callback_` and the deliveries stay as they are), or deliver once to the
callback that was set and clear `callback_`. -/
def Delivers (s s2 : ConnOpener) : Prop :=
  (s2.callback_ = s.callback_ ∧ deliveries s2.trace = deliveries s.trace) ∨
  (s2.callback_ = none ∧
    ∃ st x, deliveries s2.trace = deliveries s.trace ++ delivery s.callback_ st x)

/-- The callback still owed to the caller: 1 while `callback_` is set. -/
def pending (s : ConnOpener) : Nat := if s.callback_.isSome then 1 else 0

/-- Schedulings done so far plus the one still owed. -/
def owed (s : ConnOpener) : Nat := scheduled s.trace + pending s

/-- What no piece of any handler undoes: the log is only appended to, a
cleared `callback_` or `conn_` stays cleared, the two counters do not decrease,
and `connectTimeout_` and `host_` are not written. -/
def Grows (s s2 : ConnOpener) : Prop :=
  (∃ t, s2.trace = s.trace ++ t) ∧
  (s.callback_ = none → s2.callback_ = none) ∧
  (s.conn_ = none → s2.conn_ = none) ∧
  s.totalTries_ ≤ s2.totalTries_ ∧
  s.failRetries_ ≤ s2.failRetries_ ∧
  s2.connectTimeout_ = s.connectTimeout_ ∧
  s2.host_ = s.host_

/-- The members only `start` and the counting statements of `connect` write:
a piece of a handler is quiet when it leaves all of them as they were. -/
def Quiet (s s2 : ConnOpener) : Prop :=
  s2.totalTries_ = s.totalTries_ ∧
  s2.failRetries_ = s.failRetries_ ∧
  s2.connectStart_ = s.connectStart_ ∧
  s2.connectTimeout_ = s.connectTimeout_ ∧
  s2.host_ = s.host_

/-- The bound the retry check of `connect` keeps on the failure count of a job
configured with `connect_retries = n`: at most max(n, 1), and below `n` (or
still 0) for as long as the job holds its connection. -/
def FailBound (n : Int) (s : ConnOpener) : Prop :=
  (s.failRetries_ : Int) ≤ max n 1 ∧
  (s.conn_.isSome = true → s.failRetries_ = 0 ∨ (s.failRetries_ : Int) < n)

/-- Is this outgoing call the closing of a socket? -/
def Effect.isClose : Effect → Bool
  | Effect.comm_close _ => true
  | _ => false

/-- How many sockets were closed. -/
def closes (t : List Effect) : Nat := t.countP Effect.isClose

/-- Is this outgoing call the cancelling of one of the two job calls? -/
def Effect.isCancel : Effect → Bool
  | Effect.cancelEarlyAbort => true
  | Effect.cancelTimeout => true
  | _ => false

/-- How many times a job call was cancelled. -/
def cancels (t : List Effect) : Nat := t.countP Effect.isCancel

/-- Is this outgoing call a good-address report? -/
def Effect.isGoodReport : Effect → Bool
  | Effect.ipcacheMarkGoodAddr _ _ => true
  | _ => false

/-- Is this outgoing call a bad-address report? -/
def Effect.isBadReport : Effect → Bool
  | Effect.ipcacheMarkBadAddr _ _ => true
  | _ => false

/-- How many good-address reports were made. -/
def goodReports (t : List Effect) : Nat := t.countP Effect.isGoodReport

/-- How many bad-address reports were made. -/
def badReports (t : List Effect) : Nat := t.countP Effect.isBadReport

/-- The outcomes as the callback sees them: the result code and the connection
stored in the parameters of each scheduling. -/
def outcomes (t : List Effect) : List (comm_err_t × Option Connection) :=
  t.filterMap fun e =>
    match e with
    | Effect.ScheduleCallHere _ conn flag _ => some (flag, conn)
    | _ => none

/-- Is there a connection behind the pointer, and is it open? -/
def isOpenConn (conn : Option Connection) : Bool :=
  match conn with
  | some c => c.isOpen
  | none => false

/-- How many of the deliveries carried COMM_OK. -/
def okDeliveries (t : List Effect) : Nat :=
  (outcomes t).countP fun p => p.1 == comm_err_t.COMM_OK

/-- The outcome handed over by `doneConnecting(st, _)` when `callback_` is `cb`
and `conn_` is `conn`: one for a callback that is set, none for a NULL one. -/
def outcome (cb : Option AsyncCall) (st : comm_err_t) (conn : Option Connection) :
    List (comm_err_t × Option Connection) :=
  match cb with
  | some _ => [(st, conn)]
  | none => []

/-- The connection `start` connects on: the one it was given when that is
open, else the one it has put a new socket in. -/
def startConn (cfg : Config) (env : Env) (c : Connection) : Connection :=
  if c.isOpen then c else openSocket cfg env c

/-- The job as `start` hands it to `connect()` when the socket is there: the
socket opened if it had to be, both watches registered, the time noted. -/
def startReady (cfg : Config) (env : Env) (s : ConnOpener) (c : Connection) : ConnOpener :=
  if c.isOpen then startWatches env s c
  else
    startWatches env
      { emit s (Effect.comm_openex env.openexFd) with conn_ := some (openSocket cfg env c) }
      (openSocket cfg env c)

/-- Is this outgoing call the removal of a handler from a descriptor? -/
def Effect.isUnwatch : Effect → Bool
  | Effect.commSetSelectWrite _ false => true
  | Effect.commSetTimeout _ _ false => true
  | _ => false

/-- How many handler removals were made. -/
def unwatches (t : List Effect) : Nat := t.countP Effect.isUnwatch

/-- What ties the peer counter to the COMM_OK deliveries on a job whose
connection has a peer and whose callback was set: while the job holds its
connection, that has a peer and the callback is pending; the counter has been
incremented as often as COMM_OK has been delivered; and that is never, or once
with `conn_` cleared. -/
def PeerInv (s : ConnOpener) : Prop :=
  (∀ c, s.conn_ = some c → c.peer.isSome = true ∧ s.callback_.isSome = true) ∧
  peerIncrements s.trace = okDeliveries s.trace ∧
  (peerIncrements s.trace = 0 ∨ (peerIncrements s.trace = 1 ∧ s.conn_ = none))

/-- A sample connection to peer 3: open on descriptor 5. -/
def exPeerConn : Connection := { exConn with peer := some 3 }

/-- Is this outgoing call the creation of a socket? -/
def Effect.isOpenSocket : Effect → Bool
  | Effect.comm_openex _ => true
  | _ => false

/-- How many sockets were created. -/
def socketsOpened (t : List Effect) : Nat := t.countP Effect.isOpenSocket

/-- Is this outgoing call the registration of the close handler or of the
timeout handler on a descriptor? -/
def Effect.isWatchSet : Effect → Bool
  | Effect.comm_add_close_handler _ => true
  | Effect.commSetTimeout _ _ true => true
  | _ => false

/-- How many close-handler and timeout-handler registrations were made. -/
def watchesSet (t : List Effect) : Nat := t.countP Effect.isWatchSet

/-- Does this handler invocation see `comm_connect_addr` answer
COMM_INPROGRESS, if it gets as far as the attempt? -/
def seesInProgress (ev : Handler × Env) : Bool :=
  match ev.1 with
  | Handler.earlyAbort _ => false
  | Handler.swanSong => false
  | _ => decide (ev.2.connectResult = comm_err_t.COMM_INPROGRESS)

/-- How many of the invocations see an in-progress result. -/
def inProgressResults (evs : List (Handler × Env)) : Nat := evs.countP seesInProgress

/-- The bound on the try count of a job configured with `connect_retries = n`
that has seen `k` in-progress results: at most k + max(n, 1), and at most k
above the failure count for as long as the job holds its connection. -/
def TryBound (n : Int) (k : Nat) (s : ConnOpener) : Prop :=
  (s.totalTries_ : Int) ≤ k + max n 1 ∧
  (s.conn_.isSome = true → s.totalTries_ ≤ s.failRetries_ + k)

end Comm

/-! # The walk to the right-hand sibling (src/src/snmp_core.cc) -/

namespace Snmp

/-- `struct _mib_tree_entry` of snmp_core.cc, with the members the tree walks
read: `name` (an array of `len` sub-identifiers) and `leaves` (an array of
`children` pointers to the child nodes).  An array and its count are one list. -/
inductive mib_tree_entry where
  | mk (name : List Nat) (leaves : List mib_tree_entry) : mib_tree_entry

/-- The member `name`. -/
def mib_tree_entry.name : mib_tree_entry → List Nat
  | mib_tree_entry.mk n _ => n

/-- The member `leaves`. -/
def mib_tree_entry.leaves : mib_tree_entry → List mib_tree_entry
  | mib_tree_entry.mk _ l => l

/-- The member `len`: the number of sub-identifiers in `name`. -/
def mib_tree_entry.len (e : mib_tree_entry) : Nat := e.name.length

/-- The member `children`: the number of pointers in `leaves`. -/
def mib_tree_entry.children (e : mib_tree_entry) : Nat := e.leaves.length

/-- The `while` loop of `snmpTreeSiblingEntry`, on its two variables `next`
and `count`; the result is their value when the loop is left.  `none` is a read
outside an array (`leaves[count]` or `name[len]`), which C leaves undefined.
The first argument bounds the number of iterations. -/
def siblingLoop (entry : Nat) (len : Nat) (current : mib_tree_entry) :
    Nat → Option mib_tree_entry → Nat → Option (Option mib_tree_entry × Nat)
  | 0, next, count => some (next, count)
  | fuel + 1, next, count =>
    if next.isNone ∧ count < current.children then
      match current.leaves[count]? with
      | none => none
      | some leaf =>
        match leaf.name[len]? with
        | none => none
        | some v =>
          siblingLoop entry len current fuel (if v = entry then some leaf else next) (count + 1)
    else some (next, count)

/-- `snmpTreeSiblingEntry(entry, len, current)`.  The inner `none` is the NULL
pointer; the outer `none` is a read outside an array.  Every iteration of the
loop adds one to `count`, so `children` iterations are all it can make. -/
def snmpTreeSiblingEntry (entry : Nat) (len : Nat) (current : mib_tree_entry) :
    Option (Option mib_tree_entry) :=
  match siblingLoop entry len current current.children none 0 with
  | none => none
  | some (_, count) =>
    if count < current.children then
      match current.leaves[count]? with
      | none => none
      | some leaf => some (some leaf)
    else some none

/-- A sample leaf with the given name. -/
def exLeaf (name : List Nat) : mib_tree_entry := mib_tree_entry.mk name []

/-- A sample node with three children, named 1.1, 1.2 and 1.3. -/
def exNode : mib_tree_entry :=
  mib_tree_entry.mk [1] [exLeaf [1, 1], exLeaf [1, 2], exLeaf [1, 3]]

end Snmp

/-! # Quoting for the log (src/src/format/Format.cc) -/

namespace Format

/-- The NUL that ends a C string. -/
def NUL : Char := Char.ofNat 0

/-- The memory `log_quoted_string` works in, byte by byte.  A pointer is an
index into it; an access at an index outside it is a fault. -/
abbrev Memory := List Char

/-- The assignment `*a = c`; `none` is a write outside the memory. -/
def poke (mem : Memory) (a : Nat) (c : Char) : Option Memory :=
  if a < mem.length then some (mem.set a c) else none

/-- The characters `log_quoted_string` escapes: the reject set of its
`strcspn` call. -/
def quoteReject : List Char := ['"', '\\', '\r', '\n', '\t']

/-- The C library `strcspn(str, reject)`, on the bytes from `str` on: the
number of bytes before the first that is NUL or in `reject`; `none` when the
memory ends before such a byte. -/
def strcspn (reject : List Char) : List Char → Option Nat
  | [] => none
  | c :: rest =>
    if c = NUL ∨ c ∈ reject then some 0 else (strcspn reject rest).map (fun l => l + 1)

/-- The C library `memcpy(dst, src, n)`, copying byte by byte from the lowest
address up.  (C leaves a copy between overlapping areas undefined; the copy of
an area onto itself, which is all the shared-buffer facts below rest on, leaves
the memory as it is under any order.) -/
def memcpy : Nat → Memory → Nat → Nat → Option Memory
  | 0, mem, _, _ => some mem
  | n + 1, mem, dst, src =>
    match mem[src]? with
    | none => none
    | some c =>
      match poke mem dst c with
      | none => none
      | some m => memcpy n m (dst + 1) (src + 1)

/-- How far `log_quoted_string` has got: still in its loop, with the memory
and its two pointers as they are at the loop test; returned, leaving the memory
so; or stopped by an access outside the memory. -/
inductive Outcome
  | running (mem : Memory) (str p : Nat)
  | returned (mem : Memory)
  | fault
  deriving DecidableEq, Repr

/-- The cases `'\r'`, `'\n'` and `'\t'` of the switch, writing the letter `c`:
`*p = '\\'; ++p; *p = c; ++p; ++str;`. -/
def escapeWith (mem : Memory) (str p : Nat) (c : Char) : Outcome :=
  match poke mem p '\\' with
  | none => Outcome.fault
  | some m1 =>
    match poke m1 (p + 1) c with
    | none => Outcome.fault
    | some m2 => Outcome.running m2 (str + 1) (p + 2)

/-- The `default` case of the switch: `*p = '\\'; ++p; *p = *str; ++p; ++str;`.
The character `*str` is read after the backslash has been written. -/
def escapeDefault (mem : Memory) (str p : Nat) : Outcome :=
  match poke mem p '\\' with
  | none => Outcome.fault
  | some m1 =>
    match m1[str]? with
    | none => Outcome.fault
    | some c =>
      match poke m1 (p + 1) c with
      | none => Outcome.fault
      | some m2 => Outcome.running m2 (str + 1) (p + 2)

/-- One pass of `log_quoted_string` from the loop test on: the body of
`while (*str)` when the test holds, else the final `*p = 0` and the return. -/
def quoteStep (mem : Memory) (str p : Nat) : Outcome :=
  match mem[str]? with
  | none => Outcome.fault
  | some c0 =>
    if c0 = NUL then
      match poke mem p NUL with
      | none => Outcome.fault
      | some m => Outcome.returned m
    else
      match strcspn quoteReject (mem.drop str) with
      | none => Outcome.fault
      | some l =>
        match memcpy l mem p str with
        | none => Outcome.fault
        | some m1 =>
          match m1[str + l]? with
          | none => Outcome.fault
          | some c =>
            if c = NUL then Outcome.running m1 (str + l) (p + l)
            else if c = '\r' then escapeWith m1 (str + l) (p + l) 'r'
            else if c = '\n' then escapeWith m1 (str + l) (p + l) 'n'
            else if c = '\t' then escapeWith m1 (str + l) (p + l) 't'
            else escapeDefault m1 (str + l) (p + l)

/-- At most `fuel` passes of the loop of `log_quoted_string`. -/
def quoteLoop : Nat → Memory → Nat → Nat → Outcome
  | 0, mem, str, p => Outcome.running mem str p
  | fuel + 1, mem, str, p =>
    match quoteStep mem str p with
    | Outcome.running m s q => quoteLoop fuel m s q
    | o => o

/-- `log_quoted_string(str, out)` in the memory `mem`, followed for at most
`fuel` passes of its loop. -/
def log_quoted_string (fuel : Nat) (mem : Memory) (str out : Nat) : Outcome :=
  quoteLoop fuel mem str out

/-- The string at the start of these bytes: the characters before the first
NUL; `none` when there is no NUL. -/
def cstring : List Char → Option (List Char)
  | [] => none
  | c :: rest => if c = NUL then some [] else (cstring rest).map (fun l => c :: l)

/-- The C library `strlen`, on the bytes from the pointer on. -/
def strlen (bytes : List Char) : Option Nat := (cstring bytes).map List.length

/-- The size `Format::assemble` computes for the quoted form of a string of
length `n`: `strlen(out) * 2 + 1`. -/
def out_len (n : Nat) : Nat := n * 2 + 1

/-- The `case LOG_QUOTE_QUOTES` arm of `Format::assemble` for a token whose
value `out` is in `tmp` (as after `strftime(tmp, ...); out = tmp;`).  When
`out_len >= sizeof(tmp)` the output goes to the block `xmalloc(out_len)` has
returned, here `block`, placed behind `tmp`; else `newout = tmp`, and
`log_quoted_string(out, newout)` reads and writes the same buffer. -/
def quoteTmp (fuel : Nat) (tmp block : Memory) : Outcome :=
  match strlen tmp with
  | none => Outcome.fault
  | some n =>
    if out_len n ≥ tmp.length then log_quoted_string fuel (tmp ++ block) 0 tmp.length
    else log_quoted_string fuel tmp 0 0

/-- What `log_quoted_string` is to write for one character. -/
def escapeChar (c : Char) : List Char :=
  if c = '\r' then ['\\', 'r']
  else if c = '\n' then ['\\', 'n']
  else if c = '\t' then ['\\', 't']
  else if c = '"' ∨ c = '\\' then ['\\', c]
  else [c]

/-- The reading of an escaped string the format documents: backslash-r,
backslash-n and backslash-t stand for CR, LF and TAB, a backslash before any
other character stands for that character, and every other character stands
for itself. -/
def unescape : List Char → List Char
  | [] => []
  | [c] => [c]
  | c :: d :: rest =>
    if c = '\\' then
      (if d = 'r' then '\r' else if d = 'n' then '\n' else if d = 't' then '\t' else d)
        :: unescape rest
    else c :: unescape (d :: rest)

/-- One unit of an escaped string: a character that needs no escape, or a
backslash followed by the character it escapes. -/
def isToken (tok : List Char) : Prop :=
  (∃ c, tok = [c] ∧ c ∉ quoteReject) ∨
  (∃ d, tok = ['\\', d] ∧ d ∈ ['r', 'n', 't', '"', '\\'])

/-- The state the loop cannot leave once the write pointer is ahead of the read
pointer in the same buffer: every byte from `str` up to `p` is a backslash. -/
def Stuck (m : Memory) (str p : Nat) : Prop :=
  str < p ∧ ∀ k, str ≤ k → k < p → m[k]? = some '\\'

/-- The bytes `l` are in the memory at the address `a`. -/
def Holds (m : Memory) (a : Nat) (l : List Char) : Prop :=
  ∀ j c, l[j]? = some c → m[a + j]? = some c

/-- A sample of `tmp`, 12 bytes long: the string `a"b`, its NUL, and bytes
left over. -/
def exTmp : Memory := ['a', '"', 'b', NUL, NUL, NUL, NUL, NUL, NUL, NUL, NUL, NUL]

end Format

/-! # HTTP dates (src/lib/rfc1123.c) -/

namespace Rfc1123

/-- A C string: the list of its characters before the terminating NUL. -/
abbrev CStr := List Char

/-- The character `s[i]` of a C string; at `i = strlen(s)` it is the NUL. -/
def charAt (s : CStr) (i : Nat) : Char := s.getD i (Char.ofNat 0)

/-- A character as the `int` it is in an arithmetic expression. -/
def code (c : Char) : Int := (c.toNat : Int)

/-- `struct tm` of the C library. -/
structure tm where
  tm_sec : Int
  tm_min : Int
  tm_hour : Int
  tm_mday : Int
  tm_mon : Int
  tm_year : Int
  tm_wday : Int
  tm_yday : Int
  tm_isdst : Int
  deriving DecidableEq, Repr

/-- The table `month_names`. -/
def month_names : List CStr :=
  [['J', 'a', 'n'], ['F', 'e', 'b'], ['M', 'a', 'r'], ['A', 'p', 'r'], ['M', 'a', 'y'],
    ['J', 'u', 'n'], ['J', 'u', 'l'], ['A', 'u', 'g'], ['S', 'e', 'p'], ['O', 'c', 't'],
    ['N', 'o', 'v'], ['D', 'e', 'c']]

/-- `make_num(s)`. -/
def make_num (s : CStr) : Int :=
  if '0' ≤ charAt s 0 ∧ charAt s 0 ≤ '9' then
    10 * (code (charAt s 0) - code '0') + code (charAt s 1) - code '0'
  else
    code (charAt s 1) - code '0'

/-- The three characters `make_month` compares with the table: `toupper` of
the first and `tolower` of the next two (C locale). -/
def monthKey (s : CStr) : CStr :=
  [(charAt s 0).toUpper, (charAt s 1).toLower, (charAt s 2).toLower]

/-- `make_month(s)`: the index of the first name of the table that equals the
key (`strncmp` over 3 characters is 0), and 0 when there is none. -/
def make_month (s : CStr) : Int :=
  match month_names.indexOf? (monthKey s) with
  | some i => (i : Int)
  | none => 0

/-- The C library `strchr(s, c)` for a character `c` other than NUL: the rest
of the string from the first `c` on, or `none` (NULL). -/
def strchr : CStr → Char → Option CStr
  | [], _ => none
  | x :: rest, c => if x = c then some (x :: rest) else strchr rest c

/-- The loop `while (*s && *s == ' ') s++;`. -/
def skipSpaces : CStr → CStr
  | [] => []
  | x :: rest => if x = ' ' then skipSpaces rest else x :: rest

/-- The `struct tm` after `memset(&tm, 0, sizeof(struct tm))`. -/
def tmZero : tm :=
  { tm_sec := 0, tm_min := 0, tm_hour := 0, tm_mday := 0, tm_mon := 0, tm_year := 0,
    tm_wday := 0, tm_yday := 0, tm_isdst := 0 }

/-- The assignments of the first format, `Thursday, 10-Jun-93 01:29:59 GMT`. -/
def fieldsRfc850 (s : CStr) : tm :=
  { tmZero with
    tm_mday := make_num s
    tm_mon := make_month (s.drop 3)
    tm_year := make_num (s.drop 7)
    tm_hour := make_num (s.drop 10)
    tm_min := make_num (s.drop 13)
    tm_sec := make_num (s.drop 16) }

/-- The assignments of the second format, `Thu, 10 Jan 1993 01:29:59 GMT`. -/
def fieldsRfc1123 (s : CStr) : tm :=
  { tmZero with
    tm_mday := make_num s
    tm_mon := make_month (s.drop 3)
    tm_year := (100 * make_num (s.drop 7) - 1900) + make_num (s.drop 9)
    tm_hour := make_num (s.drop 12)
    tm_min := make_num (s.drop 15)
    tm_sec := make_num (s.drop 18) }

/-- The assignments of the third format, `Wed Jun  9 01:29:59 1993 GMT`. -/
def fieldsAsctime (s : CStr) : tm :=
  { tmZero with
    tm_mday := make_num (s.drop 8)
    tm_mon := make_month (s.drop 4)
    tm_year := make_num (s.drop 22)
    tm_hour := make_num (s.drop 11)
    tm_min := make_num (s.drop 14)
    tm_sec := make_num (s.drop 17) }

/-- The range check of `parse_rfc1123`: true when a field is out of range. -/
def outOfRange (b : tm) : Bool :=
  decide (b.tm_sec < 0 ∨ b.tm_sec > 59 ∨ b.tm_min < 0 ∨ b.tm_min > 59 ∨
    b.tm_hour < 0 ∨ b.tm_hour > 23 ∨ b.tm_mday < 1 ∨ b.tm_mday > 31 ∨
    b.tm_mon < 0 ∨ b.tm_mon > 11 ∨ b.tm_year < 70 ∨ b.tm_year > 120)

/-- The end of `parse_rfc1123`, from the range check on.  `toTime` is the
conversion the build has compiled in: `timegm` under HAVE_TIMEGM, else `mktime`
corrected by the offset of the local time zone. -/
def finish (toTime : tm → Int) (b : tm) : Int :=
  if outOfRange b then -1 else toTime { b with tm_isdst := -1 }

/-- `parse_rfc1123(str)`; `none` is the NULL pointer. -/
def parse_rfc1123 (toTime : tm → Int) (str : Option CStr) : Int :=
  match str with
  | none => -1
  | some str =>
    match strchr str ',' with
    | some p =>
      let s := skipSpaces (p.drop 1)
      if (strchr s '-').isSome then
        if (s.length : Int) < 18 then -1 else finish toTime (fieldsRfc850 s)
      else
        if (s.length : Int) < 20 then -1 else finish toTime (fieldsRfc1123 s)
    | none =>
      let s := skipSpaces str
      if (s.length : Int) < 24 then -1 else finish toTime (fieldsAsctime s)

/-- Is the year `y` (anno Domini) a leap year? -/
def isLeap (y : Nat) : Bool := y % 4 == 0 && (y % 100 != 0 || y % 400 == 0)

/-- The number of days of month `m` (0 is January) of the year `y`. -/
def daysInMonth (y : Nat) (m : Nat) : Nat :=
  match m with
  | 0 => 31
  | 1 => if isLeap y then 29 else 28
  | 2 => 31
  | 3 => 30
  | 4 => 31
  | 5 => 30
  | 6 => 31
  | 7 => 31
  | 8 => 30
  | 9 => 31
  | 10 => 30
  | _ => 31

/-- The number of days of the year `y` before its month `m`. -/
def daysBeforeMonth (y : Nat) (m : Nat) : Nat :=
  match m with
  | 0 => 0
  | k + 1 => daysBeforeMonth y k + daysInMonth y k

/-- The C library `timegm`, by the formula POSIX gives for the seconds since
the Epoch, with the day of the year taken from `tm_mon` and `tm_mday`; the
members `tm_wday`, `tm_yday` and `tm_isdst` are not read. -/
def timegm (b : tm) : Int :=
  let yday : Int :=
    (daysBeforeMonth (b.tm_year + 1900).toNat b.tm_mon.toNat : Int) + b.tm_mday - 1
  b.tm_sec + b.tm_min * 60 + b.tm_hour * 3600 + yday * 86400 +
    (b.tm_year - 70) * 31536000 + ((b.tm_year - 69) / 4) * 86400 -
    ((b.tm_year - 1) / 100) * 86400 + ((b.tm_year + 299) / 400) * 86400

end Rfc1123

namespace Comm

/-! ## Normal forms

Every piece of a handler is a record update of the job: the lemmas below say
which members it writes and which calls it appends. -/

theorem cancelEarlyAbort_eq (s : ConnOpener) :
    cancelEarlyAbort s = { s with
      earlyAbort_ := false
      trace := s.trace ++ (if s.earlyAbort_ then [Effect.cancelEarlyAbort] else []) } := by
  obtain ⟨host, conn, cb, tt, fr, cto, cst, ea, tmo, tr⟩ := s
  cases ea <;> simp [cancelEarlyAbort, emit]

theorem cancelTimeout_eq (s : ConnOpener) :
    cancelTimeout s = { s with
      timeout_ := false
      trace := s.trace ++ (if s.timeout_ then [Effect.cancelTimeout] else []) } := by
  obtain ⟨host, conn, cb, tt, fr, cto, cst, ea, tmo, tr⟩ := s
  cases tmo <;> simp [cancelTimeout, emit]

theorem connClose_eq (s : ConnOpener) :
    connClose s = { s with
      conn_ := s.conn_.map Connection.close
      trace := s.trace ++ (match s.conn_ with
        | some c => c.closeCalls
        | none => []) } := by
  obtain ⟨host, conn, cb, tt, fr, cto, cst, ea, tmo, tr⟩ := s
  cases conn <;> simp [connClose]

theorem doneConnecting_eq (s : ConnOpener) (st : comm_err_t) (x : Int) :
    doneConnecting s st x = { s with
      conn_ := none
      callback_ := none
      trace := s.trace ++ (match s.callback_ with
        | some cb => [Effect.ScheduleCallHere cb s.conn_ st x]
        | none => []) } := by
  obtain ⟨host, conn, cb, tt, fr, cto, cst, ea, tmo, tr⟩ := s
  cases cb <;> simp [doneConnecting]

theorem markGoodAddr_eq (s : ConnOpener) (c : Connection) :
    markGoodAddr s c = { s with
      trace := s.trace ++ (match s.host_ with
        | some h => [Effect.ipcacheMarkGoodAddr h c.remote]
        | none => []) } := by
  obtain ⟨host, conn, cb, tt, fr, cto, cst, ea, tmo, tr⟩ := s
  cases host <;> simp [markGoodAddr, emit]

theorem markBadAddr_eq (s : ConnOpener) (c : Connection) :
    markBadAddr s c = { s with
      trace := s.trace ++ (match s.host_ with
        | some h => [Effect.ipcacheMarkBadAddr h c.remote]
        | none => []) } := by
  obtain ⟨host, conn, cb, tt, fr, cto, cst, ea, tmo, tr⟩ := s
  cases host <;> simp [markBadAddr, emit]

theorem testReachability_eq (cfg : Config) (s : ConnOpener) (c : Connection) :
    testReachability cfg s c = { s with
      trace := s.trace ++ (if cfg.USE_ICMP && cfg.test_reachability then
        [Effect.netdbDeleteAddrNetwork c.remote] else []) } := by
  obtain ⟨host, conn, cb, tt, fr, cto, cst, ea, tmo, tr⟩ := s
  cases h : (cfg.USE_ICMP && cfg.test_reachability) <;> simp [testReachability, emit, h]

theorem peerConnOpen_eq (s : ConnOpener) (c : Connection) :
    peerConnOpen s c = { s with
      trace := s.trace ++ (match c.peer with
        | some p => [Effect.peerConnOpenIncr p]
        | none => []) } := by
  obtain ⟨host, conn, cb, tt, fr, cto, cst, ea, tmo, tr⟩ := s
  cases h : c.peer <;> simp [peerConnOpen, emit, h]

/-- The connection after `lookupLocalAddress`: the local address is replaced
only when `getsockname` gave one. -/
theorem lookupLocalAddress_eq (env : Env) (s : ConnOpener) (c : Connection)
    (hc : s.conn_ = some c) :
    lookupLocalAddress env s c = { s with
      conn_ := some { c with localAddr := env.sockname.getD c.localAddr }
      trace := s.trace ++ [Effect.getsockname c.fd] } := by
  obtain ⟨host, conn, cb, tt, fr, cto, cst, ea, tmo, tr⟩ := s
  simp only at hc
  subst hc
  cases h : env.sockname <;> simp [lookupLocalAddress, emit, h]

theorem connected_eq (env : Env) (s : ConnOpener) (c : Connection) (hc : s.conn_ = some c) :
    connected env s c = { s with
      conn_ := some { c with localAddr := env.sockname.getD c.localAddr }
      trace := s.trace ++ ((match c.peer with
        | some p => [Effect.peerConnOpenIncr p]
        | none => []) ++
        [Effect.getsockname c.fd, Effect.fdTableOpen c.fd (env.sockname.getD c.localAddr)]) } := by
  unfold connected
  rw [lookupLocalAddress_eq env _ c (by rw [peerConnOpen_eq]; exact hc), peerConnOpen_eq]
  simp [emit]

/-! ## What handlers never undo -/

theorem Grows.self (s : ConnOpener) : Grows s s :=
  ⟨⟨[], by simp⟩, id, id, le_refl _, le_refl _, rfl, rfl⟩

theorem Grows.chain {a b c : ConnOpener} (h1 : Grows a b) (h2 : Grows b c) : Grows a c := by
  obtain ⟨⟨t1, e1⟩, cb1, cn1, tt1, fr1, to1, ho1⟩ := h1
  obtain ⟨⟨t2, e2⟩, cb2, cn2, tt2, fr2, to2, ho2⟩ := h2
  refine ⟨⟨t1 ++ t2, ?_⟩, fun h => cb2 (cb1 h), fun h => cn2 (cn1 h), le_trans tt1 tt2,
    le_trans fr1 fr2, to2.trans to1, ho2.trans ho1⟩
  rw [e2, e1, List.append_assoc]

theorem grows_emit (s : ConnOpener) (e : Effect) : Grows s (emit s e) :=
  ⟨⟨[e], rfl⟩, id, id, le_refl _, le_refl _, rfl, rfl⟩

theorem grows_cancelEarlyAbort (s : ConnOpener) : Grows s (cancelEarlyAbort s) := by
  rw [cancelEarlyAbort_eq]
  exact ⟨⟨_, rfl⟩, id, id, le_refl _, le_refl _, rfl, rfl⟩

theorem grows_cancelTimeout (s : ConnOpener) : Grows s (cancelTimeout s) := by
  rw [cancelTimeout_eq]
  exact ⟨⟨_, rfl⟩, id, id, le_refl _, le_refl _, rfl, rfl⟩

theorem grows_connClose (s : ConnOpener) : Grows s (connClose s) := by
  rw [connClose_eq]
  exact ⟨⟨_, rfl⟩, id, fun h => by simp [h], le_refl _, le_refl _, rfl, rfl⟩

theorem grows_doneConnecting (s : ConnOpener) (st : comm_err_t) (x : Int) :
    Grows s (doneConnecting s st x) := by
  rw [doneConnecting_eq]
  exact ⟨⟨_, rfl⟩, fun _ => rfl, fun _ => rfl, le_refl _, le_refl _, rfl, rfl⟩

theorem grows_markGoodAddr (s : ConnOpener) (c : Connection) : Grows s (markGoodAddr s c) := by
  rw [markGoodAddr_eq]
  exact ⟨⟨_, rfl⟩, id, id, le_refl _, le_refl _, rfl, rfl⟩

theorem grows_markBadAddr (s : ConnOpener) (c : Connection) : Grows s (markBadAddr s c) := by
  rw [markBadAddr_eq]
  exact ⟨⟨_, rfl⟩, id, id, le_refl _, le_refl _, rfl, rfl⟩

theorem grows_testReachability (cfg : Config) (s : ConnOpener) (c : Connection) :
    Grows s (testReachability cfg s c) := by
  rw [testReachability_eq]
  exact ⟨⟨_, rfl⟩, id, id, le_refl _, le_refl _, rfl, rfl⟩

theorem grows_rollback (s : ConnOpener) : Grows s (rollback s) := by
  unfold rollback
  split
  · split
    · exact ((grows_emit _ _).chain (grows_emit _ _)).chain (grows_connClose _)
    · exact Grows.self s
  · exact Grows.self s

theorem grows_swanSong (s : ConnOpener) : Grows s (swanSong s) := by
  have h : Grows s (rollback (cancelTimeout (cancelEarlyAbort s))) :=
    ((grows_cancelEarlyAbort s).chain (grows_cancelTimeout _)).chain (grows_rollback _)
  unfold swanSong
  simp only []
  split
  · exact h.chain (grows_doneConnecting _ _ _)
  · exact h

theorem grows_connectAttempt (s : ConnOpener) (c : Connection) :
    Grows s (connectAttempt s c) :=
  ⟨⟨[Effect.comm_connect_addr c.fd c.remote], rfl⟩, id, id, Nat.le_succ _, le_refl _, rfl, rfl⟩

theorem grows_connectInProgress (env : Env) (s : ConnOpener) (c : Connection) :
    Grows s (connectInProgress env s c) := by
  unfold connectInProgress
  split
  · exact (grows_connClose s).chain (grows_doneConnecting _ _ _)
  · exact grows_emit _ _

theorem grows_connectOk (env : Env) (s : ConnOpener) (c : Connection)
    (hc : s.conn_ = some c) : Grows s (connectOk env s c) := by
  have h : Grows s (connected env s c) := by
    rw [connected_eq env s c hc]
    exact ⟨⟨_, rfl⟩, id, fun h => by simp [hc] at h, le_refl _, le_refl _, rfl, rfl⟩
  exact (h.chain (grows_markGoodAddr _ _)).chain (grows_doneConnecting _ _ _)

theorem grows_connectDefault (cfg : Config) (env : Env) (s : ConnOpener) (c : Connection) :
    Grows s (connectDefault cfg env s c) := by
  have h0 : Grows s (testReachability cfg
      (markBadAddr { s with failRetries_ := s.failRetries_ + 1 } c) c) := by
    have h1 : Grows s { s with failRetries_ := s.failRetries_ + 1 } :=
      ⟨⟨[], by simp⟩, id, id, le_refl _, Nat.le_succ _, rfl, rfl⟩
    exact (h1.chain (grows_markBadAddr _ _)).chain (grows_testReachability _ _ _)
  unfold connectDefault
  simp only []
  split
  · exact ((h0.chain (grows_cancelEarlyAbort _)).chain (grows_connClose _)).chain
      (grows_doneConnecting _ _ _)
  · split
    · exact h0.chain (grows_emit _ _)
    · exact ((h0.chain (grows_cancelEarlyAbort _)).chain (grows_connClose _)).chain
        (grows_doneConnecting _ _ _)

theorem grows_connect (cfg : Config) (env : Env) (s s2 : ConnOpener)
    (h : connect cfg env s = some s2) : Grows s s2 := by
  unfold connect at h
  split at h
  · simp at h
  · rename_i c hc
    split at h <;> simp at h <;> subst h
    · exact (grows_connectAttempt s c).chain (grows_connectInProgress _ _ _)
    · exact (grows_connectAttempt s c).chain (grows_connectOk _ _ _ hc)
    · exact (grows_connectAttempt s c).chain (grows_connectDefault _ _ _ _)

theorem grows_startConnecting (cfg : Config) (env : Env) (s s2 : ConnOpener) (c : Connection)
    (h : startConnecting cfg env s c = some s2) : Grows s s2 := by
  unfold startConnecting at h
  refine Grows.chain ?_ (grows_connect cfg env _ s2 h)
  exact ⟨⟨[Effect.comm_add_close_handler c.fd,
    Effect.commSetTimeout c.fd s.connectTimeout_ true], by simp [startWatches, emit]⟩,
    id, id, le_refl _, le_refl _, rfl, rfl⟩

theorem grows_start (cfg : Config) (env : Env) (s s2 : ConnOpener)
    (h : start cfg env s = some s2) : Grows s s2 := by
  unfold start at h
  split at h
  · simp at h
  · rename_i c hc
    have h1 : Grows s { emit s (Effect.comm_openex env.openexFd) with
        conn_ := some (openSocket cfg env c) } :=
      ⟨⟨[Effect.comm_openex env.openexFd], rfl⟩, id, fun h => by simp [hc] at h, le_refl _,
        le_refl _, rfl, rfl⟩
    split at h
    · simp only [] at h
      split at h
      · simp at h
        subst h
        exact h1.chain (grows_doneConnecting _ _ _)
      · exact h1.chain (grows_startConnecting cfg env _ s2 _ h)
    · exact grows_startConnecting cfg env _ s2 _ h

theorem grows_step (cfg : Config) (s : ConnOpener) (ev : Handler × Env) :
    Grows s (step cfg s ev) := by
  unfold step
  split
  · cases h : start cfg ev.2 s with
    | none => exact Grows.self s
    | some s2 => exact grows_start cfg ev.2 s s2 h
  · cases h : connect cfg ev.2 s with
    | none => exact Grows.self s
    | some s2 => exact grows_connect cfg ev.2 s s2 h
  · exact grows_doneConnecting _ _ _
  · cases h : timeout cfg ev.2 s with
    | none => exact Grows.self s
    | some s2 => exact grows_connect cfg ev.2 s s2 h
  · exact grows_swanSong s

theorem grows_run (cfg : Config) (evs : List (Handler × Env)) (s : ConnOpener) :
    Grows s (run cfg s evs) := by
  induction evs generalizing s with
  | nil => exact Grows.self s
  | cons ev evs ih => exact (grows_step cfg s ev).chain (ih (step cfg s ev))

/-! ## Single delivery -/

theorem scheduled_append (t u : List Effect) : scheduled (t ++ u) = scheduled t + scheduled u := by
  simp [scheduled, List.countP_append]

theorem scheduled_nil : scheduled [] = 0 := rfl

theorem scheduled_cons (e : Effect) (t : List Effect) :
    scheduled (e :: t) = (if e.isSchedule then 1 else 0) + scheduled t := by
  cases h : e.isSchedule
  · simp [scheduled, List.countP_cons, h]
  · simp [scheduled, List.countP_cons, h]; omega

theorem scheduled_closeCalls (c : Connection) : scheduled c.closeCalls = 0 := by
  unfold Connection.closeCalls
  split <;> simp [scheduled_cons, scheduled_nil, Effect.isSchedule]

theorem owed_doneConnecting (s : ConnOpener) (st : comm_err_t) (x : Int) :
    owed (doneConnecting s st x) = owed s := by
  obtain ⟨host, conn, cb, tt, fr, cto, cst, ea, tmo, tr⟩ := s
  cases cb <;>
    simp [doneConnecting_eq, owed, pending, scheduled_append, scheduled_cons, scheduled_nil,
      Effect.isSchedule]

theorem owed_connClose (s : ConnOpener) : owed (connClose s) = owed s := by
  obtain ⟨host, conn, cb, tt, fr, cto, cst, ea, tmo, tr⟩ := s
  cases conn <;>
    simp [connClose_eq, owed, pending, scheduled_append, scheduled_nil, scheduled_closeCalls]

theorem owed_cancelEarlyAbort (s : ConnOpener) : owed (cancelEarlyAbort s) = owed s := by
  obtain ⟨host, conn, cb, tt, fr, cto, cst, ea, tmo, tr⟩ := s
  cases ea <;>
    simp [cancelEarlyAbort_eq, owed, pending, scheduled_append, scheduled_cons, scheduled_nil,
      Effect.isSchedule]

theorem owed_cancelTimeout (s : ConnOpener) : owed (cancelTimeout s) = owed s := by
  obtain ⟨host, conn, cb, tt, fr, cto, cst, ea, tmo, tr⟩ := s
  cases tmo <;>
    simp [cancelTimeout_eq, owed, pending, scheduled_append, scheduled_cons, scheduled_nil,
      Effect.isSchedule]

theorem owed_emit (s : ConnOpener) (e : Effect) (he : e.isSchedule = false) :
    owed (emit s e) = owed s := by
  simp [owed, emit, pending, scheduled_append, scheduled_cons, scheduled_nil, he]

theorem owed_markGoodAddr (s : ConnOpener) (c : Connection) : owed (markGoodAddr s c) = owed s := by
  unfold markGoodAddr
  split
  · exact owed_emit _ _ rfl
  · rfl

theorem owed_markBadAddr (s : ConnOpener) (c : Connection) : owed (markBadAddr s c) = owed s := by
  unfold markBadAddr
  split
  · exact owed_emit _ _ rfl
  · rfl

theorem owed_testReachability (cfg : Config) (s : ConnOpener) (c : Connection) :
    owed (testReachability cfg s c) = owed s := by
  unfold testReachability
  split
  · exact owed_emit _ _ rfl
  · rfl

theorem owed_connected (env : Env) (s : ConnOpener) (c : Connection) :
    owed (connected env s c) = owed s := by
  obtain ⟨host, conn, cb, tt, fr, cto, cst, ea, tmo, tr⟩ := s
  cases hp : c.peer <;> cases hs : env.sockname <;> cases conn <;>
    simp [connected, lookupLocalAddress, peerConnOpen, emit, hp, hs, owed, pending,
      scheduled_append, scheduled_cons, scheduled_nil, Effect.isSchedule]

theorem owed_connectAttempt (s : ConnOpener) (c : Connection) :
    owed (connectAttempt s c) = owed s := by
  simp [connectAttempt, owed, emit, pending, scheduled_append, scheduled_cons, scheduled_nil,
    Effect.isSchedule]

theorem owed_connectInProgress (env : Env) (s : ConnOpener) (c : Connection) :
    owed (connectInProgress env s c) = owed s := by
  unfold connectInProgress
  split
  · rw [owed_doneConnecting, owed_connClose]
  · exact owed_emit _ _ rfl

theorem owed_connectOk (env : Env) (s : ConnOpener) (c : Connection) :
    owed (connectOk env s c) = owed s := by
  unfold connectOk
  rw [owed_doneConnecting, owed_markGoodAddr, owed_connected]

theorem owed_connectDefault (cfg : Config) (env : Env) (s : ConnOpener) (c : Connection) :
    owed (connectDefault cfg env s c) = owed s := by
  have h0 : owed (testReachability cfg
      (markBadAddr { s with failRetries_ := s.failRetries_ + 1 } c) c) = owed s := by
    rw [owed_testReachability, owed_markBadAddr]; rfl
  unfold connectDefault
  simp only []
  split
  · rw [owed_doneConnecting, owed_connClose, owed_cancelEarlyAbort, h0]
  · split
    · rw [owed_emit _ _ (by rfl), h0]
    · rw [owed_doneConnecting, owed_connClose, owed_cancelEarlyAbort, h0]

theorem owed_connect (cfg : Config) (env : Env) (s s2 : ConnOpener)
    (h : connect cfg env s = some s2) : owed s2 = owed s := by
  unfold connect at h
  split at h
  · simp at h
  · split at h <;> simp at h <;> subst h
    · rw [owed_connectInProgress, owed_connectAttempt]
    · rw [owed_connectOk, owed_connectAttempt]
    · rw [owed_connectDefault, owed_connectAttempt]

theorem owed_startConnecting (cfg : Config) (env : Env) (s s2 : ConnOpener) (c : Connection)
    (h : startConnecting cfg env s c = some s2) : owed s2 = owed s := by
  unfold startConnecting at h
  rw [owed_connect cfg env _ s2 h]
  simp [startWatches, owed, emit, pending, scheduled_append, scheduled_cons, scheduled_nil, Effect.isSchedule]

theorem owed_start (cfg : Config) (env : Env) (s s2 : ConnOpener)
    (h : start cfg env s = some s2) : owed s2 = owed s := by
  unfold start at h
  split at h
  · simp at h
  · split at h
    · simp only [] at h
      split at h
      · simp at h
        subst h
        rw [owed_doneConnecting]
        simp [owed, emit, pending, scheduled_append, scheduled_cons, scheduled_nil,
          Effect.isSchedule]
      · rw [owed_startConnecting cfg env _ s2 _ h]
        simp [owed, emit, pending, scheduled_append, scheduled_cons, scheduled_nil,
          Effect.isSchedule]
    · exact owed_startConnecting cfg env _ s2 _ h

theorem owed_rollback (s : ConnOpener) : owed (rollback s) = owed s := by
  unfold rollback
  split
  · split
    · rw [owed_connClose, owed_emit _ _ (by rfl), owed_emit _ _ (by rfl)]
    · rfl
  · rfl

theorem owed_swanSong (s : ConnOpener) : owed (swanSong s) = owed s := by
  unfold swanSong
  simp only []
  split
  · rw [owed_doneConnecting, owed_rollback, owed_cancelTimeout, owed_cancelEarlyAbort]
  · rw [owed_rollback, owed_cancelTimeout, owed_cancelEarlyAbort]

theorem owed_step (cfg : Config) (s : ConnOpener) (ev : Handler × Env) :
    owed (step cfg s ev) = owed s := by
  unfold step
  split
  · cases h : start cfg ev.2 s with
    | none => rfl
    | some s2 => exact owed_start cfg ev.2 s s2 h
  · cases h : connect cfg ev.2 s with
    | none => rfl
    | some s2 => exact owed_connect cfg ev.2 s s2 h
  · exact owed_doneConnecting _ _ _
  · cases h : timeout cfg ev.2 s with
    | none => rfl
    | some s2 => exact owed_connect cfg ev.2 s s2 h
  · exact owed_swanSong s

theorem owed_run (cfg : Config) (evs : List (Handler × Env)) (s : ConnOpener) :
    owed (run cfg s evs) = owed s := by
  induction evs generalizing s with
  | nil => rfl
  | cons ev evs ih =>
    show owed (run cfg (step cfg s ev) evs) = owed s
    rw [ih, owed_step]

theorem run_append (cfg : Config) (s : ConnOpener) (l1 l2 : List (Handler × Env)) :
    run cfg s (l1 ++ l2) = run cfg (run cfg s l1) l2 := by
  simp [run, List.foldl_append]

theorem pending_of_callback_none (s : ConnOpener) (h : s.callback_ = none) : pending s = 0 := by
  simp [pending, h]

theorem callback_doneConnecting (s : ConnOpener) (st : comm_err_t) (x : Int) :
    (doneConnecting s st x).callback_ = none := by
  rw [doneConnecting_eq]

theorem callback_swanSong (s : ConnOpener) : (swanSong s).callback_ = none := by
  unfold swanSong
  simp only []
  split
  · exact callback_doneConnecting _ _ _
  · rename_i h
    simpa using h

/-- C1: over any finite sequence of handler invocations (start, connect with
any result of comm_connect_addr, earlyAbort, timeout, swanSong, in any order)
the completion callback is scheduled at most once: a job fresh from its
constructor ends with at most one scheduling, any job gains at most one,
doneConnecting leaves callback_ NULL, and after doneConnecting no handler
sequence adds a scheduling. -/
theorem callback_scheduled_at_most_once (cfg : Config) (c : Option Connection)
    (handler : Option AsyncCall) (ctimeout : Int) (host : Option String)
    (evs : List (Handler × Env)) (s : ConnOpener) (st : comm_err_t) (x : Int) :
    scheduled (run cfg (setHost (ConnOpener.new c handler ctimeout) host) evs).trace ≤ 1 ∧
    scheduled (run cfg s evs).trace ≤ scheduled s.trace + 1 ∧
    (doneConnecting s st x).callback_ = none ∧
    scheduled (run cfg (doneConnecting s st x) evs).trace
      = scheduled (doneConnecting s st x).trace := by
  have hp : ∀ t : ConnOpener, pending t ≤ 1 := by
    intro t
    unfold pending
    split <;> omega
  refine ⟨?_, ?_, callback_doneConnecting s st x, ?_⟩
  · have h := owed_run cfg evs (setHost (ConnOpener.new c handler ctimeout) host)
    have h0 : scheduled (setHost (ConnOpener.new c handler ctimeout) host).trace = 0 := rfl
    have h1 := hp (setHost (ConnOpener.new c handler ctimeout) host)
    unfold owed at h
    omega
  · have h := owed_run cfg evs s
    have h1 := hp s
    unfold owed at h
    omega
  · have h := owed_run cfg evs (doneConnecting s st x)
    have h1 := pending_of_callback_none _ (callback_doneConnecting s st x)
    have h2 := pending_of_callback_none _
      ((grows_run cfg evs (doneConnecting s st x)).2.1 (callback_doneConnecting s st x))
    unfold owed at h
    omega

/-! ## One connect attempt -/

theorem connect_failure (cfg : Config) (env : Env) (s : ConnOpener) (c : Connection)
    (hc : s.conn_ = some c) (hr : isFailure env.connectResult = true) :
    connect cfg env s = some (connectDefault cfg env (connectAttempt s c) c) := by
  unfold connect
  rw [hc]
  cases h : env.connectResult <;> simp_all [isFailure]

theorem connect_inprogress (cfg : Config) (env : Env) (s : ConnOpener) (c : Connection)
    (hc : s.conn_ = some c) (hr : env.connectResult = comm_err_t.COMM_INPROGRESS) :
    connect cfg env s = some (connectInProgress env (connectAttempt s c) c) := by
  unfold connect
  rw [hc]
  simp [hr]

theorem connect_ok (cfg : Config) (env : Env) (s : ConnOpener) (c : Connection)
    (hc : s.conn_ = some c) (hr : env.connectResult = comm_err_t.COMM_OK) :
    connect cfg env s = some (connectOk env (connectAttempt s c) c) := by
  unfold connect
  rw [hc]
  simp [hr]

theorem connectDefault_retry (cfg : Config) (env : Env) (s : ConnOpener) (c : Connection)
    (hd : tookTooLong env s = false) (hn : (s.failRetries_ : Int) + 1 < cfg.connect_retries) :
    connectDefault cfg env s c = { s with
      failRetries_ := s.failRetries_ + 1
      trace := s.trace ++ ((match s.host_ with
        | some h => [Effect.ipcacheMarkBadAddr h c.remote]
        | none => []) ++
        ((if cfg.USE_ICMP && cfg.test_reachability then
          [Effect.netdbDeleteAddrNetwork c.remote] else []) ++
        [Effect.eventAddDelayedConnectRetry])) } := by
  unfold connectDefault
  simp only [testReachability_eq, markBadAddr_eq, cancelEarlyAbort_eq, connClose_eq,
    doneConnecting_eq, emit]
  unfold tookTooLong at hd ⊢
  simp only [hd]
  simp [hn]

theorem connectDefault_giveUp (cfg : Config) (env : Env) (s : ConnOpener) (c : Connection)
    (hd : tookTooLong env s = true ∨ ¬ ((s.failRetries_ : Int) + 1 < cfg.connect_retries)) :
    connectDefault cfg env s c = { s with
      failRetries_ := s.failRetries_ + 1
      earlyAbort_ := false
      conn_ := none
      callback_ := none
      trace := s.trace ++ ((match s.host_ with
        | some h => [Effect.ipcacheMarkBadAddr h c.remote]
        | none => []) ++
        ((if cfg.USE_ICMP && cfg.test_reachability then
          [Effect.netdbDeleteAddrNetwork c.remote] else []) ++
        ((if s.earlyAbort_ then [Effect.cancelEarlyAbort] else []) ++
        ((match s.conn_ with
          | some c2 => c2.closeCalls
          | none => []) ++
        (match s.callback_ with
          | some cb => [Effect.ScheduleCallHere cb (s.conn_.map Connection.close)
              (if tookTooLong env s then comm_err_t.COMM_TIMEOUT else comm_err_t.COMM_ERR_CONNECT)
              env.errno]
          | none => []))))) } := by
  unfold connectDefault
  simp only [testReachability_eq, markBadAddr_eq, cancelEarlyAbort_eq, connClose_eq,
    doneConnecting_eq, emit]
  cases ht : tookTooLong env s
  · have hn : ¬ ((s.failRetries_ : Int) + 1 < cfg.connect_retries) := by
      rcases hd with hd | hd
      · rw [ht] at hd; cases hd
      · exact hd
    unfold tookTooLong at ht ⊢
    simp only [ht]
    simp [hn]
  · unfold tookTooLong at ht ⊢
    simp only [ht]
    simp

theorem tookTooLong_connectAttempt (env : Env) (s : ConnOpener) (c : Connection) :
    tookTooLong env (connectAttempt s c) = tookTooLong env s := rfl

/-- One failing attempt made before the timeout has passed, on a job that still
has its connection and its callback. -/
theorem fail_step (cfg : Config) (env : Env) (s : ConnOpener) (c : Connection) (cb : AsyncCall)
    (hc : s.conn_ = some c) (hcb : s.callback_ = some cb)
    (hr : isFailure env.connectResult = true) (hd : tookTooLong env s = false) :
    ∃ s2, connect cfg env s = some s2 ∧
      s2.totalTries_ = s.totalTries_ + 1 ∧ s2.failRetries_ = s.failRetries_ + 1 ∧
      attempts s2.trace = attempts s.trace + 1 ∧
      s2.connectStart_ = s.connectStart_ ∧ s2.connectTimeout_ = s.connectTimeout_ ∧
      ((s.failRetries_ : Int) + 1 < cfg.connect_retries →
        s2.conn_ = some c ∧ s2.callback_ = some cb ∧
        deliveries s2.trace = deliveries s.trace ∧
        retriesScheduled s2.trace = retriesScheduled s.trace + 1) ∧
      (¬ ((s.failRetries_ : Int) + 1 < cfg.connect_retries) →
        s2.conn_ = none ∧ s2.callback_ = none ∧
        deliveries s2.trace
          = deliveries s.trace ++ [(cb, comm_err_t.COMM_ERR_CONNECT, env.errno)] ∧
        retriesScheduled s2.trace = retriesScheduled s.trace) := by
  refine ⟨_, connect_failure cfg env s c hc hr, ?_⟩
  have hd2 : tookTooLong env (connectAttempt s c) = false := hd
  by_cases hn : (s.failRetries_ : Int) + 1 < cfg.connect_retries
  · rw [connectDefault_retry cfg env _ c (by rw [tookTooLong_connectAttempt]; exact hd)
      (by exact hn)]
    obtain ⟨host, conn, cb0, tt, fr, cto, cst, ea, tmo, tr⟩ := s
    simp only at hc hcb hn
    subst hc hcb
    cases host <;> cases hI : (cfg.USE_ICMP && cfg.test_reachability) <;>
      simp [connectAttempt, emit, hn, hI, attempts, deliveries, retriesScheduled,
        List.countP_append, List.countP_cons, List.filterMap_append, List.filterMap_cons,
        Effect.isAttempt, Effect.isRetryEvent]
  · rw [connectDefault_giveUp cfg env _ c (Or.inr (by exact hn))]
    obtain ⟨host, conn, cb0, tt, fr, cto, cst, ea, tmo, tr⟩ := s
    simp only at hc hcb hn
    subst hc hcb
    cases host <;> cases hI : (cfg.USE_ICMP && cfg.test_reachability) <;> cases ea <;>
      cases ho : c.isOpen <;>
      simp [hd2, connectAttempt, emit, hn, hI, ho, attempts, deliveries, retriesScheduled,
        List.countP_append, List.countP_cons, List.filterMap_append, List.filterMap_cons,
        Effect.isAttempt, Effect.isRetryEvent, Connection.closeCalls] <;>
      exact hd

/-! ## Exhausting the retries -/

/-- With a socket at hand, `start` registers its two watches, notes the time
and goes on to `connect`. -/
theorem start_with_socket (cfg : Config) (e0 : Env) (c : Connection) (cb : AsyncCall)
    (ctimeout : Int) (host : Option String)
    (hopen : c.isOpen = true ∨ 0 ≤ e0.openexFd) :
    ∃ s1, start cfg e0 (setHost (ConnOpener.new (some c) (some cb) ctimeout) host)
        = connect cfg e0 s1 ∧
      Retrying s1 cb e0.squid_curtime ctimeout 0 := by
  cases ho : c.isOpen
  · have h2 : (openSocket cfg e0 c).isOpen = true := by
      rcases hopen with h | h
      · rw [ho] at h; cases h
      · simp [openSocket, Connection.isOpen, h]
    refine ⟨startWatches e0 { emit (setHost (ConnOpener.new (some c) (some cb) ctimeout) host)
      (Effect.comm_openex e0.openexFd) with conn_ := some (openSocket cfg e0 c) }
      (openSocket cfg e0 c), ?_, ?_⟩
    · simp [start, setHost, ConnOpener.new, ho, h2, startConnecting]
    · simp [Retrying, startWatches, setHost, ConnOpener.new, emit, attempts, deliveries,
        retriesScheduled, Effect.isAttempt, Effect.isRetryEvent]
  · refine ⟨startWatches e0 (setHost (ConnOpener.new (some c) (some cb) ctimeout) host) c,
      ?_, ?_⟩
    · simp [start, setHost, ConnOpener.new, ho, startConnecting]
    · simp [Retrying, startWatches, setHost, ConnOpener.new, emit, attempts, deliveries,
        retriesScheduled, Effect.isAttempt, Effect.isRetryEvent]

theorem retrying_step (cfg : Config) (env : Env) (s : ConnOpener) (cb : AsyncCall)
    (st ct : Int) (k : Nat) (hs : Retrying s cb st ct k)
    (hr : isFailure env.connectResult = true) (hd : env.squid_curtime - st ≤ ct) :
    ∃ s2, connect cfg env s = some s2 ∧ s2.totalTries_ = k + 1 ∧ attempts s2.trace = k + 1 ∧
      ((k : Int) + 1 < cfg.connect_retries → Retrying s2 cb st ct (k + 1)) ∧
      (¬ ((k : Int) + 1 < cfg.connect_retries) →
        s2.conn_ = none ∧ s2.callback_ = none ∧
        deliveries s2.trace = [(cb, comm_err_t.COMM_ERR_CONNECT, env.errno)] ∧
        retriesScheduled s2.trace = k) := by
  obtain ⟨hc, hcb, htt, hfr, hat, hdl, hrs, hst, hct⟩ := hs
  obtain ⟨c, hc⟩ := Option.isSome_iff_exists.mp hc
  have hlate : tookTooLong env s = false := by
    simp [tookTooLong, hst, hct, hd]
  obtain ⟨s2, h1, h2, h3, h4, h5, h6, h7, h8⟩ := fail_step cfg env s c cb hc hcb hr hlate
  rw [hfr] at h7 h8
  refine ⟨s2, h1, by omega, by omega, ?_, ?_⟩
  · intro hn
    obtain ⟨a1, a2, a3, a4⟩ := h7 hn
    exact ⟨by simp [a1], a2, by omega, by omega, by omega, by rw [a3, hdl], by omega,
      by rw [h5, hst], by rw [h6, hct]⟩
  · intro hn
    obtain ⟨a1, a2, a3, a4⟩ := h8 hn
    exact ⟨a1, a2, by rw [a3, hdl]; rfl, by omega⟩

theorem retryRun_nil (cfg : Config) (s0 : ConnOpener) (e0 : Env) :
    retryRun cfg s0 e0 [] = (start cfg e0 s0).getD s0 := rfl

theorem retryRun_snoc (cfg : Config) (s0 : ConnOpener) (e0 e : Env) (es : List Env) :
    retryRun cfg s0 e0 (es ++ [e])
      = (connect cfg e (retryRun cfg s0 e0 es)).getD (retryRun cfg s0 e0 es) := by
  simp [retryRun, run, List.foldl_append, step]

/-- While the failures are fewer than `connect_retries`, the job keeps waiting
for its next delayed retry. -/
theorem retryRun_retrying (cfg : Config) (e0 : Env) (c : Connection) (cb : AsyncCall)
    (ctimeout : Int) (host : Option String)
    (hopen : c.isOpen = true ∨ 0 ≤ e0.openexFd)
    (hfail0 : isFailure e0.connectResult = true) (htime0 : 0 ≤ ctimeout)
    (es : List Env)
    (hes : ∀ e ∈ es, isFailure e.connectResult = true ∧
      e.squid_curtime - e0.squid_curtime ≤ ctimeout)
    (hlen : ((es.length : Int) + 1 < cfg.connect_retries)) :
    Retrying (retryRun cfg (setHost (ConnOpener.new (some c) (some cb) ctimeout) host) e0 es)
      cb e0.squid_curtime ctimeout (es.length + 1) := by
  induction es using List.reverseRecOn with
  | nil =>
    obtain ⟨s1, h1, h2⟩ := start_with_socket cfg e0 c cb ctimeout host hopen
    obtain ⟨s2, h3, _, _, h4, _⟩ :=
      retrying_step cfg e0 s1 cb e0.squid_curtime ctimeout 0 h2 hfail0 (by omega)
    rw [retryRun_nil, h1, h3]
    exact h4 (by simpa using hlen)
  | append_singleton es e ih =>
    have hes2 : ∀ x ∈ es, isFailure x.connectResult = true ∧
        x.squid_curtime - e0.squid_curtime ≤ ctimeout :=
      fun x hx => hes x (by simp [hx])
    have hlen2 : ((es.length : Int) + 1 < cfg.connect_retries) := by
      simp at hlen
      omega
    have hinv := ih hes2 hlen2
    obtain ⟨he1, he2⟩ := hes e (by simp)
    obtain ⟨s2, h3, _, _, h4, _⟩ :=
      retrying_step cfg e _ cb e0.squid_curtime ctimeout (es.length + 1) hinv he1 he2
    rw [retryRun_snoc, h3]
    simp only [List.length_append, List.length_singleton]
    apply h4
    simp at hlen
    push_cast
    omega

/-- C3, as the code has it: when every attempt fails at once and the timeout
never passes, a job with `connect_retries = N` delivers COMM_ERR_CONNECT at its
attempt number max(N, 1): `es` lists the delayed retries that fired, one fewer
than max(N, 1).  By then it has issued exactly max(N, 1) attempts, every delayed
retry it scheduled has fired, and connect() can issue no further attempt;
before that attempt nothing was delivered and a retry was pending. -/
theorem retries_exhausted (cfg : Config) (e0 : Env) (c : Connection) (cb : AsyncCall)
    (ctimeout : Int) (host : Option String)
    (hopen : c.isOpen = true ∨ 0 ≤ e0.openexFd)
    (hfail0 : isFailure e0.connectResult = true) (htime0 : 0 ≤ ctimeout)
    (es : List Env)
    (hes : ∀ e ∈ es, isFailure e.connectResult = true ∧
      e.squid_curtime - e0.squid_curtime ≤ ctimeout)
    (hlen : (es.length : Int) + 1 = max cfg.connect_retries 1) :
    attempts (retryRun cfg (setHost (ConnOpener.new (some c) (some cb) ctimeout) host)
      e0 es).trace = es.length + 1 ∧
    (retryRun cfg (setHost (ConnOpener.new (some c) (some cb) ctimeout) host)
      e0 es).totalTries_ = es.length + 1 ∧
    deliveries (retryRun cfg (setHost (ConnOpener.new (some c) (some cb) ctimeout) host)
      e0 es).trace = [(cb, comm_err_t.COMM_ERR_CONNECT, (es.getLast?.getD e0).errno)] ∧
    retriesScheduled (retryRun cfg (setHost (ConnOpener.new (some c) (some cb) ctimeout) host)
      e0 es).trace = es.length ∧
    (∀ e, connect cfg e (retryRun cfg
      (setHost (ConnOpener.new (some c) (some cb) ctimeout) host) e0 es) = none) ∧
    (∀ k, k < es.length →
      deliveries (retryRun cfg (setHost (ConnOpener.new (some c) (some cb) ctimeout) host)
        e0 (es.take k)).trace = [] ∧
      retriesScheduled (retryRun cfg (setHost (ConnOpener.new (some c) (some cb) ctimeout) host)
        e0 (es.take k)).trace = k + 1) := by
  have hprefix : ∀ k, k < es.length →
      Retrying (retryRun cfg (setHost (ConnOpener.new (some c) (some cb) ctimeout) host)
        e0 (es.take k)) cb e0.squid_curtime ctimeout (k + 1) := by
    intro k hk
    have hl : (es.take k).length = k := by simp; omega
    have h := retryRun_retrying cfg e0 c cb ctimeout host hopen hfail0 htime0 (es.take k)
      (fun e he => hes e (List.mem_of_mem_take he)) (by rw [hl]; omega)
    rw [hl] at h
    exact h
  have hfinal : ∀ s : ConnOpener, s.conn_ = none → ∀ e, connect cfg e s = none := by
    intro s hs e
    simp [connect, hs]
  rcases List.eq_nil_or_concat es with hnil | ⟨es2, e, hcons⟩
  · subst hnil
    obtain ⟨s1, h1, h2⟩ := start_with_socket cfg e0 c cb ctimeout host hopen
    obtain ⟨s2, h3, h4, h5, _, h6⟩ :=
      retrying_step cfg e0 s1 cb e0.squid_curtime ctimeout 0 h2 hfail0 (by omega)
    obtain ⟨a1, a2, a3, a4⟩ := h6 (by simp at hlen ⊢; omega)
    rw [retryRun_nil, h1, h3]
    simp only [Option.getD_some]
    exact ⟨h5, h4, by simpa using a3, a4, hfinal s2 a1, fun k hk => by simp at hk⟩
  · rw [List.concat_eq_append] at hcons
    subst hcons
    have hl : (es2 ++ [e]).length = es2.length + 1 := by simp
    have hpre := hprefix es2.length (by rw [hl]; omega)
    rw [List.take_left] at hpre
    obtain ⟨he1, he2⟩ := hes e (by simp)
    obtain ⟨s2, h3, h4, h5, _, h6⟩ :=
      retrying_step cfg e _ cb e0.squid_curtime ctimeout (es2.length + 1) hpre he1 he2
    obtain ⟨a1, a2, a3, a4⟩ := h6 (by rw [hl] at hlen; push_cast at hlen ⊢; omega)
    rw [retryRun_snoc, h3]
    simp only [Option.getD_some]
    refine ⟨by rw [h5, hl], by rw [h4, hl], by simpa using a3, by rw [a4, hl],
      hfinal s2 a1, ?_⟩
    intro k hk
    obtain ⟨_, _, _, _, _, b1, b2, _⟩ := hprefix k hk
    exact ⟨b1, b2⟩

/-- C3, the claim as stated fails: with `connect_retries = 2`, every attempt
failing and the timeout far away, COMM_ERR_CONNECT is delivered by the second
attempt; there are two attempts, not three, and a third call of connect() throws
at its `Must`. -/
theorem three_attempts_counterexample :
    attempts (retryRun (exCfg 2) exJob (exEnv 100 comm_err_t.COMM_ERROR)
      [exEnv 100 comm_err_t.COMM_ERROR]).trace = 2 ∧
    deliveries (retryRun (exCfg 2) exJob (exEnv 100 comm_err_t.COMM_ERROR)
      [exEnv 100 comm_err_t.COMM_ERROR]).trace = [(7, comm_err_t.COMM_ERR_CONNECT, 111)] ∧
    connect (exCfg 2) (exEnv 100 comm_err_t.COMM_ERROR)
      (retryRun (exCfg 2) exJob (exEnv 100 comm_err_t.COMM_ERROR)
        [exEnv 100 comm_err_t.COMM_ERROR]) = none := by
  decide

/-- C3, witnessed with `connect_retries = 2`: one initial attempt and one
retry, both failing, deliver COMM_ERR_CONNECT after two attempts. -/
theorem retries_exhausted_witness :
    attempts (retryRun (exCfg 2) (setHost (ConnOpener.new (some exConn) (some 7) 30) none)
      (exEnv 100 comm_err_t.COMM_ERROR) [exEnv 105 comm_err_t.COMM_ERROR]).trace = 1 + 1 ∧
    deliveries (retryRun (exCfg 2) (setHost (ConnOpener.new (some exConn) (some 7) 30) none)
      (exEnv 100 comm_err_t.COMM_ERROR) [exEnv 105 comm_err_t.COMM_ERROR]).trace
      = [(7, comm_err_t.COMM_ERR_CONNECT, 111)] :=
  have h := retries_exhausted (exCfg 2) (exEnv 100 comm_err_t.COMM_ERROR) exConn 7 30 none
    (Or.inl rfl) rfl (by decide) [exEnv 105 comm_err_t.COMM_ERROR] (by decide) (by decide)
  ⟨h.1, h.2.2.1⟩

/-! ## Quiet pieces -/

theorem Quiet.idle (s : ConnOpener) : Quiet s s := ⟨rfl, rfl, rfl, rfl, rfl⟩

theorem Quiet.seq {a b c : ConnOpener} (h1 : Quiet a b) (h2 : Quiet b c) : Quiet a c :=
  ⟨h2.1.trans h1.1, h2.2.1.trans h1.2.1, h2.2.2.1.trans h1.2.2.1,
    h2.2.2.2.1.trans h1.2.2.2.1, h2.2.2.2.2.trans h1.2.2.2.2⟩

theorem quiet_emit (s : ConnOpener) (e : Effect) : Quiet s (emit s e) := ⟨rfl, rfl, rfl, rfl, rfl⟩

theorem quiet_cancelEarlyAbort (s : ConnOpener) : Quiet s (cancelEarlyAbort s) := by
  rw [cancelEarlyAbort_eq]
  exact ⟨rfl, rfl, rfl, rfl, rfl⟩

theorem quiet_cancelTimeout (s : ConnOpener) : Quiet s (cancelTimeout s) := by
  rw [cancelTimeout_eq]
  exact ⟨rfl, rfl, rfl, rfl, rfl⟩

theorem quiet_connClose (s : ConnOpener) : Quiet s (connClose s) := by
  rw [connClose_eq]
  exact ⟨rfl, rfl, rfl, rfl, rfl⟩

theorem quiet_doneConnecting (s : ConnOpener) (st : comm_err_t) (x : Int) :
    Quiet s (doneConnecting s st x) := by
  rw [doneConnecting_eq]
  exact ⟨rfl, rfl, rfl, rfl, rfl⟩

theorem quiet_markGoodAddr (s : ConnOpener) (c : Connection) : Quiet s (markGoodAddr s c) := by
  rw [markGoodAddr_eq]
  exact ⟨rfl, rfl, rfl, rfl, rfl⟩

theorem quiet_rollback (s : ConnOpener) : Quiet s (rollback s) := by
  unfold rollback
  split
  · split
    · exact ((quiet_emit _ _).seq (quiet_emit _ _)).seq (quiet_connClose _)
    · exact Quiet.idle s
  · exact Quiet.idle s

theorem quiet_swanSong (s : ConnOpener) : Quiet s (swanSong s) := by
  have h : Quiet s (rollback (cancelTimeout (cancelEarlyAbort s))) :=
    ((quiet_cancelEarlyAbort s).seq (quiet_cancelTimeout _)).seq (quiet_rollback _)
  unfold swanSong
  simp only []
  split
  · exact h.seq (quiet_doneConnecting _ _ _)
  · exact h

theorem quiet_connectInProgress (env : Env) (s : ConnOpener) (c : Connection) :
    Quiet s (connectInProgress env s c) := by
  unfold connectInProgress
  split
  · exact (quiet_connClose s).seq (quiet_doneConnecting _ _ _)
  · exact quiet_emit _ _

theorem quiet_connectOk (env : Env) (s : ConnOpener) (c : Connection)
    (hc : s.conn_ = some c) : Quiet s (connectOk env s c) := by
  have h : Quiet s (connected env s c) := by
    rw [connected_eq env s c hc]
    exact ⟨rfl, rfl, rfl, rfl, rfl⟩
  exact (h.seq (quiet_markGoodAddr _ _)).seq (quiet_doneConnecting _ _ _)

/-! ## The failure count -/

theorem failRetries_connectDefault (cfg : Config) (env : Env) (s : ConnOpener)
    (c : Connection) :
    (connectDefault cfg env s c).failRetries_ = s.failRetries_ + 1 ∧
    ((connectDefault cfg env s c).conn_ = none ∨
      ((connectDefault cfg env s c).failRetries_ : Int) < cfg.connect_retries) := by
  by_cases h : tookTooLong env s = true ∨ ¬ ((s.failRetries_ : Int) + 1 < cfg.connect_retries)
  · rw [connectDefault_giveUp cfg env s c h]
    exact ⟨rfl, Or.inl rfl⟩
  · have h1 : tookTooLong env s = false := by
      cases ht : tookTooLong env s
      · rfl
      · exact absurd (Or.inl ht) h
    have h2 : (s.failRetries_ : Int) + 1 < cfg.connect_retries := by
      by_contra hn
      exact h (Or.inr hn)
    rw [connectDefault_retry cfg env s c h1 h2]
    refine ⟨rfl, Or.inr ?_⟩
    simp only []
    push_cast
    exact h2

theorem failBound_of_same (n : Int) (s s2 : ConnOpener)
    (hf : s2.failRetries_ = s.failRetries_) (hg : s.conn_ = none → s2.conn_ = none)
    (hb : FailBound n s) : FailBound n s2 := by
  obtain ⟨b1, b2⟩ := hb
  refine ⟨by rw [hf]; exact b1, ?_⟩
  intro h2
  rw [hf]
  apply b2
  cases hc : s.conn_ with
  | none => rw [hg hc] at h2; cases h2
  | some c => rfl

theorem failBound_connect (cfg : Config) (env : Env) (s s2 : ConnOpener)
    (h : connect cfg env s = some s2) (hb : FailBound cfg.connect_retries s) :
    FailBound cfg.connect_retries s2 := by
  have hg := grows_connect cfg env s s2 h
  unfold connect at h
  split at h
  · simp at h
  · rename_i c hc
    split at h <;> simp at h <;> subst h
    · exact failBound_of_same _ s _ (quiet_connectInProgress env _ c).2.1 hg.2.2.1 hb
    · exact failBound_of_same _ s _ (quiet_connectOk env (connectAttempt s c) c hc).2.1
        hg.2.2.1 hb
    · obtain ⟨f1, f2⟩ := failRetries_connectDefault cfg env (connectAttempt s c) c
      have f0 : (connectAttempt s c).failRetries_ = s.failRetries_ := rfl
      rw [f0] at f1
      obtain ⟨b1, b2⟩ := hb
      have b3 := b2 (by simp [hc])
      refine ⟨?_, ?_⟩
      · rw [f1]
        push_cast
        rcases b3 with b3 | b3
        · rw [b3]; simp
        · have : (s.failRetries_ : Int) + 1 ≤ cfg.connect_retries := by omega
          exact le_trans this (le_max_left _ _)
      · intro hs
        rcases f2 with f2 | f2
        · rw [f2] at hs; cases hs
        · exact Or.inr f2

theorem failBound_start (cfg : Config) (env : Env) (s s2 : ConnOpener)
    (h : start cfg env s = some s2) (hb : FailBound cfg.connect_retries s) :
    FailBound cfg.connect_retries s2 := by
  unfold start at h
  split at h
  · simp at h
  · rename_i c hc
    split at h
    · simp only [] at h
      split at h
      · simp at h
        subst h
        exact failBound_of_same _ s _ (quiet_doneConnecting _ _ _).2.1
          (fun _ => by rw [doneConnecting_eq]) hb
      · unfold startConnecting at h
        exact failBound_connect cfg env _ s2 h
          (failBound_of_same _ s _ rfl (fun h0 => by simp [hc] at h0) hb)
    · unfold startConnecting at h
      exact failBound_connect cfg env _ s2 h
        (failBound_of_same _ s _ rfl (fun h0 => by simp [hc] at h0) hb)

theorem failBound_step (cfg : Config) (s : ConnOpener) (ev : Handler × Env)
    (hb : FailBound cfg.connect_retries s) : FailBound cfg.connect_retries (step cfg s ev) := by
  unfold step
  split
  · cases h : start cfg ev.2 s with
    | none => exact hb
    | some s2 => exact failBound_start cfg ev.2 s s2 h hb
  · cases h : connect cfg ev.2 s with
    | none => exact hb
    | some s2 => exact failBound_connect cfg ev.2 s s2 h hb
  · exact failBound_of_same _ s _ (quiet_doneConnecting _ _ _).2.1
      (grows_doneConnecting _ _ _).2.2.1 hb
  · cases h : timeout cfg ev.2 s with
    | none => exact hb
    | some s2 => exact failBound_connect cfg ev.2 s s2 h hb
  · exact failBound_of_same _ s _ (quiet_swanSong s).2.1 (grows_swanSong s).2.2.1 hb

theorem failBound_run (cfg : Config) (evs : List (Handler × Env)) (s : ConnOpener)
    (hb : FailBound cfg.connect_retries s) : FailBound cfg.connect_retries (run cfg s evs) := by
  induction evs generalizing s with
  | nil => exact hb
  | cons ev evs ih => exact ih (step cfg s ev) (failBound_step cfg s ev hb)

/-- C4: for a job with `connect_retries = N >= 0`, fresh from its constructor
and run through any sequence of handler invocations, the count of
immediate-failure attempts (failRetries_) never exceeds N + 1. -/
theorem failRetries_at_most_retries_plus_one (cfg : Config) (hN : 0 ≤ cfg.connect_retries)
    (c : Option Connection) (handler : Option AsyncCall) (ctimeout : Int)
    (host : Option String) (evs : List (Handler × Env)) :
    ((run cfg (setHost (ConnOpener.new c handler ctimeout) host) evs).failRetries_ : Int)
      ≤ cfg.connect_retries + 1 := by
  have h0 : FailBound cfg.connect_retries (setHost (ConnOpener.new c handler ctimeout) host) :=
    ⟨by simp [setHost, ConnOpener.new], fun _ => Or.inl rfl⟩
  have h := (failBound_run cfg evs _ h0).1
  have hm : max cfg.connect_retries 1 ≤ cfg.connect_retries + 1 := by
    apply max_le <;> omega
  exact le_trans h hm

/-- C4, witnessed with `connect_retries = 2` on three failing attempts. -/
theorem failRetries_at_most_retries_plus_one_witness :
    0 ≤ (exCfg 2).connect_retries ∧
    ((run (exCfg 2) (setHost (ConnOpener.new (some exConn) (some 7) 30) none)
      [(Handler.start, exEnv 100 comm_err_t.COMM_ERROR),
       (Handler.connect, exEnv 101 comm_err_t.COMM_ERROR),
       (Handler.connect, exEnv 102 comm_err_t.COMM_ERROR)]).failRetries_ : Int)
      ≤ (exCfg 2).connect_retries + 1 :=
  ⟨by decide, failRetries_at_most_retries_plus_one (exCfg 2) (by decide) (some exConn) (some 7)
    30 none _⟩

/-! ## What each arm of `connect` does to the log -/

theorem obs_connectAttempt (s : ConnOpener) (c : Connection) :
    attempts (connectAttempt s c).trace = attempts s.trace + 1 ∧
    retriesScheduled (connectAttempt s c).trace = retriesScheduled s.trace ∧
    writeWatches (connectAttempt s c).trace = writeWatches s.trace ∧
    deliveries (connectAttempt s c).trace = deliveries s.trace := by
  simp [connectAttempt, emit, attempts, retriesScheduled, writeWatches, deliveries,
    List.countP_append, List.countP_cons, List.filterMap_append, List.filterMap_cons,
    Effect.isAttempt, Effect.isRetryEvent, Effect.isWriteWatch]

theorem obs_connectInProgress_late (env : Env) (s : ConnOpener) (c : Connection)
    (hd : tookTooLong env s = true) :
    (connectInProgress env s c).conn_ = none ∧
    (connectInProgress env s c).callback_ = none ∧
    attempts (connectInProgress env s c).trace = attempts s.trace ∧
    retriesScheduled (connectInProgress env s c).trace = retriesScheduled s.trace ∧
    writeWatches (connectInProgress env s c).trace = writeWatches s.trace ∧
    deliveries (connectInProgress env s c).trace
      = deliveries s.trace ++ delivery s.callback_ comm_err_t.COMM_TIMEOUT env.errno := by
  unfold connectInProgress
  rw [hd]
  simp only [if_true, doneConnecting_eq, connClose_eq]
  obtain ⟨host, conn, cb, tt, fr, cto, cst, ea, tmo, tr⟩ := s
  cases cb <;> rcases conn with _ | c2 <;> try cases ho : c2.isOpen
  all_goals
    simp [*, delivery, attempts, retriesScheduled, writeWatches, deliveries,
      List.countP_append, List.countP_cons, List.filterMap_append, List.filterMap_cons,
      Effect.isAttempt, Effect.isRetryEvent, Effect.isWriteWatch, Connection.closeCalls]

theorem obs_connectInProgress_wait (env : Env) (s : ConnOpener) (c : Connection)
    (hd : tookTooLong env s = false) :
    (connectInProgress env s c).conn_ = s.conn_ ∧
    (connectInProgress env s c).callback_ = s.callback_ ∧
    attempts (connectInProgress env s c).trace = attempts s.trace ∧
    retriesScheduled (connectInProgress env s c).trace = retriesScheduled s.trace ∧
    writeWatches (connectInProgress env s c).trace = writeWatches s.trace + 1 ∧
    deliveries (connectInProgress env s c).trace = deliveries s.trace := by
  unfold connectInProgress
  rw [hd]
  simp [emit, attempts, retriesScheduled, writeWatches, deliveries,
    List.countP_append, List.countP_cons, List.filterMap_append, List.filterMap_cons,
    Effect.isAttempt, Effect.isRetryEvent, Effect.isWriteWatch]

theorem obs_connectOk (env : Env) (s : ConnOpener) (c : Connection) (hc : s.conn_ = some c) :
    (connectOk env s c).conn_ = none ∧
    (connectOk env s c).callback_ = none ∧
    attempts (connectOk env s c).trace = attempts s.trace ∧
    retriesScheduled (connectOk env s c).trace = retriesScheduled s.trace ∧
    writeWatches (connectOk env s c).trace = writeWatches s.trace ∧
    deliveries (connectOk env s c).trace
      = deliveries s.trace ++ delivery s.callback_ comm_err_t.COMM_OK 0 := by
  unfold connectOk
  rw [connected_eq env s c hc]
  simp only [doneConnecting_eq, markGoodAddr_eq]
  obtain ⟨host, conn, cb, tt, fr, cto, cst, ea, tmo, tr⟩ := s
  cases cb <;> cases host <;> cases hp : c.peer
  all_goals
    simp [*, delivery, attempts, retriesScheduled, writeWatches, deliveries,
      List.countP_append, List.countP_cons, List.filterMap_append, List.filterMap_cons,
      Effect.isAttempt, Effect.isRetryEvent, Effect.isWriteWatch]

theorem obs_connectDefault_giveUp (cfg : Config) (env : Env) (s : ConnOpener) (c : Connection)
    (hd : tookTooLong env s = true ∨ ¬ ((s.failRetries_ : Int) + 1 < cfg.connect_retries)) :
    (connectDefault cfg env s c).conn_ = none ∧
    (connectDefault cfg env s c).callback_ = none ∧
    attempts (connectDefault cfg env s c).trace = attempts s.trace ∧
    retriesScheduled (connectDefault cfg env s c).trace = retriesScheduled s.trace ∧
    writeWatches (connectDefault cfg env s c).trace = writeWatches s.trace ∧
    deliveries (connectDefault cfg env s c).trace
      = deliveries s.trace ++ delivery s.callback_
          (if tookTooLong env s then comm_err_t.COMM_TIMEOUT else comm_err_t.COMM_ERR_CONNECT)
          env.errno := by
  rw [connectDefault_giveUp cfg env s c hd]
  generalize tookTooLong env s = late
  obtain ⟨host, conn, cb, tt, fr, cto, cst, ea, tmo, tr⟩ := s
  cases cb <;> cases host <;> cases ea <;> cases hI : (cfg.USE_ICMP && cfg.test_reachability) <;>
    rcases conn with _ | c2 <;> try cases ho : c2.isOpen
  all_goals
    simp [*, delivery, attempts, retriesScheduled, writeWatches, deliveries,
      List.countP_append, List.countP_cons, List.filterMap_append, List.filterMap_cons,
      Effect.isAttempt, Effect.isRetryEvent, Effect.isWriteWatch, Connection.closeCalls]

theorem obs_connectDefault_retry (cfg : Config) (env : Env) (s : ConnOpener) (c : Connection)
    (hd : tookTooLong env s = false) (hn : (s.failRetries_ : Int) + 1 < cfg.connect_retries) :
    (connectDefault cfg env s c).conn_ = s.conn_ ∧
    (connectDefault cfg env s c).callback_ = s.callback_ ∧
    attempts (connectDefault cfg env s c).trace = attempts s.trace ∧
    retriesScheduled (connectDefault cfg env s c).trace = retriesScheduled s.trace + 1 ∧
    writeWatches (connectDefault cfg env s c).trace = writeWatches s.trace ∧
    deliveries (connectDefault cfg env s c).trace = deliveries s.trace := by
  rw [connectDefault_retry cfg env s c hd hn]
  obtain ⟨host, conn, cb, tt, fr, cto, cst, ea, tmo, tr⟩ := s
  cases host <;> cases hI : (cfg.USE_ICMP && cfg.test_reachability)
  all_goals
    simp [*, attempts, retriesScheduled, writeWatches, deliveries,
      List.countP_append, List.countP_cons, List.filterMap_append, List.filterMap_cons,
      Effect.isAttempt, Effect.isRetryEvent, Effect.isWriteWatch]

theorem totalTries_connectDefault (cfg : Config) (env : Env) (s : ConnOpener) (c : Connection) :
    (connectDefault cfg env s c).totalTries_ = s.totalTries_ := by
  by_cases h : tookTooLong env s = true ∨ ¬ ((s.failRetries_ : Int) + 1 < cfg.connect_retries)
  · rw [connectDefault_giveUp cfg env s c h]
  · have h1 : tookTooLong env s = false := by
      cases ht : tookTooLong env s
      · rfl
      · exact absurd (Or.inl ht) h
    have h2 : (s.failRetries_ : Int) + 1 < cfg.connect_retries := by
      by_contra hn
      exact h (Or.inr hn)
    rw [connectDefault_retry cfg env s c h1 h2]

theorem attempts_connectDefault (cfg : Config) (env : Env) (s : ConnOpener) (c : Connection) :
    attempts (connectDefault cfg env s c).trace = attempts s.trace := by
  by_cases h : tookTooLong env s = true ∨ ¬ ((s.failRetries_ : Int) + 1 < cfg.connect_retries)
  · exact (obs_connectDefault_giveUp cfg env s c h).2.2.1
  · have h1 : tookTooLong env s = false := by
      cases ht : tookTooLong env s
      · rfl
      · exact absurd (Or.inl ht) h
    have h2 : (s.failRetries_ : Int) + 1 < cfg.connect_retries := by
      by_contra hn
      exact h (Or.inr hn)
    exact (obs_connectDefault_retry cfg env s c h1 h2).2.2.1

theorem attempts_connectInProgress (env : Env) (s : ConnOpener) (c : Connection) :
    attempts (connectInProgress env s c).trace = attempts s.trace := by
  cases h : tookTooLong env s
  · exact (obs_connectInProgress_wait env s c h).2.2.1
  · exact (obs_connectInProgress_late env s c h).2.2.1

/-- Every call of `connect` on a job that holds a connection counts a try and
makes the attempt, as the first thing it does. -/
theorem connect_attempts_first (cfg : Config) (env : Env) (s : ConnOpener) (c : Connection)
    (hc : s.conn_ = some c) :
    ∃ s2, connect cfg env s = some s2 ∧ s2.totalTries_ = s.totalTries_ + 1 ∧
      attempts s2.trace = attempts s.trace + 1 ∧
      ∃ rest, s2.trace = s.trace ++ Effect.comm_connect_addr c.fd c.remote :: rest := by
  have ha := (obs_connectAttempt s c).1
  have ht : (connectAttempt s c).totalTries_ = s.totalTries_ + 1 := rfl
  have htr : ∀ s2, Grows (connectAttempt s c) s2 →
      ∃ rest, s2.trace = s.trace ++ Effect.comm_connect_addr c.fd c.remote :: rest := by
    intro s2 hg
    obtain ⟨t, e⟩ := hg.1
    exact ⟨t, by rw [e]; simp [connectAttempt, emit]⟩
  cases hr : env.connectResult
  case COMM_OK =>
    refine ⟨_, connect_ok cfg env s c hc hr, ?_, ?_, htr _ (grows_connectOk env _ c hc)⟩
    · rw [(quiet_connectOk env (connectAttempt s c) c hc).1, ht]
    · rw [(obs_connectOk env (connectAttempt s c) c hc).2.2.1, ha]
  case COMM_INPROGRESS =>
    refine ⟨_, connect_inprogress cfg env s c hc hr, ?_, ?_,
      htr _ (grows_connectInProgress env _ c)⟩
    · rw [(quiet_connectInProgress env (connectAttempt s c) c).1, ht]
    · rw [attempts_connectInProgress, ha]
  all_goals
    refine ⟨_, connect_failure cfg env s c hc (by rw [hr]; rfl), ?_, ?_,
      htr _ (grows_connectDefault cfg env _ c)⟩
    · rw [totalTries_connectDefault, ht]
    · rw [attempts_connectDefault, ha]

/-! ## Classifying an immediate failure -/

/-- C5, as the code has it: an immediate failure first raises the failure
count; then, if the timeout has passed, COMM_TIMEOUT is delivered, whatever the
count; otherwise, if the count has reached `connect_retries` (count >=
connect_retries, not count > connect_retries), COMM_ERR_CONNECT is delivered;
otherwise nothing is delivered, the connection is left as it is and exactly one
delayed retry is scheduled. -/
theorem failure_classification (cfg : Config) (env : Env) (s : ConnOpener) (c : Connection)
    (cb : AsyncCall) (hc : s.conn_ = some c) (hcb : s.callback_ = some cb)
    (hr : isFailure env.connectResult = true) :
    ∃ s2, connect cfg env s = some s2 ∧ s2.failRetries_ = s.failRetries_ + 1 ∧
      (tookTooLong env s = true →
        deliveries s2.trace = deliveries s.trace ++ [(cb, comm_err_t.COMM_TIMEOUT, env.errno)] ∧
        s2.conn_ = none ∧ retriesScheduled s2.trace = retriesScheduled s.trace) ∧
      (tookTooLong env s = false → cfg.connect_retries ≤ (s2.failRetries_ : Int) →
        deliveries s2.trace
          = deliveries s.trace ++ [(cb, comm_err_t.COMM_ERR_CONNECT, env.errno)] ∧
        s2.conn_ = none ∧ retriesScheduled s2.trace = retriesScheduled s.trace) ∧
      (tookTooLong env s = false → (s2.failRetries_ : Int) < cfg.connect_retries →
        deliveries s2.trace = deliveries s.trace ∧
        s2.conn_ = some c ∧ s2.callback_ = some cb ∧
        retriesScheduled s2.trace = retriesScheduled s.trace + 1) := by
  obtain ⟨o1, o2, o3, o4⟩ := obs_connectAttempt s c
  have hf := (failRetries_connectDefault cfg env (connectAttempt s c) c).1
  have hf0 : (connectAttempt s c).failRetries_ = s.failRetries_ := rfl
  have hcb0 : (connectAttempt s c).callback_ = some cb := hcb
  have hc0 : (connectAttempt s c).conn_ = some c := hc
  rw [hf0] at hf
  refine ⟨_, connect_failure cfg env s c hc hr, hf, ?_, ?_, ?_⟩
  · intro hd
    have hd0 : tookTooLong env (connectAttempt s c) = true := hd
    obtain ⟨a1, a2, a3, a4, a5, a6⟩ :=
      obs_connectDefault_giveUp cfg env (connectAttempt s c) c (Or.inl hd0)
    rw [hd0, hcb0, o4] at a6
    exact ⟨a6, a1, by rw [a4, o2]⟩
  · intro hd hn
    have hd0 : tookTooLong env (connectAttempt s c) = false := hd
    rw [hf] at hn
    obtain ⟨a1, a2, a3, a4, a5, a6⟩ :=
      obs_connectDefault_giveUp cfg env (connectAttempt s c) c
        (Or.inr (by rw [hf0]; push_cast at hn; omega))
    rw [hd0, hcb0, o4] at a6
    exact ⟨a6, a1, by rw [a4, o2]⟩
  · intro hd hn
    have hd0 : tookTooLong env (connectAttempt s c) = false := hd
    rw [hf] at hn
    obtain ⟨a1, a2, a3, a4, a5, a6⟩ :=
      obs_connectDefault_retry cfg env (connectAttempt s c) c hd0
        (by rw [hf0]; push_cast at hn; omega)
    exact ⟨by rw [a6, o4], by rw [a1, hc0], by rw [a2, hcb0], by rw [a4, o2]⟩

/-- C5, witnessed on the sample job after a first failed attempt, with
`connect_retries = 3`. -/
theorem failure_classification_witness :
    ∃ s2, connect (exCfg 3) (exEnv 101 comm_err_t.COMM_ERROR)
        (retryRun (exCfg 3) exJob (exEnv 100 comm_err_t.COMM_ERROR) []) = some s2 ∧
      s2.failRetries_ = 1 + 1 :=
  have h := failure_classification (exCfg 3) (exEnv 101 comm_err_t.COMM_ERROR)
    (retryRun (exCfg 3) exJob (exEnv 100 comm_err_t.COMM_ERROR) []) exConn 7
    (by decide) (by decide) (by decide)
  h.elim fun s2 h2 => ⟨s2, h2.1, h2.2.1⟩

/-- C5, the claim as stated fails: with `connect_retries = 1` the first failed
attempt, made in time, brings the failure count to 1, which is not greater than
`connect_retries`; yet COMM_ERR_CONNECT is delivered, the job drops its
connection and no delayed retry is scheduled. -/
theorem failure_count_not_greater_counterexample :
    tookTooLong (exEnv 100 comm_err_t.COMM_ERROR)
      (startWatches (exEnv 100 comm_err_t.COMM_ERROR) exJob exConn) = false ∧
    (run (exCfg 1) exJob [(Handler.start, exEnv 100 comm_err_t.COMM_ERROR)]).failRetries_ = 1 ∧
    ¬ ((1 : Int) > (exCfg 1).connect_retries) ∧
    deliveries (run (exCfg 1) exJob [(Handler.start, exEnv 100 comm_err_t.COMM_ERROR)]).trace
      = [(7, comm_err_t.COMM_ERR_CONNECT, 111)] ∧
    (run (exCfg 1) exJob [(Handler.start, exEnv 100 comm_err_t.COMM_ERROR)]).conn_ = none ∧
    retriesScheduled
      (run (exCfg 1) exJob [(Handler.start, exEnv 100 comm_err_t.COMM_ERROR)]).trace = 0 := by
  decide

/-! ## The timeout check comes after the attempt -/

/-- C6, as the code has it: every entry into connect() on a job that holds its
connection makes the attempt first, also when the timeout has already passed:
totalTries_ grows by one and comm_connect_addr is called once, before anything
else.  The timeout is checked after the attempt; when it has passed and the
result is not COMM_OK, the job gives up with COMM_TIMEOUT and registers neither
a writability handler nor a delayed retry. -/
theorem attempt_precedes_timeout_check (cfg : Config) (env : Env) (s : ConnOpener)
    (c : Connection) (hc : s.conn_ = some c) :
    ∃ s2, connect cfg env s = some s2 ∧ s2.totalTries_ = s.totalTries_ + 1 ∧
      attempts s2.trace = attempts s.trace + 1 ∧
      (∃ rest, s2.trace = s.trace ++ Effect.comm_connect_addr c.fd c.remote :: rest) ∧
      (tookTooLong env s = true → env.connectResult ≠ comm_err_t.COMM_OK →
        s2.conn_ = none ∧
        deliveries s2.trace
          = deliveries s.trace ++ delivery s.callback_ comm_err_t.COMM_TIMEOUT env.errno ∧
        writeWatches s2.trace = writeWatches s.trace ∧
        retriesScheduled s2.trace = retriesScheduled s.trace) := by
  obtain ⟨s2, h1, h2, h3, h4⟩ := connect_attempts_first cfg env s c hc
  refine ⟨s2, h1, h2, h3, h4, ?_⟩
  intro hd hr
  obtain ⟨o1, o2, o3, o4⟩ := obs_connectAttempt s c
  have hd0 : tookTooLong env (connectAttempt s c) = true := hd
  have hcb0 : (connectAttempt s c).callback_ = s.callback_ := rfl
  by_cases hp : env.connectResult = comm_err_t.COMM_INPROGRESS
  · rw [connect_inprogress cfg env s c hc hp] at h1
    simp only [Option.some.injEq] at h1
    subst h1
    obtain ⟨a1, a2, a3, a4, a5, a6⟩ := obs_connectInProgress_late env (connectAttempt s c) c hd0
    exact ⟨a1, by rw [a6, o4, hcb0], by rw [a5, o3], by rw [a4, o2]⟩
  · have hf : isFailure env.connectResult = true := by
      cases hres : env.connectResult <;> simp_all [isFailure]
    rw [connect_failure cfg env s c hc hf] at h1
    simp only [Option.some.injEq] at h1
    subst h1
    obtain ⟨a1, a2, a3, a4, a5, a6⟩ :=
      obs_connectDefault_giveUp cfg env (connectAttempt s c) c (Or.inl hd0)
    rw [hd0] at a6
    exact ⟨a1, by rw [a6, o4, hcb0]; rfl, by rw [a5, o3], by rw [a4, o2]⟩

/-- C6, witnessed on the sample job, re-entered 100 seconds after start with a
timeout of 30. -/
theorem attempt_precedes_timeout_check_witness :
    ∃ s2, connect (exCfg 2) (exEnv 200 comm_err_t.COMM_INPROGRESS)
        (run (exCfg 2) exJob [(Handler.start, exEnv 100 comm_err_t.COMM_INPROGRESS)]) = some s2 ∧
      s2.totalTries_ = 1 + 1 :=
  have h := attempt_precedes_timeout_check (exCfg 2) (exEnv 200 comm_err_t.COMM_INPROGRESS)
    (run (exCfg 2) exJob [(Handler.start, exEnv 100 comm_err_t.COMM_INPROGRESS)]) exConn
    (by decide)
  h.elim fun s2 h2 => ⟨s2, h2.1, h2.2.1⟩

/-- C6, the claim as stated fails: the sample job (timeout 30, started at time
100) re-enters connect() at time 200, after the timeout; comm_connect_addr is
called once more and the try counter goes from 1 to 2. -/
theorem attempt_after_deadline_counterexample :
    tookTooLong (exEnv 200 comm_err_t.COMM_INPROGRESS)
      (run (exCfg 2) exJob [(Handler.start, exEnv 100 comm_err_t.COMM_INPROGRESS)]) = true ∧
    (run (exCfg 2) exJob [(Handler.start, exEnv 100 comm_err_t.COMM_INPROGRESS)]).totalTries_ = 1 ∧
    attempts
      (run (exCfg 2) exJob [(Handler.start, exEnv 100 comm_err_t.COMM_INPROGRESS)]).trace = 1 ∧
    (run (exCfg 2) exJob [(Handler.start, exEnv 100 comm_err_t.COMM_INPROGRESS),
      (Handler.connect, exEnv 200 comm_err_t.COMM_INPROGRESS)]).totalTries_ = 2 ∧
    attempts (run (exCfg 2) exJob [(Handler.start, exEnv 100 comm_err_t.COMM_INPROGRESS),
      (Handler.connect, exEnv 200 comm_err_t.COMM_INPROGRESS)]).trace = 2 := by
  decide

theorem tookTooLong_iff (env : Env) (s : ConnOpener) :
    tookTooLong env s = true ↔ s.connectStart_ + s.connectTimeout_ < env.squid_curtime := by
  unfold tookTooLong
  rw [decide_eq_true_iff]
  constructor <;> intro h <;> omega

/-- C7, as the code has it: a connect() call made after the timeout has passed
(squid_curtime - connectStart_ > connectTimeout_) on a job with its connection
and callback delivers COMM_OK exactly when comm_connect_addr returns COMM_OK,
the arm that has no timeout check; for every other result it delivers
COMM_TIMEOUT. -/
theorem late_connect_outcome (cfg : Config) (env : Env) (s : ConnOpener) (c : Connection)
    (cb : AsyncCall) (hc : s.conn_ = some c) (hcb : s.callback_ = some cb)
    (hlate : env.squid_curtime - s.connectStart_ > s.connectTimeout_) :
    ∃ s2, connect cfg env s = some s2 ∧
      (env.connectResult = comm_err_t.COMM_OK →
        deliveries s2.trace = deliveries s.trace ++ [(cb, comm_err_t.COMM_OK, 0)]) ∧
      (env.connectResult ≠ comm_err_t.COMM_OK →
        deliveries s2.trace
          = deliveries s.trace ++ [(cb, comm_err_t.COMM_TIMEOUT, env.errno)]) := by
  have hd : tookTooLong env s = true := by
    unfold tookTooLong
    exact decide_eq_true hlate
  have hd0 : tookTooLong env (connectAttempt s c) = true := hd
  have hcb0 : (connectAttempt s c).callback_ = some cb := hcb
  obtain ⟨o1, o2, o3, o4⟩ := obs_connectAttempt s c
  by_cases hok : env.connectResult = comm_err_t.COMM_OK
  · refine ⟨_, connect_ok cfg env s c hc hok, fun _ => ?_, fun h => absurd hok h⟩
    rw [(obs_connectOk env (connectAttempt s c) c hc).2.2.2.2.2, o4, hcb0]
    rfl
  · by_cases hp : env.connectResult = comm_err_t.COMM_INPROGRESS
    · refine ⟨_, connect_inprogress cfg env s c hc hp, fun h => absurd h hok, fun _ => ?_⟩
      rw [(obs_connectInProgress_late env (connectAttempt s c) c hd0).2.2.2.2.2, o4, hcb0]
      rfl
    · have hf : isFailure env.connectResult = true := by
        cases hres : env.connectResult <;> simp_all [isFailure]
      refine ⟨_, connect_failure cfg env s c hc hf, fun h => absurd h hok, fun _ => ?_⟩
      rw [(obs_connectDefault_giveUp cfg env (connectAttempt s c) c (Or.inl hd0)).2.2.2.2.2,
        o4, hcb0, hd0]
      rfl

/-- C7, witnessed on the sample job, re-entered at time 200 with a successful
attempt. -/
theorem late_connect_outcome_witness :
    ∃ s2, connect (exCfg 2) (exEnv 200 comm_err_t.COMM_OK)
        (run (exCfg 2) exJob [(Handler.start, exEnv 100 comm_err_t.COMM_INPROGRESS)]) = some s2 ∧
      ((exEnv 200 comm_err_t.COMM_OK).connectResult = comm_err_t.COMM_OK →
        deliveries s2.trace
          = deliveries (run (exCfg 2) exJob
              [(Handler.start, exEnv 100 comm_err_t.COMM_INPROGRESS)]).trace
            ++ [(7, comm_err_t.COMM_OK, 0)]) :=
  have h := late_connect_outcome (exCfg 2) (exEnv 200 comm_err_t.COMM_OK)
    (run (exCfg 2) exJob [(Handler.start, exEnv 100 comm_err_t.COMM_INPROGRESS)]) exConn 7
    (by decide) (by decide) (by decide)
  h.elim fun s2 h2 => ⟨s2, h2.1, h2.2.1⟩

/-- C7, the claim as stated fails: the sample job (timeout 30, started at time
100) calls connect() at time 200; comm_connect_addr returns COMM_OK and COMM_OK
is what the callback gets. -/
theorem connected_after_deadline_counterexample :
    tookTooLong (exEnv 200 comm_err_t.COMM_OK)
      (run (exCfg 2) exJob [(Handler.start, exEnv 100 comm_err_t.COMM_INPROGRESS)]) = true ∧
    deliveries (run (exCfg 2) exJob [(Handler.start, exEnv 100 comm_err_t.COMM_INPROGRESS),
      (Handler.connect, exEnv 200 comm_err_t.COMM_OK)]).trace
      = [(7, comm_err_t.COMM_OK, 0)] := by
  decide

/-- C8, as the code has it: when the timeout handler runs strictly after
connectStart_ + connectTimeout_ on a job whose connect is still in progress, it
goes through connect(): one more attempt is issued, then the job delivers
COMM_TIMEOUT and is done (conn_ and callback_ cleared), with no writability
handler and no delayed retry registered; connect() can issue nothing after
that. -/
theorem timeout_handler_times_out (cfg : Config) (env : Env) (s : ConnOpener) (c : Connection)
    (cb : AsyncCall) (hc : s.conn_ = some c) (hcb : s.callback_ = some cb)
    (hr : env.connectResult = comm_err_t.COMM_INPROGRESS)
    (hlate : s.connectStart_ + s.connectTimeout_ < env.squid_curtime) :
    ∃ s2, timeout cfg env s = some s2 ∧
      deliveries s2.trace = deliveries s.trace ++ [(cb, comm_err_t.COMM_TIMEOUT, env.errno)] ∧
      s2.conn_ = none ∧ s2.callback_ = none ∧
      attempts s2.trace = attempts s.trace + 1 ∧ s2.totalTries_ = s.totalTries_ + 1 ∧
      writeWatches s2.trace = writeWatches s.trace ∧
      retriesScheduled s2.trace = retriesScheduled s.trace ∧
      ∀ e, connect cfg e s2 = none := by
  have hd : tookTooLong env s = true := (tookTooLong_iff env s).mpr hlate
  have hd0 : tookTooLong env (connectAttempt s c) = true := hd
  have hcb0 : (connectAttempt s c).callback_ = some cb := hcb
  obtain ⟨o1, o2, o3, o4⟩ := obs_connectAttempt s c
  obtain ⟨a1, a2, a3, a4, a5, a6⟩ := obs_connectInProgress_late env (connectAttempt s c) c hd0
  refine ⟨_, connect_inprogress cfg env s c hc hr, ?_, a1, a2, by rw [a3, o1], ?_,
    by rw [a5, o3], by rw [a4, o2], ?_⟩
  · rw [a6, o4, hcb0]
    rfl
  · rw [(quiet_connectInProgress env (connectAttempt s c) c).1]
    rfl
  · intro e
    simp [connect, a1]

/-- C8, witnessed on the sample job with the timeout handler run at time 131. -/
theorem timeout_handler_times_out_witness :
    ∃ s2, timeout (exCfg 2) (exEnv 131 comm_err_t.COMM_INPROGRESS)
        (run (exCfg 2) exJob [(Handler.start, exEnv 100 comm_err_t.COMM_INPROGRESS)]) = some s2 ∧
      deliveries s2.trace
        = deliveries (run (exCfg 2) exJob
            [(Handler.start, exEnv 100 comm_err_t.COMM_INPROGRESS)]).trace
          ++ [(7, comm_err_t.COMM_TIMEOUT, 111)] :=
  have h := timeout_handler_times_out (exCfg 2) (exEnv 131 comm_err_t.COMM_INPROGRESS)
    (run (exCfg 2) exJob [(Handler.start, exEnv 100 comm_err_t.COMM_INPROGRESS)]) exConn 7
    (by decide) (by decide) (by decide) (by decide)
  h.elim fun s2 h2 => ⟨s2, h2.1, h2.2.1⟩

/-- C8, the claim as stated fails twice on the sample job (timeout 30, started
at time 100, connect in progress).  Run at time 130, exactly connectStart_ +
connectTimeout_, the timeout handler delivers nothing: it issues a second
attempt, keeps the connection and registers the writability handler again.
Run at time 131 it does deliver COMM_TIMEOUT, but only after issuing a second
attempt. -/
theorem timeout_handler_counterexample :
    (deliveries (run (exCfg 2) exJob [(Handler.start, exEnv 100 comm_err_t.COMM_INPROGRESS),
        (Handler.timeout, exEnv 130 comm_err_t.COMM_INPROGRESS)]).trace = [] ∧
      (run (exCfg 2) exJob [(Handler.start, exEnv 100 comm_err_t.COMM_INPROGRESS),
        (Handler.timeout, exEnv 130 comm_err_t.COMM_INPROGRESS)]).conn_ = some exConn ∧
      attempts (run (exCfg 2) exJob [(Handler.start, exEnv 100 comm_err_t.COMM_INPROGRESS),
        (Handler.timeout, exEnv 130 comm_err_t.COMM_INPROGRESS)]).trace = 2 ∧
      writeWatches (run (exCfg 2) exJob [(Handler.start, exEnv 100 comm_err_t.COMM_INPROGRESS),
        (Handler.timeout, exEnv 130 comm_err_t.COMM_INPROGRESS)]).trace = 2) ∧
    (deliveries (run (exCfg 2) exJob [(Handler.start, exEnv 100 comm_err_t.COMM_INPROGRESS),
        (Handler.timeout, exEnv 131 comm_err_t.COMM_INPROGRESS)]).trace
        = [(7, comm_err_t.COMM_TIMEOUT, 111)] ∧
      attempts (run (exCfg 2) exJob [(Handler.start, exEnv 100 comm_err_t.COMM_INPROGRESS)]).trace
        = 1 ∧
      attempts (run (exCfg 2) exJob [(Handler.start, exEnv 100 comm_err_t.COMM_INPROGRESS),
        (Handler.timeout, exEnv 131 comm_err_t.COMM_INPROGRESS)]).trace = 2) := by
  decide

/-! ## Teardown -/

theorem rollback_eq (s : ConnOpener) :
    rollback s = { s with
      conn_ := s.conn_.map Connection.close
      trace := s.trace ++ rollbackCalls s.conn_ } := by
  obtain ⟨host, conn, cb, tt, fr, cto, cst, ea, tmo, tr⟩ := s
  rcases conn with _ | c
  · simp [rollback, rollbackCalls]
  · cases ho : c.isOpen <;>
      simp [rollback, rollbackCalls, connClose_eq, emit, ho, Connection.close,
        Connection.closeCalls]

theorem swanSong_eq (s : ConnOpener) :
    swanSong s = { s with
      earlyAbort_ := false
      timeout_ := false
      conn_ := if s.callback_.isSome then none else s.conn_.map Connection.close
      callback_ := none
      trace := s.trace ++ ((if s.earlyAbort_ then [Effect.cancelEarlyAbort] else []) ++
        ((if s.timeout_ then [Effect.cancelTimeout] else []) ++
        (rollbackCalls s.conn_ ++
        (match s.callback_ with
          | some cb => [Effect.ScheduleCallHere cb (s.conn_.map Connection.close)
              comm_err_t.COMM_ERR_CONNECT 0]
          | none => [])))) } := by
  unfold swanSong
  simp only [rollback_eq, cancelTimeout_eq, cancelEarlyAbort_eq, doneConnecting_eq]
  obtain ⟨host, conn, cb, tt, fr, cto, cst, ea, tmo, tr⟩ := s
  cases cb <;> simp

theorem deliveries_swanSong (s : ConnOpener) :
    deliveries (swanSong s).trace
      = deliveries s.trace ++ delivery s.callback_ comm_err_t.COMM_ERR_CONNECT 0 := by
  rw [swanSong_eq]
  obtain ⟨host, conn, cb, tt, fr, cto, cst, ea, tmo, tr⟩ := s
  cases cb <;> cases ea <;> cases tmo <;> rcases conn with _ | c <;> try cases ho : c.isOpen
  all_goals
    simp [*, delivery, deliveries, rollbackCalls, List.filterMap_append, List.filterMap_cons]

theorem deliveries_doneConnecting (s : ConnOpener) (st : comm_err_t) (x : Int) :
    deliveries (doneConnecting s st x).trace = deliveries s.trace ++ delivery s.callback_ st x := by
  rw [doneConnecting_eq]
  obtain ⟨host, conn, cb, tt, fr, cto, cst, ea, tmo, tr⟩ := s
  cases cb <;> simp [delivery, deliveries, List.filterMap_append, List.filterMap_cons]

/-- C9, as the code has it: swanSong on a job whose callback is still pending
delivers COMM_ERR_CONNECT with errno 0.  That is the result code an exhausted
retry budget delivers (there with the errno of the last attempt), and it is not
the COMM_ERR_CLOSING that earlyAbort delivers. -/
theorem swanSong_delivers_connect_error (cfg : Config) (env : Env) (s : ConnOpener)
    (cb : AsyncCall) (x : Int) (hcb : s.callback_ = some cb) :
    deliveries (swanSong s).trace
      = deliveries s.trace ++ [(cb, comm_err_t.COMM_ERR_CONNECT, 0)] ∧
    deliveries (earlyAbort s x).trace
      = deliveries s.trace ++ [(cb, comm_err_t.COMM_ERR_CLOSING, x)] ∧
    (∀ c, s.conn_ = some c → isFailure env.connectResult = true → tookTooLong env s = false →
      cfg.connect_retries ≤ (s.failRetries_ : Int) + 1 →
      ∃ s2, connect cfg env s = some s2 ∧
        deliveries s2.trace
          = deliveries s.trace ++ [(cb, comm_err_t.COMM_ERR_CONNECT, env.errno)]) := by
  refine ⟨?_, ?_, ?_⟩
  · rw [deliveries_swanSong, hcb]
    rfl
  · unfold earlyAbort
    rw [deliveries_doneConnecting, hcb]
    rfl
  · intro c hc hr hd hn
    obtain ⟨s2, h1, _, _, _, _, _, _, h8⟩ := fail_step cfg env s c cb hc hcb hr hd
    exact ⟨s2, h1, (h8 (by omega)).2.2.1⟩

/-- C9, witnessed on the sample job waiting for its socket to become writable. -/
theorem swanSong_delivers_connect_error_witness :
    deliveries (swanSong
        (run (exCfg 2) exJob [(Handler.start, exEnv 100 comm_err_t.COMM_INPROGRESS)])).trace
      = deliveries (run (exCfg 2) exJob
          [(Handler.start, exEnv 100 comm_err_t.COMM_INPROGRESS)]).trace
        ++ [(7, comm_err_t.COMM_ERR_CONNECT, 0)] :=
  (swanSong_delivers_connect_error (exCfg 2) (exEnv 110 comm_err_t.COMM_INPROGRESS)
    (run (exCfg 2) exJob [(Handler.start, exEnv 100 comm_err_t.COMM_INPROGRESS)]) 7 0
    (by decide)).1

/-- C9, the claim as stated fails: on the sample job waiting for its socket,
swanSong delivers COMM_ERR_CONNECT while earlyAbort delivers COMM_ERR_CLOSING,
a different code; and COMM_ERR_CONNECT is also what the job configured with
`connect_retries = 1` delivers when its only attempt fails. -/
theorem swanSong_outcome_counterexample :
    deliveries (run (exCfg 2) exJob [(Handler.start, exEnv 100 comm_err_t.COMM_INPROGRESS),
      (Handler.swanSong, exEnv 110 comm_err_t.COMM_INPROGRESS)]).trace
      = [(7, comm_err_t.COMM_ERR_CONNECT, 0)] ∧
    deliveries (run (exCfg 2) exJob [(Handler.start, exEnv 100 comm_err_t.COMM_INPROGRESS),
      (Handler.earlyAbort 32, exEnv 110 comm_err_t.COMM_INPROGRESS)]).trace
      = [(7, comm_err_t.COMM_ERR_CLOSING, 32)] ∧
    deliveries (run (exCfg 1) exJob [(Handler.start, exEnv 100 comm_err_t.COMM_ERROR)]).trace
      = [(7, comm_err_t.COMM_ERR_CONNECT, 111)] ∧
    comm_err_t.COMM_ERR_CONNECT ≠ comm_err_t.COMM_ERR_CLOSING := by
  decide

/-- C10: swanSong on a job that waits for its socket to become writable (conn_
open, callback_ set) cancels each of calls_.earlyAbort_ and calls_.timeout_
that is registered and clears both, removes the write handler and the timeout
of the descriptor, closes the socket and schedules the callback once, and makes
no other call: no peer counter is incremented and no address is reported; conn_
and callback_ are cleared.  With both job calls registered, as start() leaves
them, these are exactly six calls. -/
theorem swanSong_while_waiting (s : ConnOpener) (c : Connection) (cb : AsyncCall)
    (hc : s.conn_ = some c) (ho : c.isOpen = true) (hcb : s.callback_ = some cb) :
    (swanSong s).earlyAbort_ = false ∧ (swanSong s).timeout_ = false ∧
    (swanSong s).conn_ = none ∧ (swanSong s).callback_ = none ∧
    (swanSong s).trace = s.trace ++
      ((if s.earlyAbort_ then [Effect.cancelEarlyAbort] else []) ++
      ((if s.timeout_ then [Effect.cancelTimeout] else []) ++
      [Effect.commSetSelectWrite c.fd false, Effect.commSetTimeout c.fd (-1) false,
        Effect.comm_close c.fd,
        Effect.ScheduleCallHere cb (some { c with fd := -1 }) comm_err_t.COMM_ERR_CONNECT 0])) ∧
    (s.earlyAbort_ = true → s.timeout_ = true →
      (swanSong s).trace = s.trace ++
        [Effect.cancelEarlyAbort, Effect.cancelTimeout,
          Effect.commSetSelectWrite c.fd false, Effect.commSetTimeout c.fd (-1) false,
          Effect.comm_close c.fd,
          Effect.ScheduleCallHere cb (some { c with fd := -1 }) comm_err_t.COMM_ERR_CONNECT 0]) ∧
    scheduled (swanSong s).trace = scheduled s.trace + 1 ∧
    peerIncrements (swanSong s).trace = peerIncrements s.trace ∧
    addrReports (swanSong s).trace = addrReports s.trace := by
  have htr : (swanSong s).trace = s.trace ++
      ((if s.earlyAbort_ then [Effect.cancelEarlyAbort] else []) ++
      ((if s.timeout_ then [Effect.cancelTimeout] else []) ++
      [Effect.commSetSelectWrite c.fd false, Effect.commSetTimeout c.fd (-1) false,
        Effect.comm_close c.fd,
        Effect.ScheduleCallHere cb (some { c with fd := -1 })
          comm_err_t.COMM_ERR_CONNECT 0])) := by
    rw [swanSong_eq]
    simp [hc, ho, hcb, rollbackCalls, Connection.close]
  refine ⟨?_, ?_, ?_, ?_, htr, ?_, ?_, ?_, ?_⟩
  · rw [swanSong_eq]
  · rw [swanSong_eq]
  · rw [swanSong_eq]; simp [hcb]
  · rw [swanSong_eq]
  · intro hea hto
    rw [htr, hea, hto]
    simp
  · rw [htr]
    cases s.earlyAbort_ <;> cases s.timeout_ <;>
      simp [scheduled, List.countP_append, List.countP_cons, Effect.isSchedule]
  · rw [htr]
    cases s.earlyAbort_ <;> cases s.timeout_ <;>
      simp [peerIncrements, List.countP_append, List.countP_cons, Effect.isPeerIncr]
  · rw [htr]
    cases s.earlyAbort_ <;> cases s.timeout_ <;>
      simp [addrReports, List.countP_append, List.countP_cons, Effect.isAddrReport]

/-- C10, witnessed on the sample job waiting for its socket to become writable. -/
theorem swanSong_while_waiting_witness :
    (swanSong (run (exCfg 2) exJob
      [(Handler.start, exEnv 100 comm_err_t.COMM_INPROGRESS)])).earlyAbort_ = false ∧
    (swanSong (run (exCfg 2) exJob
      [(Handler.start, exEnv 100 comm_err_t.COMM_INPROGRESS)])).timeout_ = false :=
  have h := swanSong_while_waiting
    (run (exCfg 2) exJob [(Handler.start, exEnv 100 comm_err_t.COMM_INPROGRESS)]) exConn 7
    (by decide) (by decide) (by decide)
  ⟨h.1, h.2.1⟩

/-! ## Who is delivered to -/

theorem delivers_self (s : ConnOpener) : Delivers s s := Or.inl ⟨rfl, rfl⟩

theorem delivers_chain {a b c : ConnOpener} (h1 : Delivers a b) (h2 : Delivers b c) :
    Delivers a c := by
  rcases h1 with ⟨c1, d1⟩ | ⟨c1, st, x, d1⟩
  · rcases h2 with ⟨c2, d2⟩ | ⟨c2, st, x, d2⟩
    · exact Or.inl ⟨c2.trans c1, d2.trans d1⟩
    · exact Or.inr ⟨c2, st, x, by rw [d2, d1, c1]⟩
  · rcases h2 with ⟨c2, d2⟩ | ⟨c2, st2, x2, d2⟩
    · exact Or.inr ⟨c2.trans c1, st, x, d2.trans d1⟩
    · refine Or.inr ⟨c2, st, x, ?_⟩
      rw [d2, c1, d1]
      simp [delivery]

theorem delivers_doneConnecting (s : ConnOpener) (st : comm_err_t) (x : Int) :
    Delivers s (doneConnecting s st x) :=
  Or.inr ⟨callback_doneConnecting s st x, st, x, deliveries_doneConnecting s st x⟩

theorem delivers_swanSong (s : ConnOpener) : Delivers s (swanSong s) :=
  Or.inr ⟨callback_swanSong s, _, _, deliveries_swanSong s⟩

theorem delivers_connect (cfg : Config) (env : Env) (s s2 : ConnOpener)
    (h : connect cfg env s = some s2) : Delivers s s2 := by
  unfold connect at h
  split at h
  · simp at h
  · rename_i c hc
    have o4 := (obs_connectAttempt s c).2.2.2
    have hcb0 : (connectAttempt s c).callback_ = s.callback_ := rfl
    split at h <;> simp at h <;> subst h
    · cases hd : tookTooLong env (connectAttempt s c)
      · obtain ⟨_, a2, _, _, _, a6⟩ := obs_connectInProgress_wait env (connectAttempt s c) c hd
        exact Or.inl ⟨a2, a6.trans o4⟩
      · obtain ⟨_, a2, _, _, _, a6⟩ := obs_connectInProgress_late env (connectAttempt s c) c hd
        exact Or.inr ⟨a2, _, _, by rw [a6, o4, hcb0]⟩
    · obtain ⟨_, a2, _, _, _, a6⟩ := obs_connectOk env (connectAttempt s c) c hc
      exact Or.inr ⟨a2, _, _, by rw [a6, o4, hcb0]⟩
    · by_cases hg : tookTooLong env (connectAttempt s c) = true ∨
          ¬ (((connectAttempt s c).failRetries_ : Int) + 1 < cfg.connect_retries)
      · obtain ⟨_, a2, _, _, _, a6⟩ := obs_connectDefault_giveUp cfg env (connectAttempt s c) c hg
        exact Or.inr ⟨a2, _, _, by rw [a6, o4, hcb0]⟩
      · have h1 : tookTooLong env (connectAttempt s c) = false := by
          cases ht : tookTooLong env (connectAttempt s c)
          · rfl
          · exact absurd (Or.inl ht) hg
        have h2 : ((connectAttempt s c).failRetries_ : Int) + 1 < cfg.connect_retries := by
          by_contra hn
          exact hg (Or.inr hn)
        obtain ⟨_, a2, _, _, _, a6⟩ :=
          obs_connectDefault_retry cfg env (connectAttempt s c) c h1 h2
        exact Or.inl ⟨a2, a6.trans o4⟩

theorem delivers_startConnecting (cfg : Config) (env : Env) (s s2 : ConnOpener)
    (c : Connection) (h : startConnecting cfg env s c = some s2) : Delivers s s2 := by
  unfold startConnecting at h
  have h0 : Delivers s (startWatches env s c) :=
    Or.inl ⟨rfl, by
      simp [startWatches, emit, deliveries, List.filterMap_append, List.filterMap_cons]⟩
  exact delivers_chain h0 (delivers_connect cfg env _ s2 h)

theorem delivers_start (cfg : Config) (env : Env) (s s2 : ConnOpener)
    (h : start cfg env s = some s2) : Delivers s s2 := by
  unfold start at h
  split at h
  · simp at h
  · rename_i c hc
    have h1 : Delivers s { emit s (Effect.comm_openex env.openexFd) with
        conn_ := some (openSocket cfg env c) } :=
      Or.inl ⟨rfl, by simp [emit, deliveries, List.filterMap_append, List.filterMap_cons]⟩
    split at h
    · simp only [] at h
      split at h
      · simp at h
        subst h
        exact delivers_chain h1 (delivers_doneConnecting _ _ _)
      · exact delivers_chain h1 (delivers_startConnecting cfg env _ s2 _ h)
    · exact delivers_startConnecting cfg env _ s2 _ h

theorem delivers_step (cfg : Config) (s : ConnOpener) (ev : Handler × Env) :
    Delivers s (step cfg s ev) := by
  unfold step
  split
  · cases h : start cfg ev.2 s with
    | none => exact delivers_self s
    | some s2 => exact delivers_start cfg ev.2 s s2 h
  · cases h : connect cfg ev.2 s with
    | none => exact delivers_self s
    | some s2 => exact delivers_connect cfg ev.2 s s2 h
  · exact delivers_doneConnecting _ _ _
  · cases h : timeout cfg ev.2 s with
    | none => exact delivers_self s
    | some s2 => exact delivers_connect cfg ev.2 s s2 h
  · exact delivers_swanSong s

theorem delivers_run (cfg : Config) (evs : List (Handler × Env)) (s : ConnOpener) :
    Delivers s (run cfg s evs) := by
  induction evs generalizing s with
  | nil => exact delivers_self s
  | cons ev evs ih => exact delivers_chain (delivers_step cfg s ev) (ih (step cfg s ev))

/-- C2: a job constructed with a non-null callback, run through any sequence
of handler invocations that begins with start() and ends with swanSong(), has
scheduled its completion callback exactly once when swanSong returns: one
scheduling in the log, made to the callback the job was constructed with. -/
theorem callback_scheduled_exactly_once (cfg : Config) (c : Option Connection)
    (handler : AsyncCall) (ctimeout : Int) (host : Option String) (e0 e1 : Env)
    (evs : List (Handler × Env)) :
    scheduled (run cfg (setHost (ConnOpener.new c (some handler) ctimeout) host)
      ((Handler.start, e0) :: (evs ++ [(Handler.swanSong, e1)]))).trace = 1 ∧
    ∃ st x, deliveries (run cfg (setHost (ConnOpener.new c (some handler) ctimeout) host)
      ((Handler.start, e0) :: (evs ++ [(Handler.swanSong, e1)]))).trace
      = [(handler, st, x)] := by
  have hsplit : (Handler.start, e0) :: (evs ++ [(Handler.swanSong, e1)])
      = ((Handler.start, e0) :: evs) ++ [(Handler.swanSong, e1)] := by simp
  rw [hsplit]
  have h1 : (run cfg (setHost (ConnOpener.new c (some handler) ctimeout) host)
      (((Handler.start, e0) :: evs) ++ [(Handler.swanSong, e1)])).callback_ = none := by
    rw [run_append]
    exact callback_swanSong _
  constructor
  · have h := owed_run cfg (((Handler.start, e0) :: evs) ++ [(Handler.swanSong, e1)])
      (setHost (ConnOpener.new c (some handler) ctimeout) host)
    have h0 : owed (setHost (ConnOpener.new c (some handler) ctimeout) host) = 1 := rfl
    have h2 := pending_of_callback_none _ h1
    rw [h0] at h
    unfold owed at h
    omega
  · rcases delivers_run cfg (((Handler.start, e0) :: evs) ++ [(Handler.swanSong, e1)])
      (setHost (ConnOpener.new c (some handler) ctimeout) host) with ⟨c1, _⟩ | ⟨_, st, x, d⟩
    · rw [h1] at c1
      cases c1
    · exact ⟨st, x, d⟩

/-! ## Done is terminal -/

theorem step_done (cfg : Config) (s : ConnOpener) (ev : Handler × Env)
    (hc : s.conn_ = none) (hcb : s.callback_ = none) :
    (step cfg s ev).conn_ = none ∧ (step cfg s ev).callback_ = none ∧
    (step cfg s ev).totalTries_ = s.totalTries_ ∧
    (step cfg s ev).failRetries_ = s.failRetries_ ∧
    attempts (step cfg s ev).trace = attempts s.trace ∧
    deliveries (step cfg s ev).trace = deliveries s.trace ∧
    closes (step cfg s ev).trace = closes s.trace ∧
    scheduled (step cfg s ev).trace = scheduled s.trace := by
  obtain ⟨ev1, ev2⟩ := ev
  obtain ⟨host, conn, cb, tt, fr, cto, cst, ea, tmo, tr⟩ := s
  simp only at hc hcb
  subst hc hcb
  cases ev1 <;> cases ea <;> cases tmo <;>
    simp [step, start, connect, timeout, earlyAbort, doneConnecting_eq, swanSong_eq,
      rollbackCalls, attempts, deliveries, closes, scheduled, List.countP_append,
      List.countP_cons, List.filterMap_append, List.filterMap_cons, Effect.isAttempt,
      Effect.isClose, Effect.isSchedule]

theorem run_done (cfg : Config) (evs : List (Handler × Env)) (s : ConnOpener)
    (hc : s.conn_ = none) (hcb : s.callback_ = none) :
    (run cfg s evs).conn_ = none ∧ (run cfg s evs).callback_ = none ∧
    (run cfg s evs).totalTries_ = s.totalTries_ ∧
    (run cfg s evs).failRetries_ = s.failRetries_ ∧
    attempts (run cfg s evs).trace = attempts s.trace ∧
    deliveries (run cfg s evs).trace = deliveries s.trace ∧
    closes (run cfg s evs).trace = closes s.trace ∧
    scheduled (run cfg s evs).trace = scheduled s.trace := by
  induction evs generalizing s with
  | nil => exact ⟨hc, hcb, rfl, rfl, rfl, rfl, rfl, rfl⟩
  | cons ev evs ih =>
    obtain ⟨a1, a2, a3, a4, a5, a6, a7, a8⟩ := step_done cfg s ev hc hcb
    obtain ⟨b1, b2, b3, b4, b5, b6, b7, b8⟩ := ih (step cfg s ev) a1 a2
    exact ⟨b1, b2, b3.trans a3, b4.trans a4, b5.trans a5, b6.trans a6, b7.trans a7,
      b8.trans a8⟩

/-- C17: once a job is done (callback_ and conn_ both NULL), every later
sequence of handler invocations (start, connect, timeout, earlyAbort, swanSong,
in any order) leaves totalTries_, failRetries_, conn_ and callback_ as they
are, issues no connect attempt and delivers nothing. -/
theorem done_is_terminal (cfg : Config) (s : ConnOpener) (evs : List (Handler × Env))
    (hc : s.conn_ = none) (hcb : s.callback_ = none) :
    (run cfg s evs).totalTries_ = s.totalTries_ ∧
    (run cfg s evs).failRetries_ = s.failRetries_ ∧
    (run cfg s evs).conn_ = none ∧ (run cfg s evs).callback_ = none ∧
    attempts (run cfg s evs).trace = attempts s.trace ∧
    deliveries (run cfg s evs).trace = deliveries s.trace := by
  obtain ⟨b1, b2, b3, b4, b5, b6, _, _⟩ := run_done cfg evs s hc hcb
  exact ⟨b3, b4, b1, b2, b5, b6⟩

/-- C17, witnessed on the sample job after its first attempt has succeeded, with
a stale retry, the timeout, an early abort and the teardown coming in later. -/
theorem done_is_terminal_witness :
    (run (exCfg 2) (run (exCfg 2) exJob [(Handler.start, exEnv 100 comm_err_t.COMM_OK)])
      [(Handler.connect, exEnv 101 comm_err_t.COMM_OK),
       (Handler.timeout, exEnv 131 comm_err_t.COMM_INPROGRESS),
       (Handler.earlyAbort 32, exEnv 132 comm_err_t.COMM_ERROR),
       (Handler.swanSong, exEnv 133 comm_err_t.COMM_ERROR)]).totalTries_
      = (run (exCfg 2) exJob [(Handler.start, exEnv 100 comm_err_t.COMM_OK)]).totalTries_ ∧
    attempts (run (exCfg 2) (run (exCfg 2) exJob [(Handler.start, exEnv 100 comm_err_t.COMM_OK)])
      [(Handler.connect, exEnv 101 comm_err_t.COMM_OK),
       (Handler.timeout, exEnv 131 comm_err_t.COMM_INPROGRESS),
       (Handler.earlyAbort 32, exEnv 132 comm_err_t.COMM_ERROR),
       (Handler.swanSong, exEnv 133 comm_err_t.COMM_ERROR)]).trace
      = attempts (run (exCfg 2) exJob [(Handler.start, exEnv 100 comm_err_t.COMM_OK)]).trace :=
  have h := done_is_terminal (exCfg 2)
    (run (exCfg 2) exJob [(Handler.start, exEnv 100 comm_err_t.COMM_OK)])
    [(Handler.connect, exEnv 101 comm_err_t.COMM_OK),
     (Handler.timeout, exEnv 131 comm_err_t.COMM_INPROGRESS),
     (Handler.earlyAbort 32, exEnv 132 comm_err_t.COMM_ERROR),
     (Handler.swanSong, exEnv 133 comm_err_t.COMM_ERROR)] (by decide) (by decide)
  ⟨h.1, h.2.2.2.2.1⟩

/-! ## Teardown twice -/

theorem isOpen_close (c : Connection) : c.close.isOpen = false := by
  unfold Connection.close Connection.isOpen
  by_cases h : 0 ≤ c.fd <;> simp [h]

theorem close_of_closed (c : Connection) (h : c.isOpen = false) : c.close = c := by
  simp [Connection.close, h]

theorem swanSong_done (s : ConnOpener) (hc : s.conn_ = none) (hcb : s.callback_ = none) :
    scheduled (swanSong s).trace = scheduled s.trace ∧
    closes (swanSong s).trace = closes s.trace := by
  obtain ⟨_, _, _, _, _, _, a7, a8⟩ :=
    step_done (exCfg 0) s (Handler.swanSong, exEnv 0 comm_err_t.COMM_OK) hc hcb
  exact ⟨a8, a7⟩

/-- C11: swanSong is idempotent.  On every job state a second swanSong changes
nothing: the job and the log of calls made (deliveries, socket closes,
cancellations) are what the first left.  And once doneConnecting has run,
whatever handlers come after it, swanSong schedules no callback and closes no
socket. -/
theorem swanSong_idempotent (cfg : Config) (s : ConnOpener) (st : comm_err_t) (x : Int)
    (evs : List (Handler × Env)) :
    swanSong (swanSong s) = swanSong s ∧
    (swanSong (swanSong s)).trace = (swanSong s).trace ∧
    scheduled (swanSong (run cfg (doneConnecting s st x) evs)).trace
      = scheduled (run cfg (doneConnecting s st x) evs).trace ∧
    closes (swanSong (run cfg (doneConnecting s st x) evs)).trace
      = closes (run cfg (doneConnecting s st x) evs).trace := by
  have h1 : swanSong (swanSong s) = swanSong s := by
    rw [swanSong_eq (swanSong s), swanSong_eq s]
    obtain ⟨host, conn, cb, tt, fr, cto, cst, ea, tmo, tr⟩ := s
    rcases conn with _ | c
    · cases cb <;> simp [rollbackCalls]
    · cases cb <;> simp [rollbackCalls, isOpen_close, close_of_closed _ (isOpen_close c)]
  have hd : (doneConnecting s st x).conn_ = none ∧ (doneConnecting s st x).callback_ = none := by
    rw [doneConnecting_eq]
    exact ⟨rfl, rfl⟩
  obtain ⟨b1, b2, _⟩ := run_done cfg evs (doneConnecting s st x) hd.1 hd.2
  obtain ⟨a8, a7⟩ := swanSong_done (run cfg (doneConnecting s st x) evs) b1 b2
  exact ⟨h1, by rw [h1], a8, a7⟩

/-! ## Early abort -/

/-- C18: earlyAbort on a job whose callback is still pending schedules the
callback with COMM_ERR_CLOSING and the errno of the notification, as its only
call: no connect attempt is issued; conn_ and callback_ are cleared.  Nothing
is asked of the other members, so this holds whatever watches are pending. -/
theorem earlyAbort_delivers_closing (s : ConnOpener) (cb : AsyncCall) (x : Int)
    (hcb : s.callback_ = some cb) :
    (earlyAbort s x).trace
      = s.trace ++ [Effect.ScheduleCallHere cb s.conn_ comm_err_t.COMM_ERR_CLOSING x] ∧
    deliveries (earlyAbort s x).trace
      = deliveries s.trace ++ [(cb, comm_err_t.COMM_ERR_CLOSING, x)] ∧
    attempts (earlyAbort s x).trace = attempts s.trace ∧
    (earlyAbort s x).conn_ = none ∧ (earlyAbort s x).callback_ = none := by
  unfold earlyAbort
  rw [doneConnecting_eq]
  simp [hcb, deliveries, attempts, List.filterMap_append, List.filterMap_cons,
    List.countP_append, List.countP_cons, Effect.isAttempt]

/-- C18, witnessed on the sample job waiting for its socket to become writable. -/
theorem earlyAbort_delivers_closing_witness :
    deliveries (earlyAbort
        (run (exCfg 2) exJob [(Handler.start, exEnv 100 comm_err_t.COMM_INPROGRESS)]) 32).trace
      = deliveries (run (exCfg 2) exJob
          [(Handler.start, exEnv 100 comm_err_t.COMM_INPROGRESS)]).trace
        ++ [(7, comm_err_t.COMM_ERR_CLOSING, 32)] :=
  (earlyAbort_delivers_closing
    (run (exCfg 2) exJob [(Handler.start, exEnv 100 comm_err_t.COMM_INPROGRESS)]) 7 32
    (by decide)).2.1

/-! ## What each arm of `connect` does to the socket, the peer and the ipcache -/

theorem log_connectAttempt (s : ConnOpener) (c : Connection) :
    closes (connectAttempt s c).trace = closes s.trace ∧
    outcomes (connectAttempt s c).trace = outcomes s.trace ∧
    peerIncrements (connectAttempt s c).trace = peerIncrements s.trace ∧
    goodReports (connectAttempt s c).trace = goodReports s.trace ∧
    badReports (connectAttempt s c).trace = badReports s.trace ∧
    cancels (connectAttempt s c).trace = cancels s.trace := by
  simp [connectAttempt, emit, closes, outcomes, peerIncrements, goodReports, badReports,
    cancels, List.countP_append, List.countP_cons, List.filterMap_append,
    List.filterMap_cons, Effect.isClose, Effect.isPeerIncr, Effect.isGoodReport,
    Effect.isBadReport, Effect.isCancel]

theorem log_connectInProgress_late (env : Env) (s : ConnOpener) (c : Connection)
    (hc : s.conn_ = some c) (hd : tookTooLong env s = true) :
    closes (connectInProgress env s c).trace = closes s.trace + (if c.isOpen then 1 else 0) ∧
    outcomes (connectInProgress env s c).trace
      = outcomes s.trace ++ outcome s.callback_ comm_err_t.COMM_TIMEOUT (some c.close) ∧
    peerIncrements (connectInProgress env s c).trace = peerIncrements s.trace ∧
    goodReports (connectInProgress env s c).trace = goodReports s.trace ∧
    badReports (connectInProgress env s c).trace = badReports s.trace ∧
    cancels (connectInProgress env s c).trace = cancels s.trace ∧
    (connectInProgress env s c).earlyAbort_ = s.earlyAbort_ ∧
    (connectInProgress env s c).timeout_ = s.timeout_ := by
  unfold connectInProgress
  rw [hd]
  simp only [if_true, doneConnecting_eq, connClose_eq]
  obtain ⟨host, conn, cb, tt, fr, cto, cst, ea, tmo, tr⟩ := s
  simp only at hc
  subst hc
  cases cb <;> cases ho : c.isOpen
  all_goals
    simp [*, outcome, closes, outcomes, peerIncrements, goodReports, badReports, cancels,
      List.countP_append, List.countP_cons, List.filterMap_append, List.filterMap_cons,
      Effect.isClose, Effect.isPeerIncr, Effect.isGoodReport, Effect.isBadReport,
      Effect.isCancel, Connection.closeCalls, Connection.close]

theorem log_connectInProgress_wait (env : Env) (s : ConnOpener) (c : Connection)
    (hd : tookTooLong env s = false) :
    closes (connectInProgress env s c).trace = closes s.trace ∧
    outcomes (connectInProgress env s c).trace = outcomes s.trace ∧
    peerIncrements (connectInProgress env s c).trace = peerIncrements s.trace ∧
    goodReports (connectInProgress env s c).trace = goodReports s.trace ∧
    badReports (connectInProgress env s c).trace = badReports s.trace ∧
    cancels (connectInProgress env s c).trace = cancels s.trace ∧
    (connectInProgress env s c).earlyAbort_ = s.earlyAbort_ ∧
    (connectInProgress env s c).timeout_ = s.timeout_ := by
  unfold connectInProgress
  rw [hd]
  simp [emit, closes, outcomes, peerIncrements, goodReports, badReports, cancels,
    List.countP_append, List.countP_cons, List.filterMap_append, List.filterMap_cons,
    Effect.isClose, Effect.isPeerIncr, Effect.isGoodReport, Effect.isBadReport,
    Effect.isCancel]

theorem log_connectOk (env : Env) (s : ConnOpener) (c : Connection) (hc : s.conn_ = some c) :
    closes (connectOk env s c).trace = closes s.trace ∧
    outcomes (connectOk env s c).trace
      = outcomes s.trace ++ outcome s.callback_ comm_err_t.COMM_OK
          (some { c with localAddr := env.sockname.getD c.localAddr }) ∧
    peerIncrements (connectOk env s c).trace
      = peerIncrements s.trace + (if c.peer.isSome then 1 else 0) ∧
    goodReports (connectOk env s c).trace
      = goodReports s.trace + (if s.host_.isSome then 1 else 0) ∧
    badReports (connectOk env s c).trace = badReports s.trace ∧
    cancels (connectOk env s c).trace = cancels s.trace ∧
    (connectOk env s c).earlyAbort_ = s.earlyAbort_ ∧
    (connectOk env s c).timeout_ = s.timeout_ := by
  unfold connectOk
  rw [connected_eq env s c hc]
  simp only [doneConnecting_eq, markGoodAddr_eq]
  obtain ⟨host, conn, cb, tt, fr, cto, cst, ea, tmo, tr⟩ := s
  cases cb <;> cases host <;> cases hp : c.peer
  all_goals
    simp [*, outcome, closes, outcomes, peerIncrements, goodReports, badReports, cancels,
      List.countP_append, List.countP_cons, List.filterMap_append, List.filterMap_cons,
      Effect.isClose, Effect.isPeerIncr, Effect.isGoodReport, Effect.isBadReport,
      Effect.isCancel, Connection.closeCalls, Connection.close]

theorem log_connectDefault_giveUp (cfg : Config) (env : Env) (s : ConnOpener) (c : Connection)
    (hc : s.conn_ = some c)
    (hd : tookTooLong env s = true ∨ ¬ ((s.failRetries_ : Int) + 1 < cfg.connect_retries)) :
    closes (connectDefault cfg env s c).trace = closes s.trace + (if c.isOpen then 1 else 0) ∧
    outcomes (connectDefault cfg env s c).trace
      = outcomes s.trace ++ outcome s.callback_
          (if tookTooLong env s then comm_err_t.COMM_TIMEOUT else comm_err_t.COMM_ERR_CONNECT)
          (some c.close) ∧
    peerIncrements (connectDefault cfg env s c).trace = peerIncrements s.trace ∧
    goodReports (connectDefault cfg env s c).trace = goodReports s.trace ∧
    badReports (connectDefault cfg env s c).trace
      = badReports s.trace + (if s.host_.isSome then 1 else 0) ∧
    cancels (connectDefault cfg env s c).trace
      = cancels s.trace + (if s.earlyAbort_ then 1 else 0) ∧
    (connectDefault cfg env s c).earlyAbort_ = false ∧
    (connectDefault cfg env s c).timeout_ = s.timeout_ := by
  rw [connectDefault_giveUp cfg env s c hd]
  generalize tookTooLong env s = late
  obtain ⟨host, conn, cb, tt, fr, cto, cst, ea, tmo, tr⟩ := s
  simp only at hc
  subst hc
  cases cb <;> cases host <;> cases ea <;> cases hI : (cfg.USE_ICMP && cfg.test_reachability) <;>
    cases ho : c.isOpen
  all_goals
    simp [*, outcome, closes, outcomes, peerIncrements, goodReports, badReports, cancels,
      List.countP_append, List.countP_cons, List.filterMap_append, List.filterMap_cons,
      Effect.isClose, Effect.isPeerIncr, Effect.isGoodReport, Effect.isBadReport,
      Effect.isCancel, Connection.closeCalls, Connection.close]

theorem log_connectDefault_retry (cfg : Config) (env : Env) (s : ConnOpener) (c : Connection)
    (hd : tookTooLong env s = false) (hn : (s.failRetries_ : Int) + 1 < cfg.connect_retries) :
    closes (connectDefault cfg env s c).trace = closes s.trace ∧
    outcomes (connectDefault cfg env s c).trace = outcomes s.trace ∧
    peerIncrements (connectDefault cfg env s c).trace = peerIncrements s.trace ∧
    goodReports (connectDefault cfg env s c).trace = goodReports s.trace ∧
    badReports (connectDefault cfg env s c).trace
      = badReports s.trace + (if s.host_.isSome then 1 else 0) ∧
    cancels (connectDefault cfg env s c).trace = cancels s.trace ∧
    (connectDefault cfg env s c).earlyAbort_ = s.earlyAbort_ ∧
    (connectDefault cfg env s c).timeout_ = s.timeout_ := by
  rw [connectDefault_retry cfg env s c hd hn]
  obtain ⟨host, conn, cb, tt, fr, cto, cst, ea, tmo, tr⟩ := s
  cases host <;> cases hI : (cfg.USE_ICMP && cfg.test_reachability)
  all_goals
    simp [*, outcome, closes, outcomes, peerIncrements, goodReports, badReports, cancels,
      List.countP_append, List.countP_cons, List.filterMap_append, List.filterMap_cons,
      Effect.isClose, Effect.isPeerIncr, Effect.isGoodReport, Effect.isBadReport,
      Effect.isCancel, Connection.closeCalls, Connection.close]

/-! ## Starting -/

theorem start_ready (cfg : Config) (env : Env) (s : ConnOpener) (c : Connection)
    (hc : s.conn_ = some c) (ho : (startConn cfg env c).isOpen = true) :
    start cfg env s = connect cfg env (startReady cfg env s c) := by
  unfold start startReady
  rw [hc]
  cases h : c.isOpen
  · have h2 : (openSocket cfg env c).isOpen = true := by
      simpa [startConn, h] using ho
    simp [h, h2, startConnecting]
  · simp [h, startConnecting]

theorem start_no_socket (cfg : Config) (env : Env) (s : ConnOpener) (c : Connection)
    (hc : s.conn_ = some c) (ho : (startConn cfg env c).isOpen = false) :
    start cfg env s = some (doneConnecting
      { emit s (Effect.comm_openex env.openexFd) with conn_ := some (openSocket cfg env c) }
      comm_err_t.COMM_ERR_CONNECT 0) := by
  unfold start
  rw [hc]
  cases h : c.isOpen
  · have h2 : (openSocket cfg env c).isOpen = false := by
      simpa [startConn, h] using ho
    simp [h, h2]
  · simp [startConn, h] at ho

theorem startReady_fields (cfg : Config) (env : Env) (s : ConnOpener) (c : Connection) :
    (startReady cfg env s c).conn_
      = (if c.isOpen then s.conn_ else some (startConn cfg env c)) ∧
    (startReady cfg env s c).callback_ = s.callback_ ∧
    (startReady cfg env s c).host_ = s.host_ ∧
    (startReady cfg env s c).totalTries_ = s.totalTries_ ∧
    (startReady cfg env s c).failRetries_ = s.failRetries_ ∧
    (startReady cfg env s c).connectTimeout_ = s.connectTimeout_ ∧
    (startReady cfg env s c).connectStart_ = env.squid_curtime ∧
    (startReady cfg env s c).earlyAbort_ = true ∧
    (startReady cfg env s c).timeout_ = true := by
  unfold startReady startConn
  cases h : c.isOpen <;> simp [h, startWatches, emit]

theorem startReady_log (cfg : Config) (env : Env) (s : ConnOpener) (c : Connection) :
    attempts (startReady cfg env s c).trace = attempts s.trace ∧
    deliveries (startReady cfg env s c).trace = deliveries s.trace ∧
    writeWatches (startReady cfg env s c).trace = writeWatches s.trace ∧
    retriesScheduled (startReady cfg env s c).trace = retriesScheduled s.trace ∧
    closes (startReady cfg env s c).trace = closes s.trace ∧
    outcomes (startReady cfg env s c).trace = outcomes s.trace ∧
    peerIncrements (startReady cfg env s c).trace = peerIncrements s.trace ∧
    goodReports (startReady cfg env s c).trace = goodReports s.trace ∧
    badReports (startReady cfg env s c).trace = badReports s.trace ∧
    cancels (startReady cfg env s c).trace = cancels s.trace ∧
    scheduled (startReady cfg env s c).trace = scheduled s.trace := by
  unfold startReady
  cases h : c.isOpen <;>
    simp [h, startWatches, emit, attempts, deliveries, writeWatches, retriesScheduled, closes,
      outcomes, peerIncrements, goodReports, badReports, cancels, scheduled,
      List.countP_append, List.countP_cons, List.filterMap_append, List.filterMap_cons,
      Effect.isAttempt, Effect.isWriteWatch, Effect.isRetryEvent, Effect.isClose,
      Effect.isPeerIncr, Effect.isGoodReport, Effect.isBadReport, Effect.isCancel,
      Effect.isSchedule]

theorem startReady_conn (cfg : Config) (env : Env) (s : ConnOpener) (c : Connection)
    (hc : s.conn_ = some c) :
    (startReady cfg env s c).conn_ = some (startConn cfg env c) := by
  rw [(startReady_fields cfg env s c).1]
  cases h : c.isOpen <;> simp [hc, startConn, h]

theorem startConn_peer (cfg : Config) (env : Env) (c : Connection) :
    (startConn cfg env c).peer = c.peer := by
  unfold startConn openSocket
  cases c.isOpen <;> cases (cfg.USE_IPV6 && c.remote.IsIPv4) <;> simp

theorem scheduled_eq_length (t : List Effect) : scheduled t = (deliveries t).length := by
  induction t with
  | nil => rfl
  | cons e t ih =>
    cases e <;>
      simp [scheduled, deliveries, List.countP_cons, List.filterMap_cons, Effect.isSchedule]
        at ih ⊢ <;>
      exact ih

/-! ## Success at the first attempt -/

/-- C14: when the first attempt made by start() succeeds at once on a job with a
callback and no hostname, then as start() returns the callback has been
scheduled once, with COMM_OK, errno 0 and the job's connection (the local
address is the one getsockname gave, if it gave one); the peer counter has been
incremented once if the connection has a peer and not at all otherwise; no
address report has been made; one attempt has been issued; conn_ and callback_
are cleared. -/
theorem start_success (cfg : Config) (env : Env) (c : Connection) (cb : AsyncCall)
    (ctimeout : Int) (hsock : (startConn cfg env c).isOpen = true)
    (hok : env.connectResult = comm_err_t.COMM_OK) :
    ∃ s2, start cfg env (ConnOpener.new (some c) (some cb) ctimeout) = some s2 ∧
      scheduled s2.trace = 1 ∧
      deliveries s2.trace = [(cb, comm_err_t.COMM_OK, 0)] ∧
      outcomes s2.trace = [(comm_err_t.COMM_OK, some { startConn cfg env c with
        localAddr := env.sockname.getD (startConn cfg env c).localAddr })] ∧
      peerIncrements s2.trace = (if c.peer.isSome then 1 else 0) ∧
      goodReports s2.trace = 0 ∧ badReports s2.trace = 0 ∧
      attempts s2.trace = 1 ∧
      s2.conn_ = none ∧ s2.callback_ = none := by
  have hc1 := startReady_conn cfg env (ConnOpener.new (some c) (some cb) ctimeout) c rfl
  obtain ⟨_, f2, f3, _⟩ := startReady_fields cfg env (ConnOpener.new (some c) (some cb) ctimeout) c
  obtain ⟨r1, r2, _, _, _, r6, r7, r8, r9, _, _⟩ :=
    startReady_log cfg env (ConnOpener.new (some c) (some cb) ctimeout) c
  obtain ⟨o1, _, _, o4⟩ :=
    obs_connectAttempt (startReady cfg env (ConnOpener.new (some c) (some cb) ctimeout) c)
      (startConn cfg env c)
  obtain ⟨_, l2, l3, l4, l5, _⟩ :=
    log_connectAttempt (startReady cfg env (ConnOpener.new (some c) (some cb) ctimeout) c)
      (startConn cfg env c)
  obtain ⟨a1, a2, a3, _, _, a6⟩ := obs_connectOk env
    (connectAttempt (startReady cfg env (ConnOpener.new (some c) (some cb) ctimeout) c)
      (startConn cfg env c)) (startConn cfg env c) hc1
  obtain ⟨_, b2, b3, b4, b5, _⟩ := log_connectOk env
    (connectAttempt (startReady cfg env (ConnOpener.new (some c) (some cb) ctimeout) c)
      (startConn cfg env c)) (startConn cfg env c) hc1
  have hcb : (connectAttempt (startReady cfg env
      (ConnOpener.new (some c) (some cb) ctimeout) c) (startConn cfg env c)).callback_
      = some cb := f2
  have hh : (connectAttempt (startReady cfg env
      (ConnOpener.new (some c) (some cb) ctimeout) c) (startConn cfg env c)).host_
      = none := f3
  have hd : deliveries (connectOk env
      (connectAttempt (startReady cfg env (ConnOpener.new (some c) (some cb) ctimeout) c)
        (startConn cfg env c)) (startConn cfg env c)).trace
      = [(cb, comm_err_t.COMM_OK, 0)] := by
    rw [a6, o4, r2, hcb]
    rfl
  refine ⟨_, (start_ready cfg env _ c rfl hsock).trans
    (connect_ok cfg env _ (startConn cfg env c) hc1 hok), ?_, hd, ?_, ?_, ?_, ?_, ?_, a1, a2⟩
  · rw [scheduled_eq_length, hd]
    rfl
  · rw [b2, l2, r6, hcb]
    rfl
  · rw [b3, l3, r7, startConn_peer]
    simp [peerIncrements, ConnOpener.new]
  · rw [b4, l4, r8, hh]
    rfl
  · rw [b5, l5, r9]
    rfl
  · rw [a3, o1, r1]
    rfl

/-- C14, witnessed on the sample job. -/
theorem start_success_witness :
    ∃ s2, start (exCfg 2) (exEnv 100 comm_err_t.COMM_OK) (ConnOpener.new (some exConn) (some 7) 30)
        = some s2 ∧
      scheduled s2.trace = 1 :=
  have h := start_success (exCfg 2) (exEnv 100 comm_err_t.COMM_OK) exConn 7 30
    (by decide) (by decide)
  h.elim fun s2 h2 => ⟨s2, h2.1, h2.2.1⟩

/-! ## Address reports -/

/-- C15: every call of connect() that issues an attempt makes, if a hostname is
set, exactly one address report when the result is definitive (a good one on
COMM_OK, a bad one on an immediate failure) and none when the result is
COMM_INPROGRESS; if no hostname is set it makes no report, whatever the
result. -/
theorem address_report_per_attempt (cfg : Config) (env : Env) (s : ConnOpener) (c : Connection)
    (hc : s.conn_ = some c) :
    ∃ s2, connect cfg env s = some s2 ∧
      (env.connectResult = comm_err_t.COMM_OK →
        goodReports s2.trace = goodReports s.trace + (if s.host_.isSome then 1 else 0) ∧
        badReports s2.trace = badReports s.trace) ∧
      (isFailure env.connectResult = true →
        goodReports s2.trace = goodReports s.trace ∧
        badReports s2.trace = badReports s.trace + (if s.host_.isSome then 1 else 0)) ∧
      (env.connectResult = comm_err_t.COMM_INPROGRESS →
        goodReports s2.trace = goodReports s.trace ∧
        badReports s2.trace = badReports s.trace) := by
  obtain ⟨_, _, _, l4, l5, _⟩ := log_connectAttempt s c
  have hc0 : (connectAttempt s c).conn_ = some c := hc
  have hh : (connectAttempt s c).host_ = s.host_ := rfl
  by_cases hok : env.connectResult = comm_err_t.COMM_OK
  · obtain ⟨_, _, _, b4, b5, _⟩ := log_connectOk env (connectAttempt s c) c hc0
    refine ⟨_, connect_ok cfg env s c hc hok, fun _ => ⟨by rw [b4, l4, hh], by rw [b5, l5]⟩,
      fun h => ?_, fun h => ?_⟩
    · rw [hok] at h
      simp [isFailure] at h
    · rw [hok] at h
      cases h
  · by_cases hp : env.connectResult = comm_err_t.COMM_INPROGRESS
    · have hgb : goodReports (connectInProgress env (connectAttempt s c) c).trace
            = goodReports s.trace ∧
          badReports (connectInProgress env (connectAttempt s c) c).trace
            = badReports s.trace := by
        cases hd : tookTooLong env (connectAttempt s c)
        · obtain ⟨_, _, _, b4, b5, _⟩ :=
            log_connectInProgress_wait env (connectAttempt s c) c hd
          exact ⟨by rw [b4, l4], by rw [b5, l5]⟩
        · obtain ⟨_, _, _, b4, b5, _⟩ :=
            log_connectInProgress_late env (connectAttempt s c) c hc0 hd
          exact ⟨by rw [b4, l4], by rw [b5, l5]⟩
      refine ⟨_, connect_inprogress cfg env s c hc hp, fun h => absurd h hok,
        fun h => ?_, fun _ => hgb⟩
      rw [hp] at h
      simp [isFailure] at h
    · have hf : isFailure env.connectResult = true := by
        cases hres : env.connectResult <;> simp_all [isFailure]
      have hgb : goodReports (connectDefault cfg env (connectAttempt s c) c).trace
            = goodReports s.trace ∧
          badReports (connectDefault cfg env (connectAttempt s c) c).trace
            = badReports s.trace + (if s.host_.isSome then 1 else 0) := by
        by_cases hg : tookTooLong env (connectAttempt s c) = true ∨
            ¬ (((connectAttempt s c).failRetries_ : Int) + 1 < cfg.connect_retries)
        · obtain ⟨_, _, _, b4, b5, _⟩ :=
            log_connectDefault_giveUp cfg env (connectAttempt s c) c hc0 hg
          exact ⟨by rw [b4, l4], by rw [b5, l5, hh]⟩
        · have h1 : tookTooLong env (connectAttempt s c) = false := by
            cases ht : tookTooLong env (connectAttempt s c)
            · rfl
            · exact absurd (Or.inl ht) hg
          have h2 : ((connectAttempt s c).failRetries_ : Int) + 1 < cfg.connect_retries := by
            by_contra hn
            exact hg (Or.inr hn)
          obtain ⟨_, _, _, b4, b5, _⟩ :=
            log_connectDefault_retry cfg env (connectAttempt s c) c h1 h2
          exact ⟨by rw [b4, l4], by rw [b5, l5, hh]⟩
      exact ⟨_, connect_failure cfg env s c hc hf, fun h => absurd h hok,
        fun _ => hgb, fun h => absurd h hp⟩

/-- C15, witnessed on the sample job with the hostname set and a first attempt
that fails. -/
theorem address_report_per_attempt_witness :
    ∃ s2, connect (exCfg 2) (exEnv 100 comm_err_t.COMM_ERROR)
        (startReady (exCfg 2) (exEnv 100 comm_err_t.COMM_ERROR)
          (setHost exJob (some "origin.example")) exConn) = some s2 ∧
      (isFailure (exEnv 100 comm_err_t.COMM_ERROR).connectResult = true →
        goodReports s2.trace = goodReports (startReady (exCfg 2)
          (exEnv 100 comm_err_t.COMM_ERROR) (setHost exJob (some "origin.example"))
          exConn).trace ∧
        badReports s2.trace = badReports (startReady (exCfg 2)
          (exEnv 100 comm_err_t.COMM_ERROR) (setHost exJob (some "origin.example"))
          exConn).trace
          + (if (startReady (exCfg 2) (exEnv 100 comm_err_t.COMM_ERROR)
              (setHost exJob (some "origin.example")) exConn).host_.isSome then 1 else 0)) :=
  have h := address_report_per_attempt (exCfg 2) (exEnv 100 comm_err_t.COMM_ERROR)
    (startReady (exCfg 2) (exEnv 100 comm_err_t.COMM_ERROR)
      (setHost exJob (some "origin.example")) exConn) exConn (by rfl)
  h.elim fun s2 h2 => ⟨s2, h2.1, h2.2.2.1⟩

/-! ## One in-progress wait, then success -/

/-- One successful attempt on a job that still has its connection and its
callback. -/
theorem ok_step (cfg : Config) (env : Env) (s : ConnOpener) (c : Connection) (cb : AsyncCall)
    (hc : s.conn_ = some c) (hcb : s.callback_ = some cb)
    (hok : env.connectResult = comm_err_t.COMM_OK) :
    ∃ s2, connect cfg env s = some s2 ∧
      s2.conn_ = none ∧ s2.callback_ = none ∧
      s2.totalTries_ = s.totalTries_ + 1 ∧ s2.failRetries_ = s.failRetries_ ∧
      attempts s2.trace = attempts s.trace + 1 ∧
      deliveries s2.trace = deliveries s.trace ++ [(cb, comm_err_t.COMM_OK, 0)] := by
  have hc0 : (connectAttempt s c).conn_ = some c := hc
  have hcb0 : (connectAttempt s c).callback_ = some cb := hcb
  obtain ⟨o1, _, _, o4⟩ := obs_connectAttempt s c
  obtain ⟨a1, a2, a3, _, _, a6⟩ := obs_connectOk env (connectAttempt s c) c hc0
  obtain ⟨q1, q2, _⟩ := quiet_connectOk env (connectAttempt s c) c hc0
  refine ⟨_, connect_ok cfg env s c hc hok, a1, a2, ?_, ?_, by rw [a3, o1], ?_⟩
  · rw [q1]
    rfl
  · rw [q2]
    rfl
  · rw [a6, o4, hcb0]
    rfl

/-- One attempt that is still in progress, made before the timeout has passed. -/
theorem wait_step (cfg : Config) (env : Env) (s : ConnOpener) (c : Connection)
    (hc : s.conn_ = some c) (hp : env.connectResult = comm_err_t.COMM_INPROGRESS)
    (hd : tookTooLong env s = false) :
    ∃ s2, connect cfg env s = some s2 ∧
      s2.conn_ = some c ∧ s2.callback_ = s.callback_ ∧
      s2.totalTries_ = s.totalTries_ + 1 ∧ s2.failRetries_ = s.failRetries_ ∧
      attempts s2.trace = attempts s.trace + 1 ∧
      deliveries s2.trace = deliveries s.trace ∧
      writeWatches s2.trace = writeWatches s.trace + 1 := by
  have hd0 : tookTooLong env (connectAttempt s c) = false := hd
  obtain ⟨o1, _, o3, o4⟩ := obs_connectAttempt s c
  obtain ⟨a1, a2, a3, _, a5, a6⟩ := obs_connectInProgress_wait env (connectAttempt s c) c hd0
  obtain ⟨q1, q2, _⟩ := quiet_connectInProgress env (connectAttempt s c) c
  refine ⟨_, connect_inprogress cfg env s c hc hp, ?_, ?_, ?_, ?_, by rw [a3, o1],
    by rw [a6, o4], by rw [a5, o3]⟩
  · rw [a1]
    exact hc
  · rw [a2]
    rfl
  · rw [q1]
    rfl
  · rw [q2]
    rfl

/-- C19: when the first attempt, made by start() on a job with a callback and a
timeout that is not negative, returns COMM_INPROGRESS, nothing is delivered and
the writability handler is registered once; when the next call of connect()
then returns COMM_OK, COMM_OK is delivered, as the only delivery, after exactly
two attempts (totalTries_ = 2) and with a failure count of 0. -/
theorem connected_after_one_wait (cfg : Config) (e0 e1 : Env) (c : Connection) (cb : AsyncCall)
    (ctimeout : Int) (host : Option String)
    (hsock : (startConn cfg e0 c).isOpen = true) (htime : 0 ≤ ctimeout)
    (h0 : e0.connectResult = comm_err_t.COMM_INPROGRESS)
    (h1 : e1.connectResult = comm_err_t.COMM_OK) :
    deliveries (run cfg (setHost (ConnOpener.new (some c) (some cb) ctimeout) host)
      [(Handler.start, e0)]).trace = [] ∧
    writeWatches (run cfg (setHost (ConnOpener.new (some c) (some cb) ctimeout) host)
      [(Handler.start, e0)]).trace = 1 ∧
    deliveries (run cfg (setHost (ConnOpener.new (some c) (some cb) ctimeout) host)
      [(Handler.start, e0), (Handler.connect, e1)]).trace = [(cb, comm_err_t.COMM_OK, 0)] ∧
    attempts (run cfg (setHost (ConnOpener.new (some c) (some cb) ctimeout) host)
      [(Handler.start, e0), (Handler.connect, e1)]).trace = 2 ∧
    (run cfg (setHost (ConnOpener.new (some c) (some cb) ctimeout) host)
      [(Handler.start, e0), (Handler.connect, e1)]).totalTries_ = 2 ∧
    (run cfg (setHost (ConnOpener.new (some c) (some cb) ctimeout) host)
      [(Handler.start, e0), (Handler.connect, e1)]).failRetries_ = 0 := by
  obtain ⟨_, f2, _, f4, f5, f6, f7, _⟩ :=
    startReady_fields cfg e0 (setHost (ConnOpener.new (some c) (some cb) ctimeout) host) c
  have hc1 := startReady_conn cfg e0
    (setHost (ConnOpener.new (some c) (some cb) ctimeout) host) c rfl
  obtain ⟨r1, r2, r3, _⟩ :=
    startReady_log cfg e0 (setHost (ConnOpener.new (some c) (some cb) ctimeout) host) c
  have hd : tookTooLong e0
      (startReady cfg e0 (setHost (ConnOpener.new (some c) (some cb) ctimeout) host) c)
      = false := by
    have e2 : (startReady cfg e0 (setHost (ConnOpener.new (some c) (some cb) ctimeout) host)
        c).connectTimeout_ = ctimeout := f6
    simp [tookTooLong, f7, e2, htime]
  obtain ⟨sa, ha, a1, a2, a3, a4, a5, a6, a7⟩ :=
    wait_step cfg e0 _ (startConn cfg e0 c) hc1 h0 hd
  obtain ⟨sb, hb, _, _, b3, b4, b5, b6⟩ :=
    ok_step cfg e1 sa (startConn cfg e0 c) cb a1 (a2.trans f2) h1
  have hstart : run cfg (setHost (ConnOpener.new (some c) (some cb) ctimeout) host)
      [(Handler.start, e0)] = sa := by
    show (start cfg e0 _).getD _ = _
    rw [start_ready cfg e0 _ c rfl hsock, ha]
    rfl
  have hrun2 : run cfg (setHost (ConnOpener.new (some c) (some cb) ctimeout) host)
      [(Handler.start, e0), (Handler.connect, e1)] = sb := by
    show (connect cfg e1 (run cfg (setHost (ConnOpener.new (some c) (some cb) ctimeout) host)
      [(Handler.start, e0)])).getD _ = _
    rw [hstart, hb]
    rfl
  have hdel : deliveries sa.trace = [] := by
    rw [a6, r2]
    rfl
  rw [hstart, hrun2]
  refine ⟨hdel, ?_, ?_, ?_, ?_, ?_⟩
  · rw [a7, r3]
    rfl
  · rw [b6, hdel]
    rfl
  · rw [b5, a5, r1]
    rfl
  · rw [b3, a3, f4]
    rfl
  · rw [b4, a4, f5]
    rfl

/-- C19, witnessed on the sample job: in progress at time 100, connected at
time 101. -/
theorem connected_after_one_wait_witness :
    deliveries (run (exCfg 2) (setHost (ConnOpener.new (some exConn) (some 7) 30) none)
      [(Handler.start, exEnv 100 comm_err_t.COMM_INPROGRESS)]).trace = [] ∧
    (run (exCfg 2) (setHost (ConnOpener.new (some exConn) (some 7) 30) none)
      [(Handler.start, exEnv 100 comm_err_t.COMM_INPROGRESS),
       (Handler.connect, exEnv 101 comm_err_t.COMM_OK)]).totalTries_ = 2 :=
  have h := connected_after_one_wait (exCfg 2) (exEnv 100 comm_err_t.COMM_INPROGRESS)
    (exEnv 101 comm_err_t.COMM_OK) exConn 7 30 none (by decide) (by decide) (by decide)
    (by decide)
  ⟨h.1, h.2.2.2.2.1⟩

/-! ## The local address -/

/-- C20: when the attempt succeeds and getsockname fails, the job still
delivers COMM_OK, and the connection it hands over is the one it held before the
lookup, local address included; the lookup leaves conn_ as it was. -/
theorem getsockname_failure_is_not_fatal (cfg : Config) (env : Env) (s : ConnOpener)
    (c : Connection) (cb : AsyncCall) (hc : s.conn_ = some c) (hcb : s.callback_ = some cb)
    (hok : env.connectResult = comm_err_t.COMM_OK) (hsock : env.sockname = none) :
    (lookupLocalAddress env s c).conn_ = some c ∧
    ∃ s2, connect cfg env s = some s2 ∧
      deliveries s2.trace = deliveries s.trace ++ [(cb, comm_err_t.COMM_OK, 0)] ∧
      outcomes s2.trace = outcomes s.trace ++ [(comm_err_t.COMM_OK, some c)] := by
  constructor
  · rw [lookupLocalAddress_eq env s c hc, hsock]
    rfl
  · have hc0 : (connectAttempt s c).conn_ = some c := hc
    have hcb0 : (connectAttempt s c).callback_ = some cb := hcb
    refine ⟨_, connect_ok cfg env s c hc hok, ?_, ?_⟩
    · rw [(obs_connectOk env _ c hc0).2.2.2.2.2, (obs_connectAttempt s c).2.2.2, hcb0]
      rfl
    · rw [(log_connectOk env _ c hc0).2.1, (log_connectAttempt s c).2.1, hcb0, hsock]
      rfl

/-- C20, witnessed on the sample job, whose surroundings give no socket name. -/
theorem getsockname_failure_is_not_fatal_witness :
    (lookupLocalAddress (exEnv 100 comm_err_t.COMM_OK)
      (startReady (exCfg 2) (exEnv 100 comm_err_t.COMM_OK) exJob exConn) exConn).conn_
      = some exConn :=
  (getsockname_failure_is_not_fatal (exCfg 2) (exEnv 100 comm_err_t.COMM_OK)
    (startReady (exCfg 2) (exEnv 100 comm_err_t.COMM_OK) exJob exConn) exConn 7
    (by decide) (by decide) (by decide) (by decide)).1

/-! ## The connection handed over -/

theorem isFailure_of_ne (r : comm_err_t) (h1 : r ≠ comm_err_t.COMM_OK)
    (h2 : r ≠ comm_err_t.COMM_INPROGRESS) : isFailure r = true := by
  cases r <;> simp_all [isFailure]

theorem log_doneConnecting (s : ConnOpener) (st : comm_err_t) (x : Int) :
    outcomes (doneConnecting s st x).trace = outcomes s.trace ++ outcome s.callback_ st s.conn_ ∧
    closes (doneConnecting s st x).trace = closes s.trace ∧
    peerIncrements (doneConnecting s st x).trace = peerIncrements s.trace ∧
    cancels (doneConnecting s st x).trace = cancels s.trace ∧
    (doneConnecting s st x).earlyAbort_ = s.earlyAbort_ ∧
    (doneConnecting s st x).timeout_ = s.timeout_ := by
  rw [doneConnecting_eq]
  obtain ⟨host, conn, cb, tt, fr, cto, cst, ea, tmo, tr⟩ := s
  cases cb
  all_goals
    simp [*, outcome, closes, outcomes, peerIncrements, cancels, unwatches, rollbackCalls,
      List.countP_append, List.countP_cons, List.filterMap_append, List.filterMap_cons,
      Effect.isClose, Effect.isPeerIncr, Effect.isCancel, Effect.isUnwatch]

theorem log_swanSong (s : ConnOpener) :
    outcomes (swanSong s).trace
      = outcomes s.trace ++ outcome s.callback_ comm_err_t.COMM_ERR_CONNECT
          (s.conn_.map Connection.close) ∧
    closes (swanSong s).trace = closes s.trace + (if isOpenConn s.conn_ then 1 else 0) ∧
    peerIncrements (swanSong s).trace = peerIncrements s.trace ∧
    cancels (swanSong s).trace
      = cancels s.trace + (if s.earlyAbort_ then 1 else 0) + (if s.timeout_ then 1 else 0) ∧
    (swanSong s).earlyAbort_ = false ∧
    (swanSong s).timeout_ = false := by
  rw [swanSong_eq]
  obtain ⟨host, conn, cb, tt, fr, cto, cst, ea, tmo, tr⟩ := s
  cases cb <;> cases ea <;> cases tmo <;> rcases conn with _ | c <;> try cases ho : c.isOpen
  all_goals
    simp [*, isOpenConn, outcome, closes, outcomes, peerIncrements, cancels, rollbackCalls,
      List.countP_append, List.countP_cons, List.filterMap_append, List.filterMap_cons,
      Effect.isClose, Effect.isPeerIncr, Effect.isCancel]

theorem isOpenConn_close (conn : Option Connection) :
    isOpenConn (conn.map Connection.close) = false := by
  rcases conn with _ | c
  · rfl
  · simp [isOpenConn, isOpen_close]

/-- C13, as the code has it: for every outcome delivered by connect() on an
open connection, and for the one delivered by swanSong, the connection passed to
the callback is open if and only if the outcome is COMM_OK: connect() closes
the socket once before each delivery that is not COMM_OK and does not close it
on success, and swanSong hands over the connection closed.  earlyAbort is not
like that: it delivers COMM_ERR_CLOSING with the connection as the job holds it
and closes nothing. -/
theorem handed_over_open_iff_ok (cfg : Config) (env : Env) (s : ConnOpener) (cb : AsyncCall)
    (x : Int) (hcb : s.callback_ = some cb) :
    (∀ c, s.conn_ = some c → c.isOpen = true →
      ∃ s2 new, connect cfg env s = some s2 ∧
        outcomes s2.trace = outcomes s.trace ++ new ∧
        (∀ p ∈ new, isOpenConn p.2 = true ↔ p.1 = comm_err_t.COMM_OK) ∧
        closes s2.trace
          = closes s.trace + new.countP (fun p => p.1 != comm_err_t.COMM_OK)) ∧
    (outcomes (swanSong s).trace
        = outcomes s.trace ++ [(comm_err_t.COMM_ERR_CONNECT, s.conn_.map Connection.close)] ∧
      isOpenConn (s.conn_.map Connection.close) = false) ∧
    (outcomes (earlyAbort s x).trace
        = outcomes s.trace ++ [(comm_err_t.COMM_ERR_CLOSING, s.conn_)] ∧
      closes (earlyAbort s x).trace = closes s.trace) := by
  refine ⟨?_, ⟨?_, isOpenConn_close _⟩, ⟨?_, ?_⟩⟩
  · intro c hc ho
    have hc0 : (connectAttempt s c).conn_ = some c := hc
    have hcb0 : (connectAttempt s c).callback_ = some cb := hcb
    obtain ⟨l1, l2, _⟩ := log_connectAttempt s c
    have hclosed : isOpenConn (some c.close) = false := isOpenConn_close (some c)
    by_cases hok : env.connectResult = comm_err_t.COMM_OK
    · obtain ⟨b1, b2, _⟩ := log_connectOk env (connectAttempt s c) c hc0
      refine ⟨_, [(comm_err_t.COMM_OK, some { c with
        localAddr := env.sockname.getD c.localAddr })], connect_ok cfg env s c hc hok,
        by rw [b2, l2, hcb0]; rfl, ?_, by rw [b1, l1]; rfl⟩
      intro p hp
      simp only [List.mem_singleton] at hp
      subst hp
      simpa [isOpenConn, Connection.isOpen] using ho
    · have hgive : ∀ s2 : ConnOpener, ∀ st : comm_err_t, st ≠ comm_err_t.COMM_OK →
          outcomes s2.trace
            = outcomes (connectAttempt s c).trace ++
              outcome (connectAttempt s c).callback_ st (some c.close) →
          closes s2.trace = closes (connectAttempt s c).trace + (if c.isOpen then 1 else 0) →
          outcomes s2.trace = outcomes s.trace ++ [(st, some c.close)] ∧
          (∀ p ∈ [(st, some c.close)], isOpenConn p.2 = true ↔ p.1 = comm_err_t.COMM_OK) ∧
          closes s2.trace = closes s.trace
            + [(st, some c.close)].countP (fun p => p.1 != comm_err_t.COMM_OK) := by
        intro s2 st hst h1 h2
        refine ⟨by rw [h1, l2, hcb0]; rfl, ?_, ?_⟩
        · intro p hp
          simp only [List.mem_singleton] at hp
          subst hp
          simp [hclosed, hst]
        · rw [h2, l1, ho]
          simp [List.countP_cons, hst]
      have hsame : ∀ s2 : ConnOpener,
          outcomes s2.trace = outcomes (connectAttempt s c).trace →
          closes s2.trace = closes (connectAttempt s c).trace →
          outcomes s2.trace = outcomes s.trace ++ [] ∧
          (∀ p ∈ ([] : List (comm_err_t × Option Connection)),
            isOpenConn p.2 = true ↔ p.1 = comm_err_t.COMM_OK) ∧
          closes s2.trace = closes s.trace
            + ([] : List (comm_err_t × Option Connection)).countP
                (fun p => p.1 != comm_err_t.COMM_OK) := by
        intro s2 h1 h2
        refine ⟨?_, ?_, ?_⟩
        · rw [h1, l2]
          simp
        · intro p hp
          cases hp
        · rw [h2, l1]
          rfl
      by_cases hp : env.connectResult = comm_err_t.COMM_INPROGRESS
      · cases hd : tookTooLong env (connectAttempt s c)
        · obtain ⟨b1, b2, _⟩ := log_connectInProgress_wait env (connectAttempt s c) c hd
          exact ⟨_, [], connect_inprogress cfg env s c hc hp, hsame _ b2 b1⟩
        · obtain ⟨b1, b2, _⟩ := log_connectInProgress_late env (connectAttempt s c) c hc0 hd
          exact ⟨_, _, connect_inprogress cfg env s c hc hp,
            hgive _ comm_err_t.COMM_TIMEOUT (by decide) b2 b1⟩
      · have hf : isFailure env.connectResult = true := isFailure_of_ne _ hok hp
        by_cases hg : tookTooLong env (connectAttempt s c) = true ∨
            ¬ (((connectAttempt s c).failRetries_ : Int) + 1 < cfg.connect_retries)
        · obtain ⟨b1, b2, _⟩ := log_connectDefault_giveUp cfg env (connectAttempt s c) c hc0 hg
          refine ⟨_, _, connect_failure cfg env s c hc hf,
            hgive _ (if tookTooLong env (connectAttempt s c) then comm_err_t.COMM_TIMEOUT
              else comm_err_t.COMM_ERR_CONNECT) ?_ b2 b1⟩
          cases tookTooLong env (connectAttempt s c) <;> decide
        · have h1 : tookTooLong env (connectAttempt s c) = false := by
            cases ht : tookTooLong env (connectAttempt s c)
            · rfl
            · exact absurd (Or.inl ht) hg
          have h2 : ((connectAttempt s c).failRetries_ : Int) + 1 < cfg.connect_retries := by
            by_contra hn
            exact hg (Or.inr hn)
          obtain ⟨b1, b2, _⟩ := log_connectDefault_retry cfg env (connectAttempt s c) c h1 h2
          exact ⟨_, [], connect_failure cfg env s c hc hf, hsame _ b2 b1⟩
  · rw [(log_swanSong s).1, hcb]
    rfl
  · unfold earlyAbort
    rw [(log_doneConnecting s _ x).1, hcb]
    rfl
  · unfold earlyAbort
    exact (log_doneConnecting s _ x).2.1

/-- C13, witnessed on the sample job waiting for its socket to become writable. -/
theorem handed_over_open_iff_ok_witness :
    outcomes (swanSong (run (exCfg 2) exJob
        [(Handler.start, exEnv 100 comm_err_t.COMM_INPROGRESS)])).trace
      = outcomes (run (exCfg 2) exJob
          [(Handler.start, exEnv 100 comm_err_t.COMM_INPROGRESS)]).trace
        ++ [(comm_err_t.COMM_ERR_CONNECT,
            (run (exCfg 2) exJob
              [(Handler.start, exEnv 100 comm_err_t.COMM_INPROGRESS)]).conn_.map
              Connection.close)] :=
  (handed_over_open_iff_ok (exCfg 2) (exEnv 110 comm_err_t.COMM_INPROGRESS)
    (run (exCfg 2) exJob [(Handler.start, exEnv 100 comm_err_t.COMM_INPROGRESS)]) 7 32
    (by decide)).2.1.1

/-- C13, the claim as stated fails: on the sample job waiting for its socket,
earlyAbort delivers COMM_ERR_CLOSING, which is not COMM_OK, together with the
connection still open on descriptor 5; the job has closed nothing. -/
theorem early_abort_hands_over_open_counterexample :
    outcomes (run (exCfg 2) exJob [(Handler.start, exEnv 100 comm_err_t.COMM_INPROGRESS),
      (Handler.earlyAbort 32, exEnv 110 comm_err_t.COMM_INPROGRESS)]).trace
      = [(comm_err_t.COMM_ERR_CLOSING, some exConn)] ∧
    isOpenConn (some exConn) = true ∧
    closes (run (exCfg 2) exJob [(Handler.start, exEnv 100 comm_err_t.COMM_INPROGRESS),
      (Handler.earlyAbort 32, exEnv 110 comm_err_t.COMM_INPROGRESS)]).trace = 0 := by
  decide

/-! ## The peer counter -/

theorem okDeliveries_of (t t2 : List Effect) (new : List (comm_err_t × Option Connection))
    (h : outcomes t2 = outcomes t ++ new) :
    okDeliveries t2 = okDeliveries t + new.countP (fun p => p.1 == comm_err_t.COMM_OK) := by
  unfold okDeliveries
  rw [h, List.countP_append]

theorem okDeliveries_same (t t2 : List Effect) (h : outcomes t2 = outcomes t) :
    okDeliveries t2 = okDeliveries t := by
  unfold okDeliveries
  rw [h]

theorem okCount_outcome (cb : Option AsyncCall) (st : comm_err_t) (conn : Option Connection)
    (hst : st ≠ comm_err_t.COMM_OK) :
    (outcome cb st conn).countP (fun p => p.1 == comm_err_t.COMM_OK) = 0 := by
  cases cb <;> simp [outcome, List.countP_cons, hst]

theorem peerInv_keep (s s2 : ConnOpener)
    (hp : peerIncrements s2.trace = peerIncrements s.trace)
    (ho : okDeliveries s2.trace = okDeliveries s.trace)
    (hj : ∀ c2, s2.conn_ = some c2 →
      s2.callback_ = s.callback_ ∧ ∃ c, s.conn_ = some c ∧ c2.peer = c.peer)
    (h : PeerInv s) : PeerInv s2 := by
  obtain ⟨j, e, z⟩ := h
  refine ⟨?_, by rw [hp, ho, e], ?_⟩
  · intro c2 hc2
    obtain ⟨k1, c, k2, k3⟩ := hj c2 hc2
    obtain ⟨j1, j2⟩ := j c k2
    exact ⟨by rw [k3]; exact j1, by rw [k1]; exact j2⟩
  · rcases z with z | ⟨z1, z2⟩
    · exact Or.inl (by rw [hp]; exact z)
    · refine Or.inr ⟨by rw [hp]; exact z1, ?_⟩
      cases hc2 : s2.conn_ with
      | none => rfl
      | some c2 =>
        obtain ⟨_, c, k2, _⟩ := hj c2 hc2
        rw [z2] at k2
        cases k2

theorem peerInv_doneConnecting (s : ConnOpener) (st : comm_err_t) (x : Int)
    (hst : st ≠ comm_err_t.COMM_OK) (h : PeerInv s) : PeerInv (doneConnecting s st x) := by
  obtain ⟨l1, _, l3, _⟩ := log_doneConnecting s st x
  refine peerInv_keep s _ l3 ?_ ?_ h
  · rw [okDeliveries_of _ _ _ l1, okCount_outcome _ _ _ hst]
    rfl
  · intro c2 hc2
    rw [doneConnecting_eq] at hc2
    cases hc2

theorem peerInv_swanSong (s : ConnOpener) (h : PeerInv s) : PeerInv (swanSong s) := by
  obtain ⟨l1, _, l3, _⟩ := log_swanSong s
  refine peerInv_keep s _ l3 ?_ ?_ h
  · rw [okDeliveries_of _ _ _ l1, okCount_outcome _ _ _ (by decide)]
    rfl
  · intro c2 hc2
    rw [swanSong_eq] at hc2 ⊢
    simp only at hc2 ⊢
    cases hcb : s.callback_ with
    | some cb => simp [hcb] at hc2
    | none =>
      simp only [hcb, Option.isSome_none, Bool.false_eq_true, if_false] at hc2
      cases hc : s.conn_ with
      | none => simp [hc] at hc2
      | some c =>
        simp only [hc, Option.map_some', Option.some.injEq] at hc2
        refine ⟨rfl, c, rfl, ?_⟩
        rw [← hc2]
        unfold Connection.close
        split <;> rfl

theorem peerInv_connect (cfg : Config) (env : Env) (s s2 : ConnOpener)
    (hs : connect cfg env s = some s2) (h : PeerInv s) : PeerInv s2 := by
  cases hcn : s.conn_ with
  | none => simp [connect, hcn] at hs
  | some c =>
    have hc0 : (connectAttempt s c).conn_ = some c := hcn
    obtain ⟨_, l2, l3, _⟩ := log_connectAttempt s c
    obtain ⟨j, e, z⟩ := h
    obtain ⟨jp, jc⟩ := j c hcn
    have hz : peerIncrements s.trace = 0 := by
      rcases z with z | ⟨_, z2⟩
      · exact z
      · rw [z2] at hcn
        cases hcn
    have hkeep : ∀ t : ConnOpener, t.conn_ = (connectAttempt s c).conn_ →
        t.callback_ = (connectAttempt s c).callback_ →
        peerIncrements t.trace = peerIncrements (connectAttempt s c).trace →
        outcomes t.trace = outcomes (connectAttempt s c).trace → PeerInv t := by
      intro t t1 t2 t3 t4
      refine peerInv_keep s t (t3.trans l3) (okDeliveries_same _ _ (t4.trans l2)) ?_ ⟨j, e, z⟩
      intro c2 hc2
      rw [t1, hc0] at hc2
      cases hc2
      exact ⟨t2, c, hcn, rfl⟩
    have hdone : ∀ t : ConnOpener, ∀ st : comm_err_t, ∀ conn : Option Connection,
        st ≠ comm_err_t.COMM_OK → t.conn_ = none →
        peerIncrements t.trace = peerIncrements (connectAttempt s c).trace →
        outcomes t.trace = outcomes (connectAttempt s c).trace ++
          outcome (connectAttempt s c).callback_ st conn → PeerInv t := by
      intro t st conn hst t1 t3 t4
      refine peerInv_keep s t (t3.trans l3) ?_ ?_ ⟨j, e, z⟩
      · rw [okDeliveries_of _ _ _ t4, okCount_outcome _ _ _ hst, okDeliveries_same _ _ l2]
        rfl
      · intro c2 hc2
        rw [t1] at hc2
        cases hc2
    by_cases hok : env.connectResult = comm_err_t.COMM_OK
    · rw [connect_ok cfg env s c hcn hok] at hs
      simp only [Option.some.injEq] at hs
      subst hs
      obtain ⟨a1, _⟩ := obs_connectOk env (connectAttempt s c) c hc0
      obtain ⟨_, b2, b3, _⟩ := log_connectOk env (connectAttempt s c) c hc0
      have hcb : (connectAttempt s c).callback_.isSome = true := jc
      have hp1 : peerIncrements (connectOk env (connectAttempt s c) c).trace = 1 := by
        rw [b3, l3, hz, jp]
        rfl
      have ho1 : okDeliveries (connectOk env (connectAttempt s c) c).trace
          = okDeliveries s.trace + 1 := by
        rw [okDeliveries_of _ _ _ b2, okDeliveries_same _ _ l2]
        obtain ⟨cb, hcb2⟩ := Option.isSome_iff_exists.mp hcb
        rw [hcb2]
        simp [outcome, List.countP_cons]
      refine ⟨?_, ?_, Or.inr ⟨hp1, a1⟩⟩
      · intro c2 hc2
        rw [a1] at hc2
        cases hc2
      · rw [hp1, ho1, ← e, hz]
    · by_cases hp : env.connectResult = comm_err_t.COMM_INPROGRESS
      · rw [connect_inprogress cfg env s c hcn hp] at hs
        simp only [Option.some.injEq] at hs
        subst hs
        cases hd : tookTooLong env (connectAttempt s c)
        · obtain ⟨a1, a2, _⟩ := obs_connectInProgress_wait env (connectAttempt s c) c hd
          obtain ⟨_, b2, b3, _⟩ := log_connectInProgress_wait env (connectAttempt s c) c hd
          exact hkeep _ a1 a2 b3 b2
        · obtain ⟨a1, _⟩ := obs_connectInProgress_late env (connectAttempt s c) c hd
          obtain ⟨_, b2, b3, _⟩ := log_connectInProgress_late env (connectAttempt s c) c hc0 hd
          exact hdone _ _ _ (by decide) a1 b3 b2
      · rw [connect_failure cfg env s c hcn (isFailure_of_ne _ hok hp)] at hs
        simp only [Option.some.injEq] at hs
        subst hs
        by_cases hg : tookTooLong env (connectAttempt s c) = true ∨
            ¬ (((connectAttempt s c).failRetries_ : Int) + 1 < cfg.connect_retries)
        · obtain ⟨a1, _⟩ := obs_connectDefault_giveUp cfg env (connectAttempt s c) c hg
          obtain ⟨_, b2, b3, _⟩ :=
            log_connectDefault_giveUp cfg env (connectAttempt s c) c hc0 hg
          refine hdone _ _ _ ?_ a1 b3 b2
          cases tookTooLong env (connectAttempt s c) <;> decide
        · have h1 : tookTooLong env (connectAttempt s c) = false := by
            cases ht : tookTooLong env (connectAttempt s c)
            · rfl
            · exact absurd (Or.inl ht) hg
          have h2 : ((connectAttempt s c).failRetries_ : Int) + 1 < cfg.connect_retries := by
            by_contra hn
            exact hg (Or.inr hn)
          obtain ⟨a1, a2, _⟩ := obs_connectDefault_retry cfg env (connectAttempt s c) c h1 h2
          obtain ⟨_, b2, b3, _⟩ := log_connectDefault_retry cfg env (connectAttempt s c) c h1 h2
          exact hkeep _ a1 a2 b3 b2

theorem openSocket_peer (cfg : Config) (env : Env) (c : Connection) :
    (openSocket cfg env c).peer = c.peer := by
  unfold openSocket
  cases (cfg.USE_IPV6 && c.remote.IsIPv4) <;> simp

theorem peerInv_start (cfg : Config) (env : Env) (s s2 : ConnOpener)
    (hs : start cfg env s = some s2) (h : PeerInv s) : PeerInv s2 := by
  cases hcn : s.conn_ with
  | none => simp [start, hcn] at hs
  | some c =>
    cases ho : (startConn cfg env c).isOpen
    · rw [start_no_socket cfg env s c hcn ho] at hs
      simp only [Option.some.injEq] at hs
      subst hs
      apply peerInv_doneConnecting _ _ _ (by decide)
      refine peerInv_keep s _ ?_ (okDeliveries_same _ _ ?_) ?_ h
      · simp [emit, peerIncrements, List.countP_append, List.countP_cons, Effect.isPeerIncr]
      · simp [emit, outcomes, List.filterMap_append, List.filterMap_cons]
      · intro c2 hc2
        simp only [Option.some.injEq] at hc2
        exact ⟨rfl, c, hcn, by rw [← hc2, openSocket_peer]⟩
    · rw [start_ready cfg env s c hcn ho] at hs
      apply peerInv_connect cfg env _ s2 hs
      obtain ⟨_, f2, _⟩ := startReady_fields cfg env s c
      obtain ⟨_, _, _, _, _, r6, r7, _⟩ := startReady_log cfg env s c
      refine peerInv_keep s _ r7 (okDeliveries_same _ _ r6) ?_ h
      intro c2 hc2
      rw [startReady_conn cfg env s c hcn] at hc2
      simp only [Option.some.injEq] at hc2
      exact ⟨f2, c, hcn, by rw [← hc2, startConn_peer]⟩

theorem peerInv_step (cfg : Config) (s : ConnOpener) (ev : Handler × Env) (h : PeerInv s) :
    PeerInv (step cfg s ev) := by
  unfold step
  split
  · cases hs : start cfg ev.2 s with
    | none => exact h
    | some s2 => exact peerInv_start cfg ev.2 s s2 hs h
  · cases hs : connect cfg ev.2 s with
    | none => exact h
    | some s2 => exact peerInv_connect cfg ev.2 s s2 hs h
  · exact peerInv_doneConnecting _ _ _ (by decide) h
  · cases hs : timeout cfg ev.2 s with
    | none => exact h
    | some s2 => exact peerInv_connect cfg ev.2 s s2 hs h
  · exact peerInv_swanSong s h

theorem peerInv_run (cfg : Config) (evs : List (Handler × Env)) (s : ConnOpener)
    (h : PeerInv s) : PeerInv (run cfg s evs) := by
  induction evs generalizing s with
  | nil => exact h
  | cons ev evs ih => exact ih (step cfg s ev) (peerInv_step cfg s ev h)

/-- C16: over any sequence of handler invocations on a job constructed with a
callback and a connection that has a peer, the peer counter is incremented at
most once, and as often as COMM_OK has been delivered: once when the job has
delivered COMM_OK, never when it has not, so that no failing, timed-out or
aborted path touches it. -/
theorem peer_counter_once (cfg : Config) (c : Connection) (cb : AsyncCall) (ctimeout : Int)
    (host : Option String) (evs : List (Handler × Env)) (hp : c.peer.isSome = true) :
    peerIncrements (run cfg (setHost (ConnOpener.new (some c) (some cb) ctimeout) host)
      evs).trace ≤ 1 ∧
    peerIncrements (run cfg (setHost (ConnOpener.new (some c) (some cb) ctimeout) host)
      evs).trace
      = okDeliveries (run cfg (setHost (ConnOpener.new (some c) (some cb) ctimeout) host)
          evs).trace := by
  have h0 : PeerInv (setHost (ConnOpener.new (some c) (some cb) ctimeout) host) := by
    refine ⟨?_, rfl, Or.inl rfl⟩
    intro c2 hc2
    simp only [setHost, ConnOpener.new, Option.some.injEq] at hc2
    subst hc2
    exact ⟨hp, rfl⟩
  obtain ⟨_, e, z⟩ := peerInv_run cfg evs _ h0
  refine ⟨?_, e⟩
  rcases z with z | ⟨z, _⟩ <;> omega

/-- C16, witnessed on a sample job to a peer: in progress, then connected, then
torn down. -/
theorem peer_counter_once_witness :
    exPeerConn.peer.isSome = true ∧
    peerIncrements (run (exCfg 2) (setHost (ConnOpener.new (some exPeerConn) (some 7) 30) none)
      [(Handler.start, exEnv 100 comm_err_t.COMM_INPROGRESS),
       (Handler.connect, exEnv 101 comm_err_t.COMM_OK),
       (Handler.swanSong, exEnv 101 comm_err_t.COMM_OK)]).trace ≤ 1 :=
  ⟨by decide, (peer_counter_once (exCfg 2) exPeerConn 7 30 none _ (by decide)).1⟩

/-! ## The watches after an outcome -/

theorem unwatches_connectInProgress (env : Env) (s : ConnOpener) (c : Connection) :
    unwatches (connectInProgress env s c).trace = unwatches s.trace := by
  cases hd : tookTooLong env s
  · unfold connectInProgress
    rw [hd]
    simp [emit, unwatches, List.countP_append, List.countP_cons, Effect.isUnwatch]
  · unfold connectInProgress
    rw [hd]
    simp only [if_true, doneConnecting_eq, connClose_eq]
    obtain ⟨host, conn, cb, tt, fr, cto, cst, ea, tmo, tr⟩ := s
    cases cb <;> rcases conn with _ | c2 <;> try cases ho : c2.isOpen
    all_goals
      simp [*, connectAttempt, emit, unwatches, List.countP_append, List.countP_cons,
        Effect.isUnwatch, Connection.closeCalls]

theorem unwatches_connectOk (env : Env) (s : ConnOpener) (c : Connection)
    (hc : s.conn_ = some c) :
    unwatches (connectOk env s c).trace = unwatches s.trace := by
  unfold connectOk
  rw [connected_eq env s c hc]
  simp only [doneConnecting_eq, markGoodAddr_eq]
  obtain ⟨host, conn, cb, tt, fr, cto, cst, ea, tmo, tr⟩ := s
  cases cb <;> cases host <;> cases hp : c.peer
  all_goals
    simp [*, connectAttempt, emit, unwatches, List.countP_append, List.countP_cons,
      Effect.isUnwatch, Connection.closeCalls]

theorem unwatches_connectDefault (cfg : Config) (env : Env) (s : ConnOpener) (c : Connection) :
    unwatches (connectDefault cfg env s c).trace = unwatches s.trace := by
  by_cases hg : tookTooLong env s = true ∨ ¬ ((s.failRetries_ : Int) + 1 < cfg.connect_retries)
  · rw [connectDefault_giveUp cfg env s c hg]
    generalize tookTooLong env s = late
    obtain ⟨host, conn, cb, tt, fr, cto, cst, ea, tmo, tr⟩ := s
    cases cb <;> cases host <;> cases ea <;>
      cases hI : (cfg.USE_ICMP && cfg.test_reachability) <;>
      rcases conn with _ | c2 <;> try cases ho : c2.isOpen
    all_goals
      simp [*, connectAttempt, emit, unwatches, List.countP_append, List.countP_cons,
      Effect.isUnwatch, Connection.closeCalls]
  · have h1 : tookTooLong env s = false := by
      cases ht : tookTooLong env s
      · rfl
      · exact absurd (Or.inl ht) hg
    have h2 : (s.failRetries_ : Int) + 1 < cfg.connect_retries := by
      by_contra hn
      exact hg (Or.inr hn)
    rw [connectDefault_retry cfg env s c h1 h2]
    obtain ⟨host, conn, cb, tt, fr, cto, cst, ea, tmo, tr⟩ := s
    cases host <;> cases hI : (cfg.USE_ICMP && cfg.test_reachability)
    all_goals
      simp [*, connectAttempt, emit, unwatches, List.countP_append, List.countP_cons,
      Effect.isUnwatch, Connection.closeCalls]

theorem timeout_connectDefault (cfg : Config) (env : Env) (s : ConnOpener) (c : Connection) :
    (connectDefault cfg env s c).timeout_ = s.timeout_ := by
  by_cases hg : tookTooLong env s = true ∨ ¬ ((s.failRetries_ : Int) + 1 < cfg.connect_retries)
  · rw [connectDefault_giveUp cfg env s c hg]
  · have h1 : tookTooLong env s = false := by
      cases ht : tookTooLong env s
      · rfl
      · exact absurd (Or.inl ht) hg
    have h2 : (s.failRetries_ : Int) + 1 < cfg.connect_retries := by
      by_contra hn
      exact hg (Or.inr hn)
    rw [connectDefault_retry cfg env s c h1 h2]

theorem timeout_connectInProgress (env : Env) (s : ConnOpener) (c : Connection) :
    (connectInProgress env s c).timeout_ = s.timeout_ := by
  unfold connectInProgress
  split
  · rw [doneConnecting_eq, connClose_eq]
  · rfl

/-- C12, as the code has it: delivering an outcome does not by itself clear the
watches.  connect() never writes calls_.timeout_ and never removes a handler
from the descriptor; on success it leaves calls_.earlyAbort_ as it is, cancels
nothing and closes nothing; only when it gives up on an immediate failure
(timeout or retries exhausted) does it cancel and clear calls_.earlyAbort_.  The
job calls that are left are cancelled and cleared by swanSong: after it both
calls_.earlyAbort_ and calls_.timeout_ are NULL, each cancelled if it was still
set. -/
theorem watches_cleared_by_swanSong (cfg : Config) (env : Env) (s : ConnOpener)
    (c : Connection) (hc : s.conn_ = some c) :
    ∃ s2, connect cfg env s = some s2 ∧
      s2.timeout_ = s.timeout_ ∧ unwatches s2.trace = unwatches s.trace ∧
      (env.connectResult = comm_err_t.COMM_OK →
        s2.earlyAbort_ = s.earlyAbort_ ∧ cancels s2.trace = cancels s.trace ∧
        closes s2.trace = closes s.trace) ∧
      (isFailure env.connectResult = true → s2.conn_ = none →
        s2.earlyAbort_ = false ∧
        cancels s2.trace = cancels s.trace + (if s.earlyAbort_ then 1 else 0)) ∧
      (swanSong s2).earlyAbort_ = false ∧ (swanSong s2).timeout_ = false ∧
      cancels (swanSong s2).trace
        = cancels s2.trace + (if s2.earlyAbort_ then 1 else 0)
          + (if s2.timeout_ then 1 else 0) := by
  have hc0 : (connectAttempt s c).conn_ = some c := hc
  have hu0 : unwatches (connectAttempt s c).trace = unwatches s.trace := by
    simp [connectAttempt, emit, unwatches, List.countP_append, List.countP_cons,
      Effect.isUnwatch]
  obtain ⟨l1, _, _, _, _, l6⟩ := log_connectAttempt s c
  have hsw : ∀ t : ConnOpener, (swanSong t).earlyAbort_ = false ∧
      (swanSong t).timeout_ = false ∧
      cancels (swanSong t).trace
        = cancels t.trace + (if t.earlyAbort_ then 1 else 0)
          + (if t.timeout_ then 1 else 0) := by
    intro t
    obtain ⟨_, _, _, w4, w5, w6⟩ := log_swanSong t
    exact ⟨w5, w6, w4⟩
  by_cases hok : env.connectResult = comm_err_t.COMM_OK
  · obtain ⟨b1, _, _, _, _, b6, b7, b8⟩ := log_connectOk env (connectAttempt s c) c hc0
    refine ⟨_, connect_ok cfg env s c hc hok, b8, ?_, ?_, ?_, hsw _⟩
    · rw [unwatches_connectOk env _ c hc0, hu0]
    · intro _
      exact ⟨b7, by rw [b6, l6], by rw [b1, l1]⟩
    · intro h
      rw [hok] at h
      simp [isFailure] at h
  · by_cases hp : env.connectResult = comm_err_t.COMM_INPROGRESS
    · refine ⟨_, connect_inprogress cfg env s c hc hp, timeout_connectInProgress env _ c, ?_,
        fun h => absurd h hok, ?_, hsw _⟩
      · rw [unwatches_connectInProgress, hu0]
      · intro h
        rw [hp] at h
        simp [isFailure] at h
    · refine ⟨_, connect_failure cfg env s c hc (isFailure_of_ne _ hok hp),
        timeout_connectDefault cfg env _ c, ?_, fun h => absurd h hok, ?_, hsw _⟩
      · rw [unwatches_connectDefault, hu0]
      · intro _ hnone
        by_cases hg : tookTooLong env (connectAttempt s c) = true ∨
            ¬ (((connectAttempt s c).failRetries_ : Int) + 1 < cfg.connect_retries)
        · obtain ⟨_, _, _, _, _, b6, b7, _⟩ :=
            log_connectDefault_giveUp cfg env (connectAttempt s c) c hc0 hg
          exact ⟨b7, by rw [b6, l6]; rfl⟩
        · have h1 : tookTooLong env (connectAttempt s c) = false := by
            cases ht : tookTooLong env (connectAttempt s c)
            · rfl
            · exact absurd (Or.inl ht) hg
          have h2 : ((connectAttempt s c).failRetries_ : Int) + 1 < cfg.connect_retries := by
            by_contra hn
            exact hg (Or.inr hn)
          obtain ⟨a1, _⟩ := obs_connectDefault_retry cfg env (connectAttempt s c) c h1 h2
          rw [a1, hc0] at hnone
          cases hnone

/-- C12, witnessed on the sample job as start() hands it to connect(). -/
theorem watches_cleared_by_swanSong_witness :
    ∃ s2, connect (exCfg 2) (exEnv 100 comm_err_t.COMM_OK)
        (startReady (exCfg 2) (exEnv 100 comm_err_t.COMM_OK) exJob exConn) = some s2 ∧
      s2.timeout_ = (startReady (exCfg 2) (exEnv 100 comm_err_t.COMM_OK) exJob exConn).timeout_ :=
  have h := watches_cleared_by_swanSong (exCfg 2) (exEnv 100 comm_err_t.COMM_OK)
    (startReady (exCfg 2) (exEnv 100 comm_err_t.COMM_OK) exJob exConn) exConn (by decide)
  h.elim fun s2 h2 => ⟨s2, h2.1, h2.2.1⟩

/-- C12, the claim as stated fails: the sample job delivers COMM_OK from
start(), and right after that calls_.earlyAbort_ and calls_.timeout_ are both
still set, nothing has been cancelled, and the timeout start() registered on
descriptor 5 has not been removed. -/
theorem watches_left_after_success_counterexample :
    deliveries (run (exCfg 2) exJob [(Handler.start, exEnv 100 comm_err_t.COMM_OK)]).trace
      = [(7, comm_err_t.COMM_OK, 0)] ∧
    (run (exCfg 2) exJob [(Handler.start, exEnv 100 comm_err_t.COMM_OK)]).earlyAbort_ = true ∧
    (run (exCfg 2) exJob [(Handler.start, exEnv 100 comm_err_t.COMM_OK)]).timeout_ = true ∧
    cancels (run (exCfg 2) exJob [(Handler.start, exEnv 100 comm_err_t.COMM_OK)]).trace = 0 ∧
    unwatches (run (exCfg 2) exJob [(Handler.start, exEnv 100 comm_err_t.COMM_OK)]).trace = 0 ∧
    (run (exCfg 2) exJob [(Handler.start, exEnv 100 comm_err_t.COMM_OK)]).trace
      = [Effect.comm_add_close_handler 5, Effect.commSetTimeout 5 30 true,
          Effect.comm_connect_addr 5 exConn.remote, Effect.getsockname 5,
          Effect.fdTableOpen 5 exConn.localAddr,
          Effect.ScheduleCallHere 7 (some exConn) comm_err_t.COMM_OK 0] := by
  decide

/-! ## The deadline, the sockets and the watches under `connect` -/

theorem frame_connectAttempt (s : ConnOpener) (c : Connection) :
    socketsOpened (connectAttempt s c).trace = socketsOpened s.trace ∧
    watchesSet (connectAttempt s c).trace = watchesSet s.trace := by
  simp [connectAttempt, emit, socketsOpened, watchesSet, List.countP_append, List.countP_cons,
    Effect.isOpenSocket, Effect.isWatchSet]

theorem frame_doneConnecting (s : ConnOpener) (st : comm_err_t) (x : Int) :
    socketsOpened (doneConnecting s st x).trace = socketsOpened s.trace ∧
    watchesSet (doneConnecting s st x).trace = watchesSet s.trace := by
  rw [doneConnecting_eq]
  obtain ⟨host, conn, cb, tt, fr, cto, cst, ea, tmo, tr⟩ := s
  cases cb <;>
    simp [socketsOpened, watchesSet, List.countP_append, List.countP_cons,
      Effect.isOpenSocket, Effect.isWatchSet]

theorem frame_swanSong (s : ConnOpener) :
    socketsOpened (swanSong s).trace = socketsOpened s.trace ∧
    watchesSet (swanSong s).trace = watchesSet s.trace := by
  rw [swanSong_eq]
  obtain ⟨host, conn, cb, tt, fr, cto, cst, ea, tmo, tr⟩ := s
  cases cb <;> cases ea <;> cases tmo <;> rcases conn with _ | c <;> try cases ho : c.isOpen
  all_goals
    simp [*, socketsOpened, watchesSet, rollbackCalls, List.countP_append, List.countP_cons,
      Effect.isOpenSocket, Effect.isWatchSet]

theorem frame_connectInProgress (env : Env) (s : ConnOpener) (c : Connection) :
    socketsOpened (connectInProgress env s c).trace = socketsOpened s.trace ∧
    watchesSet (connectInProgress env s c).trace = watchesSet s.trace := by
  cases hd : tookTooLong env s
  · unfold connectInProgress
    rw [hd]
    simp [emit, socketsOpened, watchesSet, List.countP_append, List.countP_cons,
      Effect.isOpenSocket, Effect.isWatchSet]
  · unfold connectInProgress
    rw [hd]
    simp only [if_true, doneConnecting_eq, connClose_eq]
    obtain ⟨host, conn, cb, tt, fr, cto, cst, ea, tmo, tr⟩ := s
    cases cb <;> rcases conn with _ | c2 <;> try cases ho : c2.isOpen
    all_goals
      simp [*, emit, socketsOpened, watchesSet, List.countP_append, List.countP_cons,
        Effect.isOpenSocket, Effect.isWatchSet, Connection.closeCalls]

theorem frame_connectOk (env : Env) (s : ConnOpener) (c : Connection)
    (hc : s.conn_ = some c) :
    socketsOpened (connectOk env s c).trace = socketsOpened s.trace ∧
    watchesSet (connectOk env s c).trace = watchesSet s.trace := by
  unfold connectOk
  rw [connected_eq env s c hc]
  simp only [doneConnecting_eq, markGoodAddr_eq]
  obtain ⟨host, conn, cb, tt, fr, cto, cst, ea, tmo, tr⟩ := s
  cases cb <;> cases host <;> cases hp : c.peer
  all_goals
    simp [*, emit, socketsOpened, watchesSet, List.countP_append, List.countP_cons,
      Effect.isOpenSocket, Effect.isWatchSet, Connection.closeCalls]

theorem frame_connectDefault (cfg : Config) (env : Env) (s : ConnOpener) (c : Connection) :
    (connectDefault cfg env s c).connectStart_ = s.connectStart_ ∧
    (connectDefault cfg env s c).connectTimeout_ = s.connectTimeout_ ∧
    socketsOpened (connectDefault cfg env s c).trace = socketsOpened s.trace ∧
    watchesSet (connectDefault cfg env s c).trace = watchesSet s.trace := by
  by_cases hg : tookTooLong env s = true ∨ ¬ ((s.failRetries_ : Int) + 1 < cfg.connect_retries)
  · rw [connectDefault_giveUp cfg env s c hg]
    generalize tookTooLong env s = late
    obtain ⟨host, conn, cb, tt, fr, cto, cst, ea, tmo, tr⟩ := s
    cases cb <;> cases host <;> cases ea <;>
      cases hI : (cfg.USE_ICMP && cfg.test_reachability) <;>
      rcases conn with _ | c2 <;> try cases ho : c2.isOpen
    all_goals
      simp [*, emit, socketsOpened, watchesSet, List.countP_append, List.countP_cons,
        Effect.isOpenSocket, Effect.isWatchSet, Connection.closeCalls]
  · have h1 : tookTooLong env s = false := by
      cases ht : tookTooLong env s
      · rfl
      · exact absurd (Or.inl ht) hg
    have h2 : (s.failRetries_ : Int) + 1 < cfg.connect_retries := by
      by_contra hn
      exact hg (Or.inr hn)
    rw [connectDefault_retry cfg env s c h1 h2]
    obtain ⟨host, conn, cb, tt, fr, cto, cst, ea, tmo, tr⟩ := s
    cases host <;> cases hI : (cfg.USE_ICMP && cfg.test_reachability)
    all_goals
      simp [*, emit, socketsOpened, watchesSet, List.countP_append, List.countP_cons,
        Effect.isOpenSocket, Effect.isWatchSet, Connection.closeCalls]

/-- Whatever the attempt answers, `connect` leaves the deadline as it is,
creates no socket and registers no close or timeout handler. -/
theorem frame_connect (cfg : Config) (env : Env) (s s2 : ConnOpener)
    (h : connect cfg env s = some s2) :
    s2.connectStart_ = s.connectStart_ ∧ s2.connectTimeout_ = s.connectTimeout_ ∧
    socketsOpened s2.trace = socketsOpened s.trace ∧
    watchesSet s2.trace = watchesSet s.trace := by
  have a := frame_connectAttempt s
  unfold connect at h
  split at h
  · simp at h
  · rename_i c hc
    split at h <;> simp at h <;> subst h
    · have q := quiet_connectInProgress env (connectAttempt s c) c
      have f := frame_connectInProgress env (connectAttempt s c) c
      exact ⟨q.2.2.1, q.2.2.2.1, f.1.trans (a c).1, f.2.trans (a c).2⟩
    · have q := quiet_connectOk env (connectAttempt s c) c hc
      have f := frame_connectOk env (connectAttempt s c) c hc
      exact ⟨q.2.2.1, q.2.2.2.1, f.1.trans (a c).1, f.2.trans (a c).2⟩
    · have f := frame_connectDefault cfg env (connectAttempt s c) c
      exact ⟨f.1, f.2.1, f.2.2.1.trans (a c).1, f.2.2.2.trans (a c).2⟩


/-! ## A socket that cannot be created -/

/-- C21: when start() has to create the socket (the connection it was given is
not open) and the connection is still not open after comm_openex, the job
delivers COMM_ERR_CONNECT with errno 0 to its callback at once: the only calls
it makes are comm_openex and the scheduling of the callback, so no close
handler and no timeout handler is registered and no connect attempt is issued;
totalTries_ and failRetries_ stay as they were (0 on a new job), calls_ stays
empty, conn_ and callback_ are cleared and doneAll() answers as the base class
does. -/
theorem start_socket_failure (cfg : Config) (env : Env) (s : ConnOpener) (c : Connection)
    (cb : AsyncCall) (hc : s.conn_ = some c) (hcb : s.callback_ = some cb)
    (hclosed : c.isOpen = false) (hfail : (openSocket cfg env c).isOpen = false) :
    ∃ s2, start cfg env s = some s2 ∧
      s2.trace = s.trace ++ [Effect.comm_openex env.openexFd,
        Effect.ScheduleCallHere cb (some (openSocket cfg env c))
          comm_err_t.COMM_ERR_CONNECT 0] ∧
      deliveries s2.trace = deliveries s.trace ++ [(cb, comm_err_t.COMM_ERR_CONNECT, 0)] ∧
      watchesSet s2.trace = watchesSet s.trace ∧
      attempts s2.trace = attempts s.trace ∧
      s2.totalTries_ = s.totalTries_ ∧ s2.failRetries_ = s.failRetries_ ∧
      s2.earlyAbort_ = s.earlyAbort_ ∧ s2.timeout_ = s.timeout_ ∧
      s2.conn_ = none ∧ s2.callback_ = none ∧
      doneAll s2 true = true := by
  have ho : (startConn cfg env c).isOpen = false := by
    simp [startConn, hclosed, hfail]
  refine ⟨_, start_no_socket cfg env s c hc ho, ?_⟩
  rw [doneConnecting_eq]
  obtain ⟨host, conn, cb0, tt, fr, cto, cst, ea, tmo, tr⟩ := s
  simp only [] at hc hcb
  subst hc hcb
  simp [emit, deliveries, watchesSet, attempts, doneAll, List.countP_append, List.countP_cons,
    List.filterMap_append, List.filterMap_cons, Effect.isWatchSet, Effect.isAttempt]

/-- C21, witnessed on a new job whose connection has no descriptor, with
comm_openex returning -1: the counter stays 0. -/
theorem start_socket_failure_witness :
    ∃ s2, start (exCfg 2) { exEnv 100 comm_err_t.COMM_OK with openexFd := -1 }
        (ConnOpener.new (some { exConn with fd := -1 }) (some 7) 30) = some s2 ∧
      s2.trace = [Effect.comm_openex (-1),
        Effect.ScheduleCallHere 7 (some { exConn with fd := -1 })
          comm_err_t.COMM_ERR_CONNECT 0] ∧
      s2.totalTries_ = 0 ∧ doneAll s2 true = true := by
  obtain ⟨s2, h1, h2, _, _, _, h6, _, _, _, _, _, h12⟩ :=
    start_socket_failure (exCfg 2) { exEnv 100 comm_err_t.COMM_OK with openexFd := -1 }
      (ConnOpener.new (some { exConn with fd := -1 }) (some 7) 30) { exConn with fd := -1 } 7
      rfl rfl (by decide) (by decide)
  exact ⟨s2, h1, h2, h6, h12⟩

/-! ## Starting on the caller's socket -/

/-- C23: start() on a job whose connection is already open creates no socket:
on the descriptor the connection came with it registers the close handler and
the timeout handler with duration connectTimeout_, sets connectStart_ to the
current time and calls connect(), which issues exactly one attempt on that
same descriptor and counts it; nothing after that in this call creates a socket
or registers another close or timeout handler, and connectStart_ and
connectTimeout_ are as start() left them. -/
theorem start_reuses_open_socket (cfg : Config) (env : Env) (s : ConnOpener) (c : Connection)
    (hc : s.conn_ = some c) (ho : c.isOpen = true) :
    ∃ s2 rest, start cfg env s = some s2 ∧
      s2.trace = s.trace ++ [Effect.comm_add_close_handler c.fd,
        Effect.commSetTimeout c.fd s.connectTimeout_ true,
        Effect.comm_connect_addr c.fd c.remote] ++ rest ∧
      socketsOpened s2.trace = socketsOpened s.trace ∧
      watchesSet s2.trace = watchesSet s.trace + 2 ∧
      attempts s2.trace = attempts s.trace + 1 ∧
      s2.totalTries_ = s.totalTries_ + 1 ∧
      s2.connectStart_ = env.squid_curtime ∧
      s2.connectTimeout_ = s.connectTimeout_ := by
  have hs : startReady cfg env s c = startWatches env s c := by
    simp [startReady, ho]
  have hst : start cfg env s = connect cfg env (startWatches env s c) := by
    rw [← hs]
    exact start_ready cfg env s c hc (by simp [startConn, ho])
  have hc1 : (startWatches env s c).conn_ = some c := by
    simp [startWatches, emit, hc]
  obtain ⟨s2, e, ht, ha, rest, hr⟩ := connect_attempts_first cfg env _ c hc1
  obtain ⟨f1, f2, f3, f4⟩ := frame_connect cfg env _ s2 e
  refine ⟨s2, rest, hst.trans e, ?_, ?_, ?_, ?_, ?_, ?_, ?_⟩
  · rw [hr]
    simp [startWatches, emit]
  · rw [f3]
    simp [startWatches, emit, socketsOpened, List.countP_append, List.countP_cons,
      Effect.isOpenSocket]
  · rw [f4]
    simp [startWatches, emit, watchesSet, List.countP_append, List.countP_cons,
      Effect.isWatchSet]
  · rw [ha]
    simp [startWatches, emit, attempts, List.countP_append, List.countP_cons,
      Effect.isAttempt]
  · rw [ht]
    rfl
  · rw [f1]
    rfl
  · rw [f2]
    rfl

/-- C23, witnessed on the sample job, whose connection is open on descriptor 5. -/
theorem start_reuses_open_socket_witness :
    ∃ s2 rest, start (exCfg 2) (exEnv 100 comm_err_t.COMM_INPROGRESS) exJob = some s2 ∧
      s2.trace = exJob.trace ++ [Effect.comm_add_close_handler 5,
        Effect.commSetTimeout 5 30 true,
        Effect.comm_connect_addr 5 exConn.remote] ++ rest ∧
      socketsOpened s2.trace = 0 ∧ attempts s2.trace = 1 ∧ s2.connectStart_ = 100 := by
  obtain ⟨s2, rest, h1, h2, h3, _, h5, _, h7, _⟩ :=
    start_reuses_open_socket (exCfg 2) (exEnv 100 comm_err_t.COMM_INPROGRESS) exJob exConn
      rfl (by decide)
  exact ⟨s2, rest, h1, h2, h3, h5, h7⟩


/-! ## The deadline -/

theorem deadline_start (cfg : Config) (env : Env) (s s2 : ConnOpener)
    (h : start cfg env s = some s2) :
    s2.connectTimeout_ = s.connectTimeout_ ∧
    (s2.connectStart_ = s.connectStart_ ∨ s2.connectStart_ = env.squid_curtime) := by
  cases hc : s.conn_ with
  | none => simp [start, hc] at h
  | some c =>
    cases ho : (startConn cfg env c).isOpen
    · rw [start_no_socket cfg env s c hc ho] at h
      simp only [Option.some.injEq] at h
      subst h
      rw [doneConnecting_eq]
      exact ⟨rfl, Or.inl rfl⟩
    · rw [start_ready cfg env s c hc ho] at h
      obtain ⟨f1, f2, _, _⟩ := frame_connect cfg env _ s2 h
      have g := startReady_fields cfg env s c
      exact ⟨f2.trans g.2.2.2.2.2.1, Or.inr (f1.trans g.2.2.2.2.2.2.1)⟩

/-- C24: connectTimeout_ is what the constructor was given and no handler
writes it; connectStart_ is written by start() alone, which sets it to the
current time when it goes on to connect.  connect() (whatever the attempt
answers), timeout(), earlyAbort(), doneConnecting() and swanSong() leave both
as they were, and so does every sequence of handler invocations without a
start(). -/
theorem deadline_is_fixed (cfg : Config) (env : Env) (s : ConnOpener)
    (c : Option Connection) (handler : Option AsyncCall) (ctimeout : Int)
    (st : comm_err_t) (x : Int) :
    (ConnOpener.new c handler ctimeout).connectTimeout_ = ctimeout ∧
    (∀ s2, connect cfg env s = some s2 →
      s2.connectStart_ = s.connectStart_ ∧ s2.connectTimeout_ = s.connectTimeout_) ∧
    (∀ s2, timeout cfg env s = some s2 →
      s2.connectStart_ = s.connectStart_ ∧ s2.connectTimeout_ = s.connectTimeout_) ∧
    ((earlyAbort s x).connectStart_ = s.connectStart_ ∧
      (earlyAbort s x).connectTimeout_ = s.connectTimeout_) ∧
    ((doneConnecting s st x).connectStart_ = s.connectStart_ ∧
      (doneConnecting s st x).connectTimeout_ = s.connectTimeout_) ∧
    ((swanSong s).connectStart_ = s.connectStart_ ∧
      (swanSong s).connectTimeout_ = s.connectTimeout_) ∧
    (∀ s2, start cfg env s = some s2 →
      s2.connectTimeout_ = s.connectTimeout_ ∧
      (s2.connectStart_ = s.connectStart_ ∨ s2.connectStart_ = env.squid_curtime)) ∧
    (∀ evs : List (Handler × Env), (run cfg s evs).connectTimeout_ = s.connectTimeout_) ∧
    (∀ evs : List (Handler × Env), (∀ ev ∈ evs, ev.1 ≠ Handler.start) →
      (run cfg s evs).connectStart_ = s.connectStart_) := by
  have hq : ∀ (a : ConnOpener) (ev : Handler × Env), ev.1 ≠ Handler.start →
      (step cfg a ev).connectStart_ = a.connectStart_ := by
    intro a ev hne
    obtain ⟨h, e⟩ := ev
    cases h with
    | start => exact absurd rfl hne
    | connect =>
      simp only [step]
      cases hcn : connect cfg e a with
      | none => rfl
      | some a2 => exact (frame_connect cfg e a a2 hcn).1
    | earlyAbort y => exact (quiet_doneConnecting a _ _).2.2.1
    | timeout =>
      simp only [step]
      cases hcn : timeout cfg e a with
      | none => rfl
      | some a2 => exact (frame_connect cfg e a a2 hcn).1
    | swanSong => exact (quiet_swanSong a).2.2.1
  refine ⟨rfl, ?_, ?_, ?_, ?_, ?_, ?_, ?_, ?_⟩
  · intro s2 h
    exact ⟨(frame_connect cfg env s s2 h).1, (frame_connect cfg env s s2 h).2.1⟩
  · intro s2 h
    exact ⟨(frame_connect cfg env s s2 h).1, (frame_connect cfg env s s2 h).2.1⟩
  · exact ⟨(quiet_doneConnecting s _ _).2.2.1, (quiet_doneConnecting s _ _).2.2.2.1⟩
  · exact ⟨(quiet_doneConnecting s _ _).2.2.1, (quiet_doneConnecting s _ _).2.2.2.1⟩
  · exact ⟨(quiet_swanSong s).2.2.1, (quiet_swanSong s).2.2.2.1⟩
  · intro s2 h
    exact deadline_start cfg env s s2 h
  · intro evs
    exact (grows_run cfg evs s).2.2.2.2.2.1
  · intro evs
    induction evs generalizing s with
    | nil => intro _; rfl
    | cons ev evs ih =>
      intro hall
      have h1 := hq s ev (hall ev (List.mem_cons_self _ _))
      have h2 := ih (step cfg s ev) (fun e he => hall e (List.mem_cons_of_mem _ he))
      exact h2.trans h1

/-! ## When the job may end -/

/-- C26: doneAll() answers false while conn_ or callback_ is set, and
otherwise what AsyncJob::doneAll() answers.  doneConnecting() schedules the
callback that is set with the outcome it was given and clears both members, and
no handler sets either again: after any doneConnecting(), and after whatever
handlers run later, doneAll() is AsyncJob::doneAll().  So the job is finished
only after its outcome has been delivered: whenever doneAll() answers true
after any sequence of handler invocations on a job whose callback was set, that
callback has been scheduled with an outcome, once, in the meantime. -/
theorem doneAll_only_after_delivery (cfg : Config) (s : ConnOpener) (st : comm_err_t)
    (x : Int) (b : Bool) (evs : List (Handler × Env)) :
    doneAll s b = (!s.conn_.isSome && !s.callback_.isSome && b) ∧
    (doneConnecting s st x).conn_ = none ∧
    (doneConnecting s st x).callback_ = none ∧
    deliveries (doneConnecting s st x).trace
      = deliveries s.trace ++ delivery s.callback_ st x ∧
    doneAll (doneConnecting s st x) b = b ∧
    doneAll (run cfg (doneConnecting s st x) evs) b = b ∧
    (∀ cb, s.callback_ = some cb → doneAll (run cfg s evs) b = true →
      scheduled (run cfg s evs).trace = scheduled s.trace + 1 ∧
      ∃ st2 x2, deliveries (run cfg s evs).trace = deliveries s.trace ++ [(cb, st2, x2)]) := by
  have h1 : (doneConnecting s st x).conn_ = none := by rw [doneConnecting_eq]
  have h2 : (doneConnecting s st x).callback_ = none := by rw [doneConnecting_eq]
  have g := grows_run cfg evs (doneConnecting s st x)
  have h3 := g.2.2.1 h1
  have h4 := g.2.1 h2
  refine ⟨?_, h1, h2, deliveries_doneConnecting s st x, ?_, ?_, ?_⟩
  · unfold doneAll
    cases s.conn_.isSome <;> cases s.callback_.isSome <;> simp
  · simp [doneAll, h1, h2]
  · simp [doneAll, h3, h4]
  · intro cb hcb hdone
    have hd : ∃ st2 x2, deliveries (run cfg s evs).trace
        = deliveries s.trace ++ [(cb, st2, x2)] := by
      rcases delivers_run cfg evs s with ⟨hsame, _⟩ | ⟨_, st2, x2, hdel⟩
      · rw [hcb] at hsame
        simp [doneAll, hsame] at hdone
      · refine ⟨st2, x2, ?_⟩
        rw [hdel, hcb]
        rfl
    refine ⟨?_, hd⟩
    obtain ⟨st2, x2, e⟩ := hd
    rw [scheduled_eq_length, scheduled_eq_length, e, List.length_append]
    rfl

/-- C26, witnessed on the sample job started with an attempt that succeeds at
once: doneAll() answers true, and the callback has been scheduled. -/
theorem doneAll_only_after_delivery_witness :
    doneAll (run (exCfg 2) exJob [(Handler.start, exEnv 100 comm_err_t.COMM_OK)]) true = true ∧
    scheduled (run (exCfg 2) exJob [(Handler.start, exEnv 100 comm_err_t.COMM_OK)]).trace
      = scheduled exJob.trace + 1 ∧
    ∃ st2 x2, deliveries (run (exCfg 2) exJob
        [(Handler.start, exEnv 100 comm_err_t.COMM_OK)]).trace
      = deliveries exJob.trace ++ [(7, st2, x2)] :=
  ⟨by decide,
    (doneAll_only_after_delivery (exCfg 2) exJob comm_err_t.COMM_OK 0 true
      [(Handler.start, exEnv 100 comm_err_t.COMM_OK)]).2.2.2.2.2.2 7 rfl (by decide)⟩

/-! ## The try count -/

theorem tryBound_more (n : Int) (k j : Nat) (s : ConnOpener) (hk : k ≤ j)
    (h : TryBound n k s) : TryBound n j s := by
  obtain ⟨h1, h2⟩ := h
  refine ⟨?_, fun hs => ?_⟩
  · have : (k : Int) ≤ j := by exact_mod_cast hk
    omega
  · have := h2 hs
    omega

theorem tryBound_of_same (n : Int) (k : Nat) (s s2 : ConnOpener)
    (ht : s2.totalTries_ = s.totalTries_) (hf : s2.failRetries_ = s.failRetries_)
    (hg : s.conn_ = none → s2.conn_ = none) (h : TryBound n k s) : TryBound n k s2 := by
  obtain ⟨h1, h2⟩ := h
  refine ⟨by rw [ht]; exact h1, ?_⟩
  intro hs
  rw [ht, hf]
  apply h2
  cases hc : s.conn_ with
  | none => rw [hg hc] at hs; cases hs
  | some c => rfl

theorem tryBound_connect (cfg : Config) (env : Env) (k : Nat) (s s2 : ConnOpener)
    (h : connect cfg env s = some s2) (hb : FailBound cfg.connect_retries s)
    (ht : TryBound cfg.connect_retries k s) :
    TryBound cfg.connect_retries
      (k + if env.connectResult = comm_err_t.COMM_INPROGRESS then 1 else 0) s2 := by
  cases hc : s.conn_ with
  | none => simp [connect, hc] at h
  | some c =>
    obtain ⟨t1, t2⟩ := ht
    have t3 := t2 (by simp [hc])
    have b3 := hb.2 (by simp [hc])
    by_cases hok : env.connectResult = comm_err_t.COMM_OK
    · rw [connect_ok cfg env s c hc hok] at h
      simp only [Option.some.injEq] at h
      subst h
      have q := quiet_connectOk env (connectAttempt s c) c hc
      have e1 : (connectOk env (connectAttempt s c) c).totalTries_ = s.totalTries_ + 1 := q.1
      have e3 : (connectOk env (connectAttempt s c) c).conn_ = none := by
        unfold connectOk
        rw [doneConnecting_eq]
      simp only [hok, reduceCtorEq, if_false, Nat.add_zero]
      refine ⟨?_, fun hs => by rw [e3] at hs; cases hs⟩
      rw [e1]
      push_cast
      rcases b3 with b3 | b3
      · have : (1 : Int) ≤ max cfg.connect_retries 1 := le_max_right _ _
        omega
      · have : cfg.connect_retries ≤ max cfg.connect_retries 1 := le_max_left _ _
        omega
    · by_cases hp : env.connectResult = comm_err_t.COMM_INPROGRESS
      · rw [connect_inprogress cfg env s c hc hp] at h
        simp only [Option.some.injEq] at h
        subst h
        have q := quiet_connectInProgress env (connectAttempt s c) c
        have e1 : (connectInProgress env (connectAttempt s c) c).totalTries_
            = s.totalTries_ + 1 := q.1
        have e2 : (connectInProgress env (connectAttempt s c) c).failRetries_
            = s.failRetries_ := q.2.1
        simp only [hp, if_true]
        refine ⟨?_, fun _ => ?_⟩
        · rw [e1]
          push_cast
          omega
        · rw [e1, e2]
          omega
      · rw [connect_failure cfg env s c hc (isFailure_of_ne _ hok hp)] at h
        simp only [Option.some.injEq] at h
        subst h
        have e1 : (connectDefault cfg env (connectAttempt s c) c).totalTries_
            = s.totalTries_ + 1 := totalTries_connectDefault cfg env _ c
        have e2 : (connectDefault cfg env (connectAttempt s c) c).failRetries_
            = s.failRetries_ + 1 := (failRetries_connectDefault cfg env _ c).1
        have b4 := (failBound_connect cfg env s _
          (connect_failure cfg env s c hc (isFailure_of_ne _ hok hp)) hb).1
        rw [e2] at b4
        push_cast at b4
        simp only [hp, if_false, Nat.add_zero]
        refine ⟨?_, fun _ => ?_⟩
        · rw [e1]
          push_cast
          omega
        · rw [e1, e2]
          omega


theorem tryBound_start (cfg : Config) (env : Env) (k : Nat) (s s2 : ConnOpener)
    (h : start cfg env s = some s2) (hb : FailBound cfg.connect_retries s)
    (ht : TryBound cfg.connect_retries k s) :
    TryBound cfg.connect_retries
      (k + if env.connectResult = comm_err_t.COMM_INPROGRESS then 1 else 0) s2 := by
  cases hc : s.conn_ with
  | none => simp [start, hc] at h
  | some c =>
    cases ho : (startConn cfg env c).isOpen
    · rw [start_no_socket cfg env s c hc ho] at h
      simp only [Option.some.injEq] at h
      subst h
      refine tryBound_more _ k _ _ (Nat.le_add_right _ _) ?_
      exact tryBound_of_same _ k s _ (quiet_doneConnecting _ _ _).1
        (quiet_doneConnecting _ _ _).2.1 (fun _ => by rw [doneConnecting_eq]) ht
    · rw [start_ready cfg env s c hc ho] at h
      have g := startReady_fields cfg env s c
      have hcs := startReady_conn cfg env s c hc
      have hb2 : FailBound cfg.connect_retries (startReady cfg env s c) :=
        failBound_of_same _ s _ g.2.2.2.2.1 (fun h0 => by simp [hc] at h0) hb
      have ht2 : TryBound cfg.connect_retries k (startReady cfg env s c) :=
        tryBound_of_same _ k s _ g.2.2.2.1 g.2.2.2.2.1 (fun h0 => by simp [hc] at h0) ht
      exact tryBound_connect cfg env k _ s2 h hb2 ht2

theorem tryBound_step (cfg : Config) (k : Nat) (s : ConnOpener) (ev : Handler × Env)
    (hb : FailBound cfg.connect_retries s) (ht : TryBound cfg.connect_retries k s) :
    TryBound cfg.connect_retries (k + if seesInProgress ev then 1 else 0) (step cfg s ev) := by
  obtain ⟨h, e⟩ := ev
  cases h with
  | start =>
    simp only [step, seesInProgress, decide_eq_true_eq]
    cases hs : start cfg e s with
    | none => exact tryBound_more _ k _ _ (Nat.le_add_right _ _) ht
    | some s2 => exact tryBound_start cfg e k s s2 hs hb ht
  | connect =>
    simp only [step, seesInProgress, decide_eq_true_eq]
    cases hs : connect cfg e s with
    | none => exact tryBound_more _ k _ _ (Nat.le_add_right _ _) ht
    | some s2 => exact tryBound_connect cfg e k s s2 hs hb ht
  | earlyAbort y =>
    refine tryBound_more _ k _ _ (Nat.le_add_right _ _) ?_
    exact tryBound_of_same _ k s _ (quiet_doneConnecting _ _ _).1
      (quiet_doneConnecting _ _ _).2.1 (grows_doneConnecting _ _ _).2.2.1 ht
  | timeout =>
    simp only [step, seesInProgress, decide_eq_true_eq]
    cases hs : timeout cfg e s with
    | none => exact tryBound_more _ k _ _ (Nat.le_add_right _ _) ht
    | some s2 => exact tryBound_connect cfg e k s s2 hs hb ht
  | swanSong =>
    refine tryBound_more _ k _ _ (Nat.le_add_right _ _) ?_
    exact tryBound_of_same _ k s _ (quiet_swanSong s).1 (quiet_swanSong s).2.1
      (grows_swanSong s).2.2.1 ht

theorem tryBound_run (cfg : Config) (evs : List (Handler × Env)) (k : Nat) (s : ConnOpener)
    (hb : FailBound cfg.connect_retries s) (ht : TryBound cfg.connect_retries k s) :
    TryBound cfg.connect_retries (k + inProgressResults evs) (run cfg s evs) := by
  induction evs generalizing s k with
  | nil => exact ht
  | cons ev evs ih =>
    have h := ih _ (step cfg s ev) (failBound_step cfg s ev hb) (tryBound_step cfg k s ev hb ht)
    have e : k + inProgressResults (ev :: evs)
        = k + (if seesInProgress ev then 1 else 0) + inProgressResults evs := by
      unfold inProgressResults
      rw [List.countP_cons]
      omega
    rw [e]
    exact h

/-- C22, as the code has it: totalTries_ never decreases, and every call of
connect() that issues an attempt (it holds a connection) adds exactly one to it
and one attempt to the log.  The retry ceiling bounds the failures, not the
tries: an in-progress result adds a try without counting against the ceiling.
For a job with connect_retries = N, fresh from its constructor and run through
any sequence of handler invocations, totalTries_ never exceeds max(N, 1) plus
the number of in-progress results seen. -/
theorem tries_bounded_up_to_waits (cfg : Config) (env : Env) (s : ConnOpener)
    (c : Option Connection) (handler : Option AsyncCall) (ctimeout : Int)
    (host : Option String) (evs : List (Handler × Env)) :
    s.totalTries_ ≤ (run cfg s evs).totalTries_ ∧
    (∀ c2, s.conn_ = some c2 → ∃ s2, connect cfg env s = some s2 ∧
      s2.totalTries_ = s.totalTries_ + 1 ∧ attempts s2.trace = attempts s.trace + 1) ∧
    ((run cfg (setHost (ConnOpener.new c handler ctimeout) host) evs).totalTries_ : Int)
      ≤ max cfg.connect_retries 1 + inProgressResults evs := by
  refine ⟨(grows_run cfg evs s).2.2.2.1, ?_, ?_⟩
  · intro c2 hc
    obtain ⟨s2, h1, h2, h3, _⟩ := connect_attempts_first cfg env s c2 hc
    exact ⟨s2, h1, h2, h3⟩
  · have h0 : FailBound cfg.connect_retries (setHost (ConnOpener.new c handler ctimeout) host) :=
      ⟨by simp [setHost, ConnOpener.new], fun _ => Or.inl rfl⟩
    have t0 : TryBound cfg.connect_retries 0
        (setHost (ConnOpener.new c handler ctimeout) host) :=
      ⟨by simp [setHost, ConnOpener.new], fun _ => by simp [setHost, ConnOpener.new]⟩
    have h := (tryBound_run cfg evs 0 _ h0 t0).1
    rw [Nat.zero_add] at h
    omega

/-- C22 refuted: with connect_retries = 2, four attempts that each answer
COMM_INPROGRESS bring totalTries_ to 4, above 2 + 1. -/
theorem tries_exceed_ceiling_counterexample :
    (run (exCfg 2) exJob
      [(Handler.start, exEnv 100 comm_err_t.COMM_INPROGRESS),
       (Handler.connect, exEnv 101 comm_err_t.COMM_INPROGRESS),
       (Handler.connect, exEnv 102 comm_err_t.COMM_INPROGRESS),
       (Handler.connect, exEnv 103 comm_err_t.COMM_INPROGRESS)]).totalTries_ = 4 ∧
    ¬ (((run (exCfg 2) exJob
      [(Handler.start, exEnv 100 comm_err_t.COMM_INPROGRESS),
       (Handler.connect, exEnv 101 comm_err_t.COMM_INPROGRESS),
       (Handler.connect, exEnv 102 comm_err_t.COMM_INPROGRESS),
       (Handler.connect, exEnv 103 comm_err_t.COMM_INPROGRESS)]).totalTries_ : Int)
      ≤ (exCfg 2).connect_retries + 1) := by
  decide

/-- C22, witnessed with connect_retries = 2 on two in-progress results
followed by a failure: three tries, within max(2, 1) + 2. -/
theorem tries_bounded_up_to_waits_witness :
    exJob.totalTries_ ≤ (run (exCfg 2) exJob
      [(Handler.start, exEnv 100 comm_err_t.COMM_INPROGRESS),
       (Handler.connect, exEnv 101 comm_err_t.COMM_INPROGRESS),
       (Handler.connect, exEnv 102 comm_err_t.COMM_ERROR)]).totalTries_ ∧
    (∀ c2, exJob.conn_ = some c2 →
      ∃ s2, connect (exCfg 2) (exEnv 100 comm_err_t.COMM_INPROGRESS) exJob = some s2 ∧
        s2.totalTries_ = exJob.totalTries_ + 1 ∧
        attempts s2.trace = attempts exJob.trace + 1) ∧
    ((run (exCfg 2) (setHost (ConnOpener.new (some exConn) (some 7) 30) none)
      [(Handler.start, exEnv 100 comm_err_t.COMM_INPROGRESS),
       (Handler.connect, exEnv 101 comm_err_t.COMM_INPROGRESS),
       (Handler.connect, exEnv 102 comm_err_t.COMM_ERROR)]).totalTries_ : Int)
      ≤ max (exCfg 2).connect_retries 1 + inProgressResults
        [(Handler.start, exEnv 100 comm_err_t.COMM_INPROGRESS),
         (Handler.connect, exEnv 101 comm_err_t.COMM_INPROGRESS),
         (Handler.connect, exEnv 102 comm_err_t.COMM_ERROR)] :=
  tries_bounded_up_to_waits (exCfg 2) (exEnv 100 comm_err_t.COMM_INPROGRESS) exJob
    (some exConn) (some 7) 30 none _

end Comm

namespace Snmp

/-! ## The right-hand sibling -/

theorem siblingLoop_found (entry len : Nat) (current : mib_tree_entry) (fuel : Nat)
    (leaf : mib_tree_entry) (count : Nat) :
    siblingLoop entry len current fuel (some leaf) count = some (some leaf, count) := by
  cases fuel <;> simp [siblingLoop]

theorem siblingLoop_count (entry len : Nat) (current : mib_tree_entry)
    (hin : ∀ leaf ∈ current.leaves, len < leaf.name.length) :
    ∀ (fuel count : Nat), count ≤ current.leaves.length →
      current.leaves.length - count ≤ fuel →
      ∃ nx, siblingLoop entry len current fuel none count
        = some (nx, min (count + (current.leaves.drop count).findIdx
            (fun l => l.name[len]? == some entry) + 1) current.leaves.length) := by
  intro fuel
  induction fuel with
  | zero =>
    intro count h1 h2
    have hc : count = current.leaves.length := by omega
    refine ⟨none, ?_⟩
    simp [siblingLoop, hc]
  | succ fuel ih =>
    intro count h1 h2
    by_cases hlt : count < current.leaves.length
    · have hleaf : current.leaves[count]? = some current.leaves[count] :=
        List.getElem?_eq_getElem hlt
      have hmem : current.leaves[count] ∈ current.leaves := List.getElem_mem hlt
      have hlen := hin _ hmem
      rw [List.drop_eq_getElem_cons hlt, List.findIdx_cons]
      cases hname : (current.leaves[count]).name[len]? with
      | none =>
        rw [List.getElem?_eq_none_iff] at hname
        omega
      | some v =>
        by_cases hv : v = entry
        · refine ⟨some current.leaves[count], ?_⟩
          simp [siblingLoop, mib_tree_entry.children, hlt, hleaf, hname, hv, siblingLoop_found]
          omega
        · obtain ⟨nx, e⟩ := ih (count + 1) (by omega) (by omega)
          have hb : (some v == some entry) = false := by simp [hv]
          refine ⟨nx, ?_⟩
          simp only [siblingLoop, mib_tree_entry.children, hlt, hleaf, hname, hv, e, hb,
            Option.isNone_none, and_self, if_true, if_false, cond_false, Option.some.injEq,
            Prod.mk.injEq, true_and, beq_iff_eq]
          omega
    · have hc : count = current.leaves.length := by omega
      refine ⟨none, ?_⟩
      simp [siblingLoop, mib_tree_entry.children, hc]

/-- The result of `snmpTreeSiblingEntry` in one formula: the child at the
index after that of the first match (past the end when there is no match). -/
theorem snmpTreeSiblingEntry_eq (entry len : Nat) (current : mib_tree_entry)
    (hin : ∀ leaf ∈ current.leaves, len < leaf.name.length) :
    snmpTreeSiblingEntry entry len current
      = some (current.leaves[current.leaves.findIdx
          (fun l => l.name[len]? == some entry) + 1]?) := by
  obtain ⟨nx, e⟩ := siblingLoop_count entry len current hin current.leaves.length 0
    (Nat.zero_le _) (by omega)
  have hle : current.leaves.findIdx (fun l => l.name[len]? == some entry)
      ≤ current.leaves.length := List.findIdx_le_length _
  unfold snmpTreeSiblingEntry
  simp only [mib_tree_entry.children, e, List.drop_zero, Nat.zero_add]
  by_cases hlt : current.leaves.findIdx (fun l => l.name[len]? == some entry) + 1
      < current.leaves.length
  · rw [Nat.min_eq_left (Nat.le_of_lt hlt)]
    simp [hlt, List.getElem?_eq_getElem hlt]
  · have hm : min (current.leaves.findIdx (fun l => l.name[len]? == some entry) + 1)
        current.leaves.length = current.leaves.length := by omega
    rw [hm]
    have hn : current.leaves[current.leaves.findIdx
        (fun l => l.name[len]? == some entry) + 1]? = none :=
      List.getElem?_eq_none (by omega)
    simp [hn]

/-- C30: on a node whose children all have a name longer than `len`,
snmpTreeSiblingEntry(entry, len, current) returns the child that comes
immediately after the first child whose name[len] equals entry, and NULL when
that child is the last one; when no child matches it returns NULL as well.
This holds for every number of children. -/
theorem sibling_entry_is_right_neighbour (entry len : Nat) (current : mib_tree_entry)
    (hin : ∀ leaf ∈ current.leaves, len < leaf.name.length) :
    (∀ i leaf, current.leaves[i]? = some leaf → leaf.name[len]? = some entry →
      (∀ j l, j < i → current.leaves[j]? = some l → l.name[len]? ≠ some entry) →
      snmpTreeSiblingEntry entry len current = some (current.leaves[i + 1]?) ∧
      (i + 1 = current.children → snmpTreeSiblingEntry entry len current = some none)) ∧
    ((∀ l ∈ current.leaves, l.name[len]? ≠ some entry) →
      snmpTreeSiblingEntry entry len current = some none) := by
  have heq := snmpTreeSiblingEntry_eq entry len current hin
  refine ⟨?_, ?_⟩
  · intro i leaf hi hm hfirst
    obtain ⟨hlt, hget⟩ := List.getElem?_eq_some.mp hi
    have hidx : current.leaves.findIdx (fun l => l.name[len]? == some entry) = i := by
      rw [List.findIdx_eq hlt]
      refine ⟨by simp [hget, hm], ?_⟩
      intro j hji
      have hj : j < current.leaves.length := by omega
      have := hfirst j current.leaves[j] hji (List.getElem?_eq_getElem hj)
      simpa using this
    rw [hidx] at heq
    refine ⟨heq, ?_⟩
    intro hlast
    rw [heq, List.getElem?_eq_none (by simp only [mib_tree_entry.children] at hlast; omega)]
  · intro hno
    have hidx : current.leaves.findIdx (fun l => l.name[len]? == some entry)
        = current.leaves.length := by
      rw [List.findIdx_eq_length]
      intro x hx
      simpa using hno x hx
    rw [heq, hidx, List.getElem?_eq_none (by omega)]

/-- C30, witnessed on the sample node with children 1.1, 1.2 and 1.3: the
sibling of 1.2 is 1.3, and 1.3 has none. -/
theorem sibling_entry_is_right_neighbour_witness :
    snmpTreeSiblingEntry 2 1 exNode = some (some (exLeaf [1, 3])) ∧
    snmpTreeSiblingEntry 3 1 exNode = some none ∧
    snmpTreeSiblingEntry 7 1 exNode = some none := by
  have hin : ∀ leaf ∈ exNode.leaves, 1 < leaf.name.length := by
    intro leaf h
    simp [exNode, exLeaf, mib_tree_entry.leaves] at h
    rcases h with h | h | h <;> subst h <;> simp [mib_tree_entry.name]
  have h2 := (sibling_entry_is_right_neighbour 2 1 exNode hin).1 1 (exLeaf [1, 2]) rfl rfl
    (by
      intro j l hj hl
      have hj0 : j = 0 := by omega
      subst hj0
      simp [exNode, exLeaf, mib_tree_entry.leaves] at hl
      subst hl
      simp [mib_tree_entry.name])
  have h3 := (sibling_entry_is_right_neighbour 3 1 exNode hin).1 2 (exLeaf [1, 3]) rfl rfl
    (by
      intro j l hj hl
      have hj0 : j = 0 ∨ j = 1 := by omega
      rcases hj0 with hj0 | hj0 <;> subst hj0 <;>
        simp [exNode, exLeaf, mib_tree_entry.leaves] at hl <;> subst hl <;>
        simp [mib_tree_entry.name])
  have h7 := (sibling_entry_is_right_neighbour 7 1 exNode hin).2
    (by
      intro l h
      simp [exNode, exLeaf, mib_tree_entry.leaves] at h
      rcases h with h | h | h <;> subst h <;> simp [mib_tree_entry.name])
  exact ⟨h2.1, h3.2 rfl, h7⟩

end Snmp

namespace Format

/-! ## The escape, character by character -/

theorem escapeChar_plain (c : Char) (h : c ∉ quoteReject) : escapeChar c = [c] := by
  simp [quoteReject] at h
  obtain ⟨h1, h2, h3, h4, h5⟩ := h
  simp [escapeChar, h1, h2, h3, h4, h5]

theorem escape_plain (l : List Char) (h : ∀ c ∈ l, c ∉ quoteReject) :
    l.flatMap escapeChar = l := by
  induction l with
  | nil => rfl
  | cons x rest ih =>
    rw [List.flatMap_cons, escapeChar_plain x (h x (List.mem_cons_self _ _)),
      ih (fun c hc => h c (List.mem_cons_of_mem _ hc))]
    rfl

theorem escapeChar_length (c : Char) :
    (escapeChar c).length = if c ∈ quoteReject then 2 else 1 := by
  by_cases h : c ∈ quoteReject
  · rw [if_pos h]
    simp only [quoteReject, List.mem_cons, List.mem_singleton, List.not_mem_nil,
      or_false] at h
    unfold escapeChar
    split_ifs <;> simp_all
  · rw [if_neg h, escapeChar_plain c h]
    rfl

theorem escaped_length (s : List Char) :
    (s.flatMap escapeChar).length = s.length + s.countP (fun c => decide (c ∈ quoteReject)) := by
  induction s with
  | nil => rfl
  | cons x rest ih =>
    rw [List.flatMap_cons, List.length_append, ih, escapeChar_length, List.countP_cons]
    by_cases h : x ∈ quoteReject <;> simp [h] <;> omega

theorem unescape_escapeChar (c : Char) (rest : List Char) :
    unescape (escapeChar c ++ rest) = c :: unescape rest := by
  by_cases h : c ∈ quoteReject
  · simp only [quoteReject, List.mem_cons, List.mem_singleton, List.not_mem_nil,
      or_false] at h
    rcases h with h | h | h | h | h <;> subst h <;> simp [escapeChar, unescape]
  · rw [escapeChar_plain c h]
    have hb : c ≠ '\\' := by
      intro hb
      exact h (by simp [quoteReject, hb])
    cases rest with
    | nil => simp [unescape]
    | cons d r => simp [unescape, hb]

theorem unescape_escaped (s : List Char) : unescape (s.flatMap escapeChar) = s := by
  induction s with
  | nil => rfl
  | cons x rest ih => rw [List.flatMap_cons, unescape_escapeChar, ih]

theorem escapeChar_token (c : Char) : isToken (escapeChar c) := by
  by_cases h : c ∈ quoteReject
  · right
    simp only [quoteReject, List.mem_cons, List.mem_singleton, List.not_mem_nil,
      or_false] at h
    rcases h with h | h | h | h | h <;> subst h <;> simp [escapeChar]
  · left
    exact ⟨c, escapeChar_plain c h, h⟩

theorem escapeChar_no_raw (c d : Char) (h : d ∈ escapeChar c) :
    d ≠ '\r' ∧ d ≠ '\n' ∧ d ≠ '\t' := by
  by_cases hc : c ∈ quoteReject
  · simp only [quoteReject, List.mem_cons, List.mem_singleton, List.not_mem_nil,
      or_false] at hc
    have hall : ∀ x ∈ escapeChar c, x ≠ '\r' ∧ x ≠ '\n' ∧ x ≠ '\t' := by
      rcases hc with hc | hc | hc | hc | hc <;> subst hc <;> decide
    exact hall d h
  · rw [escapeChar_plain c hc] at h
    simp only [List.mem_singleton] at h
    subst h
    simp only [quoteReject, List.mem_cons, List.mem_singleton, List.not_mem_nil,
      or_false, not_or] at hc
    exact ⟨hc.2.2.1, hc.2.2.2.1, hc.2.2.2.2⟩

/-! ## Quoting a buffer into itself -/

theorem poke_of_lt (mem : Memory) (a : Nat) (c : Char) (h : a < mem.length) :
    poke mem a c = some (mem.set a c) := by
  simp [poke, h]

theorem poke_of_ge (mem : Memory) (a : Nat) (c : Char) (h : mem.length ≤ a) :
    poke mem a c = none := by
  simp [poke, Nat.not_lt.mpr h]

theorem set_same (mem : Memory) (a : Nat) (c : Char) (h : mem[a]? = some c) :
    mem.set a c = mem := by
  apply List.ext_getElem?
  intro k
  rw [List.getElem?_set]
  by_cases hk : a = k
  · subst hk
    have hlt : a < mem.length := by
      by_contra hn
      rw [List.getElem?_eq_none (by omega)] at h
      cases h
    simp [hlt, h]
  · simp [hk]

theorem memcpy_self (n : Nat) : ∀ (mem : Memory) (a : Nat), a + n ≤ mem.length →
    memcpy n mem a a = some mem := by
  induction n with
  | zero => intro mem a _; rfl
  | succ n ih =>
    intro mem a h
    have ha : a < mem.length := by omega
    have hset : mem.set a mem[a] = mem := set_same mem a _ (List.getElem?_eq_getElem ha)
    simp only [memcpy, List.getElem?_eq_getElem ha, poke_of_lt mem a _ ha, hset]
    exact ih mem (a + 1) (by omega)

theorem strcspn_plain (pre : List Char) (c : Char) (rest : List Char)
    (hpre : ∀ x ∈ pre, x ≠ NUL ∧ x ∉ quoteReject) (hc : c = NUL ∨ c ∈ quoteReject) :
    strcspn quoteReject (pre ++ c :: rest) = some pre.length := by
  induction pre with
  | nil => simp [strcspn, hc]
  | cons x pre ih =>
    have hx := hpre x (List.mem_cons_self _ _)
    have h2 := ih (fun y hy => hpre y (List.mem_cons_of_mem _ hy))
    simp [strcspn, hx.1, hx.2, h2]

theorem stuck_step (m : Memory) (str p : Nat) (h : Stuck m str p) :
    quoteStep m str p = Outcome.fault ∨
    ∃ m2, quoteStep m str p = Outcome.running m2 (str + 1) (p + 2) ∧
      Stuck m2 (str + 1) (p + 2) ∧ m2.length = m.length ∧ p + 2 ≤ m.length := by
  obtain ⟨hlt, hall⟩ := h
  have h0 : m[str]? = some '\\' := hall str (Nat.le_refl _) hlt
  have hlen : str < m.length := by
    by_contra hn
    rw [List.getElem?_eq_none (by omega)] at h0
    cases h0
  have hdrop : m.drop str = '\\' :: m.drop (str + 1) := by
    rw [List.drop_eq_getElem_cons hlen]
    congr 1
    rw [List.getElem?_eq_getElem hlen] at h0
    exact Option.some.inj h0
  have hsp : strcspn quoteReject (m.drop str) = some 0 := by
    rw [hdrop]
    simp [strcspn, quoteReject]
  have hne : ('\\' : Char) ≠ NUL := by decide
  unfold quoteStep
  simp only [h0, hne, if_false, hsp, memcpy, Nat.add_zero]
  have e1 : ¬ ('\\' : Char) = '\r' := by decide
  have e2 : ¬ ('\\' : Char) = '\n' := by decide
  have e3 : ¬ ('\\' : Char) = '\t' := by decide
  simp only [e1, e2, e3, if_false]
  unfold escapeDefault
  by_cases hp : p < m.length
  · rw [poke_of_lt m p _ hp]
    have hs : (m.set p '\\')[str]? = some '\\' := by
      rw [List.getElem?_set_ne (by omega)]
      exact h0
    simp only [hs]
    by_cases hp1 : p + 1 < m.length
    · rw [poke_of_lt _ (p + 1) _ (by rw [List.length_set]; exact hp1)]
      right
      refine ⟨_, rfl, ⟨by omega, ?_⟩, by simp, by omega⟩
      intro k hk1 hk2
      rw [List.getElem?_set, List.getElem?_set]
      by_cases a1 : p + 1 = k
      · simp [a1, List.length_set]
        omega
      · by_cases a2 : p = k
        · simp [a1, a2]
          omega
        · simp only [a1, a2, if_false]
          exact hall k (by omega) (by omega)
    · rw [poke_of_ge _ (p + 1) _ (by rw [List.length_set]; omega)]
      exact Or.inl rfl
  · rw [poke_of_ge m p _ (by omega)]
    exact Or.inl rfl

theorem stuck_loop (fuel : Nat) : ∀ (m : Memory) (str p : Nat), Stuck m str p →
    quoteLoop fuel m str p = Outcome.fault ∨
    ∃ m2, quoteLoop fuel m str p = Outcome.running m2 (str + fuel) (p + 2 * fuel) ∧
      m2.length = m.length ∧ p + 2 * fuel ≤ m.length := by
  induction fuel with
  | zero =>
    intro m str p h
    right
    refine ⟨m, rfl, rfl, ?_⟩
    have h1 := h.2 (p - 1) (by have := h.1; omega) (by have := h.1; omega)
    by_contra hn
    rw [List.getElem?_eq_none (by omega)] at h1
    cases h1
  | succ fuel ih =>
    intro m str p h
    rcases stuck_step m str p h with hf | ⟨m2, e, hs, hl, hb⟩
    · left
      simp [quoteLoop, hf]
    · rcases ih m2 (str + 1) (p + 2) hs with hf | ⟨m3, e3, hl3, hb3⟩
      · left
        simp [quoteLoop, e, hf]
      · right
        refine ⟨m3, ?_, by omega, by omega⟩
        simp only [quoteLoop, e, e3]
        congr 1 <;> omega

/-- The first pass over a buffer that is read and written at once, up to the
first double quote or backslash `c`: the backslash written for it takes the
place of `c`, the character written after it is that backslash read back, and
it takes the place of the character that followed `c`. -/
theorem shared_first_pass (pre : List Char) (c : Char) (rest : List Char)
    (hpre : ∀ x ∈ pre, x ≠ NUL ∧ x ∉ quoteReject) (hc : c = '"' ∨ c = '\\') :
    quoteStep (pre ++ c :: rest) 0 0
      = match rest with
        | [] => Outcome.fault
        | _ :: r => Outcome.running (pre ++ '\\' :: '\\' :: r) (pre.length + 1)
            (pre.length + 2) := by
  have hcr : c ∈ quoteReject := by
    rcases hc with hc | hc <;> subst hc <;> decide
  have hcn : c ≠ NUL := by
    rcases hc with hc | hc <;> subst hc <;> decide
  have e1 : ¬ c = '\r' := by
    rcases hc with hc | hc <;> subst hc <;> decide
  have e2 : ¬ c = '\n' := by
    rcases hc with hc | hc <;> subst hc <;> decide
  have e3 : ¬ c = '\t' := by
    rcases hc with hc | hc <;> subst hc <;> decide
  have h0 : ∃ c0, (pre ++ c :: rest)[0]? = some c0 ∧ c0 ≠ NUL := by
    cases pre with
    | nil => exact ⟨c, by simp, hcn⟩
    | cons x pre => exact ⟨x, by simp, (hpre x (List.mem_cons_self _ _)).1⟩
  obtain ⟨c0, h01, h02⟩ := h0
  have hsp := strcspn_plain pre c rest hpre (Or.inr hcr)
  have hcp := memcpy_self pre.length (pre ++ c :: rest) 0 (by simp)
  have hat : (pre ++ c :: rest)[0 + pre.length]? = some c := by
    rw [Nat.zero_add, List.getElem?_append_right (Nat.le_refl _)]
    simp
  have hset : (pre ++ c :: rest).set pre.length '\\' = pre ++ '\\' :: rest := by
    rw [List.set_append_right _ _ (Nat.le_refl _)]
    simp
  have hat2 : (pre ++ '\\' :: rest)[pre.length]? = some '\\' := by
    rw [List.getElem?_append_right (Nat.le_refl _)]
    simp
  unfold quoteStep
  simp only [h01, h02, if_false, List.drop_zero, hsp, hcp, hat, hcn, e1, e2, e3]
  unfold escapeDefault
  simp only [Nat.zero_add]
  rw [poke_of_lt _ pre.length _ (by simp), hset]
  simp only [hat2]
  cases rest with
  | nil =>
    rw [poke_of_ge _ _ _ (by simp)]
  | cons x r =>
    rw [poke_of_lt _ _ _ (by simp)]
    have hset2 : (pre ++ '\\' :: x :: r).set (pre.length + 1) '\\' = pre ++ '\\' :: '\\' :: r := by
      rw [List.set_append_right _ _ (by omega)]
      simp
    rw [hset2]

theorem stuck_after_first_pass (pre r : List Char) :
    Stuck (pre ++ '\\' :: '\\' :: r) (pre.length + 1) (pre.length + 2) := by
  refine ⟨by omega, ?_⟩
  intro k h1 h2
  have hk : k = pre.length + 1 := by omega
  subst hk
  rw [List.getElem?_append_right (by omega)]
  simp

/-- Quoting a buffer into itself, once it meets a double quote or a backslash
before any other character to escape: after k + 1 passes the loop has been
stopped by a write beyond the buffer, or is still running with the write
pointer two bytes further for every pass made. -/
theorem shared_passes (pre : List Char) (c : Char) (rest : List Char)
    (hpre : ∀ x ∈ pre, x ≠ NUL ∧ x ∉ quoteReject) (hc : c = '"' ∨ c = '\\') (k : Nat) :
    log_quoted_string (k + 1) (pre ++ c :: rest) 0 0 = Outcome.fault ∨
    ∃ m, log_quoted_string (k + 1) (pre ++ c :: rest) 0 0
        = Outcome.running m (pre.length + 1 + k) (pre.length + 2 + 2 * k) ∧
      m.length = (pre ++ c :: rest).length ∧
      pre.length + 2 + 2 * k ≤ (pre ++ c :: rest).length := by
  unfold log_quoted_string
  have hfirst := shared_first_pass pre c rest hpre hc
  cases rest with
  | nil =>
    simp only [] at hfirst
    left
    simp [quoteLoop, hfirst]
  | cons x r =>
    simp only [] at hfirst
    have hloop : quoteLoop (k + 1) (pre ++ c :: x :: r) 0 0
        = quoteLoop k (pre ++ '\\' :: '\\' :: r) (pre.length + 1) (pre.length + 2) := by
      simp only [quoteLoop, hfirst]
    rw [hloop]
    rcases stuck_loop k _ _ _ (stuck_after_first_pass pre r) with hf | ⟨m2, e, hl, hb⟩
    · exact Or.inl hf
    · right
      refine ⟨m2, e, ?_, ?_⟩
      · rw [hl]
        simp
      · simp only [List.length_append, List.length_cons] at hb ⊢
        omega

theorem shared_never_returns (pre : List Char) (c : Char) (rest : List Char)
    (hpre : ∀ x ∈ pre, x ≠ NUL ∧ x ∉ quoteReject) (hc : c = '"' ∨ c = '\\') (fuel : Nat) :
    (∀ m, log_quoted_string fuel (pre ++ c :: rest) 0 0 ≠ Outcome.returned m) ∧
    ((pre ++ c :: rest).length ≤ fuel →
      log_quoted_string fuel (pre ++ c :: rest) 0 0 = Outcome.fault) := by
  cases fuel with
  | zero =>
    refine ⟨fun m h => (by simp [log_quoted_string, quoteLoop] at h), fun h => ?_⟩
    simp at h
  | succ k =>
    rcases shared_passes pre c rest hpre hc k with hf | ⟨m, e, _, hb⟩
    · rw [hf]
      exact ⟨fun m h => (by cases h), fun _ => rfl⟩
    · rw [e]
      refine ⟨fun m h => (by cases h), fun hlen => ?_⟩
      omega

/-! ## Bytes at an address -/

theorem holds_append (m : Memory) (a : Nat) (l1 l2 : List Char) :
    Holds m a (l1 ++ l2) ↔ Holds m a l1 ∧ Holds m (a + l1.length) l2 := by
  constructor
  · intro h
    refine ⟨?_, ?_⟩
    · intro j c hj
      apply h j c
      have hlt : j < l1.length := by
        by_contra hn
        rw [List.getElem?_eq_none (by omega)] at hj
        cases hj
      rw [List.getElem?_append_left hlt]
      exact hj
    · intro j c hj
      have := h (l1.length + j) c (by
        rw [List.getElem?_append_right (by omega)]
        simpa using hj)
      rw [Nat.add_assoc]
      exact this
  · rintro ⟨h1, h2⟩ j c hj
    by_cases hlt : j < l1.length
    · rw [List.getElem?_append_left hlt] at hj
      exact h1 j c hj
    · rw [List.getElem?_append_right (by omega)] at hj
      have := h2 (j - l1.length) c hj
      have e : a + l1.length + (j - l1.length) = a + j := by omega
      rw [e] at this
      exact this

theorem holds_frame (m m2 : Memory) (a : Nat) (l : List Char)
    (hsame : ∀ k, a ≤ k → k < a + l.length → m2[k]? = m[k]?) (h : Holds m a l) :
    Holds m2 a l := by
  intro j c hj
  have hlt : j < l.length := by
    by_contra hn
    rw [List.getElem?_eq_none (by omega)] at hj
    cases hj
  rw [hsame (a + j) (by omega) (by omega)]
  exact h j c hj

theorem holds_bound (m : Memory) (a : Nat) (l : List Char) (h : Holds m a l) (hl : l ≠ []) :
    a + l.length ≤ m.length := by
  have hpos : 0 < l.length := List.length_pos.mpr hl
  cases hlast : l[l.length - 1]? with
  | none =>
    rw [List.getElem?_eq_none_iff] at hlast
    omega
  | some c =>
    have := h _ _ hlast
    by_contra hn
    rw [List.getElem?_eq_none (by omega)] at this
    cases this

theorem holds_drop (l : List Char) : ∀ (m : Memory) (a : Nat), Holds m a l →
    m.drop a = l ++ m.drop (a + l.length) := by
  induction l with
  | nil => intro m a _; simp
  | cons x l ih =>
    intro m a h
    have h0 : m[a]? = some x := h 0 x (by simp)
    have hlt : a < m.length := by
      by_contra hn
      rw [List.getElem?_eq_none (by omega)] at h0
      cases h0
    have hrest : Holds m (a + 1) l := by
      intro j c hj
      have := h (j + 1) c (by simpa using hj)
      have e : a + 1 + j = a + (j + 1) := by omega
      rw [e]
      exact this
    rw [List.drop_eq_getElem_cons hlt, ih m (a + 1) hrest]
    rw [List.getElem?_eq_getElem hlt] at h0
    have e : a + 1 + l.length = a + (x :: l).length := by simp; omega
    rw [Option.some.inj h0, e]
    rfl

theorem cstring_append (l t : List Char) (hl : NUL ∉ l) : cstring (l ++ NUL :: t) = some l := by
  induction l with
  | nil => simp [cstring]
  | cons x l ih =>
    have hx : x ≠ NUL := fun e => hl (by simp [e])
    have hl2 : NUL ∉ l := fun e => hl (List.mem_cons_of_mem _ e)
    simp [cstring, hx, ih hl2]

/-- The string read at `a` when the bytes `l` and a NUL are there. -/
theorem cstring_of_holds (m : Memory) (a : Nat) (l : List Char) (hl : NUL ∉ l)
    (h : Holds m a (l ++ [NUL])) : cstring (m.drop a) = some l := by
  rw [holds_drop _ m a h, List.append_assoc]
  exact cstring_append l _ hl

theorem memcpy_spec (n : Nat) : ∀ (m : Memory) (dst src : Nat),
    src + n ≤ m.length → dst + n ≤ m.length → (src + n ≤ dst ∨ dst + n ≤ src) →
    ∃ m2, memcpy n m dst src = some m2 ∧ m2.length = m.length ∧
      (∀ j, j < n → m2[dst + j]? = m[src + j]?) ∧
      (∀ k, (k < dst ∨ dst + n ≤ k) → m2[k]? = m[k]?) := by
  induction n with
  | zero =>
    intro m dst src _ _ _
    exact ⟨m, rfl, rfl, fun j hj => by omega, fun _ _ => rfl⟩
  | succ n ih =>
    intro m dst src hs hd hsep
    have hsl : src < m.length := by omega
    have hdl : dst < m.length := by omega
    obtain ⟨m2, e, hl, hcopy, hframe⟩ := ih (m.set dst m[src]) (dst + 1) (src + 1)
      (by rw [List.length_set]; omega) (by rw [List.length_set]; omega) (by omega)
    refine ⟨m2, ?_, by rw [hl, List.length_set], ?_, ?_⟩
    · simp only [memcpy, List.getElem?_eq_getElem hsl, poke_of_lt m dst _ hdl]
      exact e
    · intro j hj
      cases j with
      | zero =>
        rw [Nat.add_zero, Nat.add_zero, hframe dst (Or.inl (by omega)),
          List.getElem?_set_self hdl, List.getElem?_eq_getElem hsl]
      | succ j =>
        have e1 : dst + (j + 1) = dst + 1 + j := by omega
        have e2 : src + (j + 1) = src + 1 + j := by omega
        rw [e1, e2, hcopy j (by omega), List.getElem?_set_ne (by omega)]
    · intro k hk
      rw [hframe k (by omega), List.getElem?_set_ne (by omega)]

theorem plain_run (todo : List Char) :
    ∃ plain tail, todo = plain ++ tail ∧ (∀ x ∈ plain, x ∉ quoteReject) ∧
      (tail = [] ∨ ∃ c r, tail = c :: r ∧ c ∈ quoteReject) := by
  induction todo with
  | nil => exact ⟨[], [], rfl, by simp, Or.inl rfl⟩
  | cons x todo ih =>
    by_cases hx : x ∈ quoteReject
    · exact ⟨[], x :: todo, rfl, by simp, Or.inr ⟨x, todo, rfl, hx⟩⟩
    · obtain ⟨plain, tail, e, hp, ht⟩ := ih
      refine ⟨x :: plain, tail, by rw [e]; rfl, ?_, ht⟩
      intro y hy
      rcases List.mem_cons.mp hy with h | h
      · rw [h]; exact hx
      · exact hp y h

/-! ## Quoting into a buffer of its own -/

theorem escaped_le (l : List Char) : (l.flatMap escapeChar).length ≤ 2 * l.length := by
  have h1 := escaped_length l
  have h2 := List.countP_le_length (fun c => decide (c ∈ quoteReject)) (l := l)
  omega

theorem escaped_no_nul (l : List Char) (h : NUL ∉ l) : NUL ∉ l.flatMap escapeChar := by
  intro hmem
  rw [List.mem_flatMap] at hmem
  obtain ⟨x, hx, hin⟩ := hmem
  have hxn : x ≠ NUL := fun e => h (e ▸ hx)
  by_cases hr : x ∈ quoteReject
  · have hall : ∀ d ∈ escapeChar x, d ≠ NUL := by
      simp only [quoteReject, List.mem_cons, List.mem_singleton, List.not_mem_nil,
        or_false] at hr
      rcases hr with hr | hr | hr | hr | hr <;> subst hr <;> decide
    exact hall NUL hin rfl
  · rw [escapeChar_plain x hr, List.mem_singleton] at hin
    exact hxn hin.symm

/-- An escaping case of the switch, when the two bytes at `p` are inside the
memory and apart from `*str`: the two characters of the escape are written. -/
theorem escape_case (m1 : Memory) (str p : Nat) (c : Char) (hc : c ∈ quoteReject)
    (hread : m1[str]? = some c) (hp : p + 1 < m1.length) (hne : str ≠ p) :
    ∃ e, escapeChar c = ['\\', e] ∧
      (if c = NUL then Outcome.running m1 str p
        else if c = '\r' then escapeWith m1 str p 'r'
        else if c = '\n' then escapeWith m1 str p 'n'
        else if c = '\t' then escapeWith m1 str p 't'
        else escapeDefault m1 str p)
        = Outcome.running ((m1.set p '\\').set (p + 1) e) (str + 1) (p + 2) := by
  have hp0 : p < m1.length := by omega
  have hp1 : p + 1 < (m1.set p '\\').length := by rw [List.length_set]; exact hp
  have hr2 : (m1.set p '\\')[str]? = some c := by
    rw [List.getElem?_set_ne (fun e => hne e.symm)]
    exact hread
  simp only [quoteReject, List.mem_cons, List.mem_singleton, List.not_mem_nil, or_false] at hc
  rcases hc with hc | hc | hc | hc | hc <;> subst hc
  · refine ⟨'"', by decide, ?_⟩
    have n0 : ¬ ('"' : Char) = NUL := by decide
    have n1 : ¬ ('"' : Char) = '\r' := by decide
    have n2 : ¬ ('"' : Char) = '\n' := by decide
    have n3 : ¬ ('"' : Char) = '\t' := by decide
    simp only [n0, n1, n2, n3, if_false, escapeDefault, poke_of_lt m1 p _ hp0, hr2,
      poke_of_lt _ (p + 1) _ hp1]
  · refine ⟨'\\', by decide, ?_⟩
    have n0 : ¬ ('\\' : Char) = NUL := by decide
    have n1 : ¬ ('\\' : Char) = '\r' := by decide
    have n2 : ¬ ('\\' : Char) = '\n' := by decide
    have n3 : ¬ ('\\' : Char) = '\t' := by decide
    simp only [n0, n1, n2, n3, if_false, escapeDefault, poke_of_lt m1 p _ hp0, hr2,
      poke_of_lt _ (p + 1) _ hp1]
  · refine ⟨'r', by decide, ?_⟩
    have n0 : ¬ ('\r' : Char) = NUL := by decide
    simp only [n0, if_false, if_true, escapeWith, poke_of_lt m1 p _ hp0,
      poke_of_lt _ (p + 1) _ hp1]
  · refine ⟨'n', by decide, ?_⟩
    have n0 : ¬ ('\n' : Char) = NUL := by decide
    have n1 : ¬ ('\n' : Char) = '\r' := by decide
    simp only [n0, n1, if_false, if_true, escapeWith, poke_of_lt m1 p _ hp0,
      poke_of_lt _ (p + 1) _ hp1]
  · refine ⟨'t', by decide, ?_⟩
    have n0 : ¬ ('\t' : Char) = NUL := by decide
    have n1 : ¬ ('\t' : Char) = '\r' := by decide
    have n2 : ¬ ('\t' : Char) = '\n' := by decide
    simp only [n0, n1, n2, if_false, if_true, escapeWith, poke_of_lt m1 p _ hp0,
      poke_of_lt _ (p + 1) _ hp1]

theorem quoteStep_body (m m1 : Memory) (str p l : Nat) (t stop : Char)
    (h0 : m[str]? = some t) (ht : t ≠ NUL)
    (hsp : strcspn quoteReject (m.drop str) = some l)
    (hcp : memcpy l m p str = some m1) (hstop : m1[str + l]? = some stop) :
    quoteStep m str p
      = (if stop = NUL then Outcome.running m1 (str + l) (p + l)
          else if stop = '\r' then escapeWith m1 (str + l) (p + l) 'r'
          else if stop = '\n' then escapeWith m1 (str + l) (p + l) 'n'
          else if stop = '\t' then escapeWith m1 (str + l) (p + l) 't'
          else escapeDefault m1 (str + l) (p + l)) := by
  unfold quoteStep
  simp only [h0, ht, if_false, hsp, hcp, hstop]

theorem quoteStep_end (m : Memory) (str p : Nat) (h0 : m[str]? = some NUL)
    (hp : p < m.length) : quoteStep m str p = Outcome.returned (m.set p NUL) := by
  unfold quoteStep
  simp only [h0, if_true, poke_of_lt m p _ hp]

theorem holds_two (m : Memory) (p : Nat) (x y : Char) (hp : p + 1 < m.length) :
    Holds ((m.set p x).set (p + 1) y) p [x, y] := by
  intro j c hj
  have hl : (m.set p x).length = m.length := List.length_set _ _ _
  match j with
  | 0 =>
    simp only [List.getElem?_cons_zero, Option.some.injEq] at hj
    subst hj
    have e0 : p + 0 = p := rfl
    rw [e0, List.getElem?_set_ne (by omega), List.getElem?_set_self (by omega)]
  | 1 =>
    simp only [List.getElem?_cons_succ, List.getElem?_cons_zero, Option.some.injEq] at hj
    subst hj
    rw [List.getElem?_set_self (by omega)]
  | j + 2 => simp at hj

/-- The loop on an output buffer that does not overlap the input, from any
point of the input on: it returns, with the escape of the whole input and a NUL
in the output buffer and nothing written outside that buffer. -/
theorem separate_loop (mem : Memory) (a b : Nat) (s : List Char) (hs : NUL ∉ s)
    (hout : b + out_len s.length ≤ mem.length)
    (hsep : a + s.length + 1 ≤ b ∨ b + out_len s.length ≤ a) (fuel : Nat) :
    ∀ (done todo : List Char) (m : Memory), s = done ++ todo → todo.length + 1 ≤ fuel →
      m.length = mem.length → Holds m a (s ++ [NUL]) →
      Holds m b (done.flatMap escapeChar) →
      (∀ k, (k < b ∨ b + out_len s.length ≤ k) → m[k]? = mem[k]?) →
      ∃ m2, quoteLoop fuel m (a + done.length) (b + (done.flatMap escapeChar).length)
          = Outcome.returned m2 ∧ m2.length = mem.length ∧
        Holds m2 b (s.flatMap escapeChar ++ [NUL]) ∧
        (∀ k, (k < b ∨ b + out_len s.length ≤ k) → m2[k]? = mem[k]?) := by
  unfold out_len at hout hsep ⊢
  induction fuel with
  | zero => intro _ todo _ _ h; omega
  | succ fuel ih =>
    intro done todo m hsplit hfuel hlen hin hso hframe
    have hol : (done.flatMap escapeChar).length ≤ 2 * done.length := escaped_le done
    have hn : s.length = done.length + todo.length := by rw [hsplit, List.length_append]
    have hinb : a + (s.length + 1) ≤ m.length := by
      have := holds_bound m a (s ++ [NUL]) hin (by simp)
      simpa using this
    cases todo with
    | nil =>
      have hds : done = s := by rw [hsplit]; simp
      have h0 : m[a + done.length]? = some NUL := by
        apply hin
        rw [hds, List.getElem?_append_right (Nat.le_refl _)]
        simp
      have hp : b + (done.flatMap escapeChar).length < m.length := by
        simp only [List.length_nil] at hn
        omega
      refine ⟨m.set (b + (done.flatMap escapeChar).length) NUL, ?_,
        (List.length_set _ _ _).trans hlen, ?_, ?_⟩
      · simp only [quoteLoop, quoteStep_end m _ _ h0 hp]
      · rw [← hds, holds_append]
        refine ⟨?_, ?_⟩
        · apply holds_frame m _ b _ _ hso
          intro k _ hk2
          rw [List.getElem?_set_ne (by omega)]
        · intro j c hj
          match j with
          | 0 =>
            simp only [List.getElem?_cons_zero, Option.some.injEq] at hj
            subst hj
            exact List.getElem?_set_self hp
          | j + 1 => simp at hj
      · intro k hk
        simp only [List.length_nil] at hn
        rw [List.getElem?_set_ne (by omega)]
        exact hframe k hk
    | cons t ts =>
      obtain ⟨plain, tail, htodo, hplain, htail⟩ := plain_run (t :: ts)
      have hts : (t :: ts).length = plain.length + tail.length := by
        rw [htodo, List.length_append]
      simp only [List.length_cons] at hfuel hts hn
      -- the bytes from the read pointer on
      have hsrc : Holds m (a + done.length) (plain ++ (tail ++ [NUL])) := by
        have h1 : s ++ [NUL] = done ++ (plain ++ (tail ++ [NUL])) := by
          rw [hsplit, htodo]
          simp
        rw [h1] at hin
        exact ((holds_append m a done _).mp hin).2
      have hplainS : ∀ x ∈ plain, x ∈ s := by
        intro x hx
        rw [hsplit, htodo]
        simp [hx]
      have hplainN : ∀ x ∈ plain, x ≠ NUL ∧ x ∉ quoteReject :=
        fun x hx => ⟨fun e => hs (e ▸ hplainS x hx), hplain x hx⟩
      have htS : t ∈ s := by rw [hsplit]; simp
      have ht : t ≠ NUL := fun e => hs (e ▸ htS)
      have h0 : m[a + done.length]? = some t := by
        apply hin
        rw [hsplit, List.append_assoc, List.getElem?_append_right (Nat.le_refl _)]
        simp
      -- the copy of the plain characters
      have hcopy := memcpy_spec plain.length m (b + (done.flatMap escapeChar).length)
        (a + done.length) (by omega) (by omega) (by omega)
      obtain ⟨m1, hcp, hl1, hc1, hf1⟩ := hcopy
      have hin1 : Holds m1 a (s ++ [NUL]) := by
        apply holds_frame m m1 a _ _ hin
        intro k hk1 hk2
        simp only [List.length_append, List.length_singleton] at hk2
        exact hf1 k (by omega)
      have hso1 : Holds m1 b (done.flatMap escapeChar ++ plain) := by
        rw [holds_append]
        refine ⟨?_, ?_⟩
        · apply holds_frame m m1 b _ _ hso
          intro k _ hk2
          exact hf1 k (Or.inl hk2)
        · intro j c hj
          have hj2 : j < plain.length := by
            by_contra hn2
            rw [List.getElem?_eq_none (by omega)] at hj
            cases hj
          rw [hc1 j hj2]
          apply hsrc
          rw [List.getElem?_append_left hj2]
          exact hj
      have hfr1 : ∀ k, (k < b ∨ b + (s.length * 2 + 1) ≤ k) → m1[k]? = mem[k]? := by
        intro k hk
        rw [hf1 k (by omega)]
        exact hframe k hk
      have hesc : (done ++ plain).flatMap escapeChar = done.flatMap escapeChar ++ plain := by
        rw [List.flatMap_append, escape_plain plain hplain]
      rcases htail with htail | ⟨c, r, htail, hc⟩
      · -- the plain characters end the string
        subst htail
        simp only [List.length_nil, Nat.add_zero] at hts
        simp only [List.nil_append] at hsrc
        have hstop : m1[a + done.length + plain.length]? = some NUL := by
          have e : a + done.length + plain.length = a + s.length := by
            omega
          rw [e]
          apply hin1
          rw [List.getElem?_append_right (Nat.le_refl _)]
          simp
        have hsp : strcspn quoteReject (m.drop (a + done.length)) = some plain.length := by
          rw [holds_drop _ m _ hsrc, List.append_assoc]
          exact strcspn_plain plain NUL _ hplainN (Or.inl rfl)
        have hstep := quoteStep_body m m1 _ _ _ t NUL h0 ht hsp hcp hstop
        simp only [if_true] at hstep
        have hs2 : s = (done ++ plain) ++ [] := by
          rw [hsplit, htodo]
          simp
        obtain ⟨m2, e2, r2, r3, r4⟩ := ih (done ++ plain) [] m1 hs2
          (by simp only [List.length_nil]; omega) (hl1.trans hlen) hin1
          (by rw [hesc]; exact hso1) hfr1
        refine ⟨m2, ?_, r2, r3, r4⟩
        simp only [quoteLoop, hstep]
        rw [hesc, List.length_append, List.length_append, ← Nat.add_assoc, ← Nat.add_assoc]
          at e2
        exact e2
      · -- a character to escape follows
        subst htail
        simp only [List.length_cons] at hts
        have hcS : c ∈ s := by
          rw [hsplit, htodo]
          simp
        have hcn : c ≠ NUL := fun e => hs (e ▸ hcS)
        have hstop0 : m[a + done.length + plain.length]? = some c := by
          apply hsrc
          rw [List.getElem?_append_right (Nat.le_refl _)]
          simp
        have hstop : m1[a + done.length + plain.length]? = some c := by
          rw [hf1 _ (by omega)]
          exact hstop0
        have hsp : strcspn quoteReject (m.drop (a + done.length)) = some plain.length := by
          rw [holds_drop _ m _ hsrc, List.append_assoc]
          exact strcspn_plain plain c _ hplainN (Or.inr hc)
        have hstep := quoteStep_body m m1 _ _ _ t c h0 ht hsp hcp hstop
        obtain ⟨e, hee, hcase⟩ := escape_case m1 (a + done.length + plain.length)
          (b + (done.flatMap escapeChar).length + plain.length) c hc hstop
          (by rw [hl1]; omega) (by omega)
        rw [hcase] at hstep
        have hs2 : s = (done ++ plain ++ [c]) ++ r := by
          rw [hsplit, htodo]
          simp
        have hesc2 : (done ++ plain ++ [c]).flatMap escapeChar
            = done.flatMap escapeChar ++ plain ++ ['\\', e] := by
          rw [List.flatMap_append, hesc]
          simp [List.flatMap_cons, hee]
        have hp1 : b + (done.flatMap escapeChar).length + plain.length + 1 < m1.length := by
          rw [hl1]; omega
        obtain ⟨m2, e2, r2, r3, r4⟩ := ih (done ++ plain ++ [c]) r
          ((m1.set (b + (done.flatMap escapeChar).length + plain.length) '\\').set
            (b + (done.flatMap escapeChar).length + plain.length + 1) e) hs2
          (by omega) (by rw [List.length_set, List.length_set, hl1]; exact hlen)
          (by
            apply holds_frame m1 _ a _ _ hin1
            intro k hk1 hk2
            simp only [List.length_append, List.length_singleton] at hk2
            rw [List.getElem?_set_ne (by omega), List.getElem?_set_ne (by omega)])
          (by
            rw [hesc2, holds_append]
            refine ⟨?_, ?_⟩
            · apply holds_frame m1 _ b _ _ hso1
              intro k _ hk2
              simp only [List.length_append] at hk2
              rw [List.getElem?_set_ne (by omega), List.getElem?_set_ne (by omega)]
            · have := holds_two m1 (b + (done.flatMap escapeChar).length + plain.length)
                '\\' e hp1
              simpa [Nat.add_assoc] using this)
          (by
            intro k hk
            rw [List.getElem?_set_ne (by omega), List.getElem?_set_ne (by omega)]
            exact hfr1 k hk)
        refine ⟨m2, ?_, r2, r3, r4⟩
        simp only [quoteLoop, hstep]
        have ea : a + (done ++ plain ++ [c]).length = a + done.length + plain.length + 1 := by
          simp only [List.length_append, List.length_singleton]; omega
        have eb : b + ((done ++ plain ++ [c]).flatMap escapeChar).length
            = b + (done.flatMap escapeChar).length + plain.length + 2 := by
          rw [hesc2]
          simp only [List.length_append, List.length_cons, List.length_nil]; omega
        rw [ea, eb] at e2
        exact e2

/-- With an output buffer of `strlen * 2 + 1` bytes that does not overlap the
input string, `log_quoted_string` returns within `strlen + 1` passes of its
loop; it has written nothing outside the output buffer, the input is as it was,
and the output buffer holds the escape of the input, character by character,
which is at most twice as long and is taken back to the input by unescaping. -/
theorem log_quoted_string_separate (mem : Memory) (a b : Nat) (s : List Char) (hs : NUL ∉ s)
    (hin : Holds mem a (s ++ [NUL]))
    (hout : b + out_len s.length ≤ mem.length)
    (hsep : a + s.length + 1 ≤ b ∨ b + out_len s.length ≤ a) :
    ∃ m, log_quoted_string (s.length + 1) mem a b = Outcome.returned m ∧
      m.length = mem.length ∧
      (∀ k, (k < b ∨ b + out_len s.length ≤ k) → m[k]? = mem[k]?) ∧
      cstring (m.drop a) = some s ∧
      cstring (m.drop b) = some (s.flatMap escapeChar) ∧
      (s.flatMap escapeChar).length ≤ 2 * s.length ∧
      unescape (s.flatMap escapeChar) = s := by
  obtain ⟨m, e, hl, ho, hf⟩ := separate_loop mem a b s hs hout hsep (s.length + 1) [] s mem
    rfl (Nat.le_refl _) rfl hin (by intro j c hj; simp at hj) (fun _ _ => rfl)
  refine ⟨m, ?_, hl, hf, ?_, ?_, escaped_le s, unescape_escaped s⟩
  · simpa [log_quoted_string] using e
  · apply cstring_of_holds m a s hs
    apply holds_frame mem m a _ _ hin
    intro k hk1 hk2
    simp only [List.length_append, List.length_singleton] at hk2
    unfold out_len at hsep
    exact hf k (by unfold out_len; omega)
  · exact cstring_of_holds m b _ (escaped_no_nul s hs) ho

theorem cstring_split (l : List Char) : ∀ s, cstring l = some s →
    NUL ∉ s ∧ ∃ t, l = s ++ NUL :: t := by
  induction l with
  | nil => intro s h; simp [cstring] at h
  | cons x l ih =>
    intro s h
    by_cases hx : x = NUL
    · simp [cstring, hx] at h
      subst h
      exact ⟨by simp, l, by rw [hx]; rfl⟩
    · simp only [cstring, hx, if_false, Option.map_eq_some'] at h
      obtain ⟨s2, h2, e⟩ := h
      obtain ⟨hn, t, ht⟩ := ih s2 h2
      subst e
      refine ⟨?_, t, by rw [ht]; rfl⟩
      intro hm
      rcases List.mem_cons.mp hm with h3 | h3
      · exact hx h3.symm
      · exact hn h3

theorem holds_front (l t : List Char) : Holds (l ++ t) 0 l := by
  intro j c hj
  have hlt : j < l.length := by
    by_contra hn
    rw [List.getElem?_eq_none (by omega)] at hj
    cases hj
  rw [Nat.zero_add, List.getElem?_append_left hlt]
  exact hj

/-- The other way through the same arm of Format::assemble: when strlen*2+1
reaches sizeof(tmp) the output goes to a block of its own, and the call
returns with the escape of the value in that block. -/
theorem quoteTmp_in_block (tmp block s : List Char) (hs : cstring tmp = some s)
    (hbig : tmp.length ≤ out_len s.length) (hblock : block.length = out_len s.length) :
    ∃ m, quoteTmp (s.length + 1) tmp block = Outcome.returned m ∧
      cstring (m.drop tmp.length) = some (s.flatMap escapeChar) ∧
      (∀ k, k < tmp.length → m[k]? = tmp[k]?) := by
  obtain ⟨hnul, t, ht⟩ := cstring_split tmp s hs
  have hin : Holds (tmp ++ block) 0 (s ++ [NUL]) := by
    have e : tmp ++ block = (s ++ [NUL]) ++ (t ++ block) := by
      rw [ht]
      simp
    rw [e]
    exact holds_front _ _
  have hlen : tmp.length = s.length + 1 + t.length := by
    rw [ht]
    simp
    omega
  obtain ⟨m, e, _, hf, _, ho, _⟩ := log_quoted_string_separate (tmp ++ block) 0 tmp.length s
    hnul hin (by rw [List.length_append, hblock]) (Or.inl (by omega))
  refine ⟨m, ?_, ho, ?_⟩
  · unfold quoteTmp strlen
    rw [hs]
    simp only [Option.map_some', ge_iff_le, hbig, if_true]
    exact e
  · intro k hk
    rw [hf k (Or.inl hk), List.getElem?_append_left hk]

/-- C28: the arm of Format::assemble that quotes a value sitting in tmp hands
tmp to log_quoted_string as input and as output whenever strlen*2+1 is below
sizeof(tmp).  If the value has a double quote or a backslash before any other
character to escape, the call never returns: after every pass of the loop it
has either been stopped by a write beyond tmp or is still running, the write
pointer two bytes further for each pass made, so past the strlen*2+1 bytes
counted for the output; and within as many passes as tmp has bytes it writes
beyond tmp. -/
theorem quote_in_tmp_overruns (tmp block pre : List Char) (c : Char) (rest : List Char)
    (n : Nat) (htmp : tmp = pre ++ c :: rest)
    (hpre : ∀ x ∈ pre, x ≠ NUL ∧ x ∉ quoteReject) (hc : c = '"' ∨ c = '\\')
    (hn : strlen tmp = some n) (hfit : out_len n < tmp.length) :
    (∀ fuel m, quoteTmp fuel tmp block ≠ Outcome.returned m) ∧
    (∀ fuel, tmp.length ≤ fuel → quoteTmp fuel tmp block = Outcome.fault) ∧
    (∀ k, quoteTmp (k + 1) tmp block = Outcome.fault ∨
      ∃ m, quoteTmp (k + 1) tmp block
        = Outcome.running m (pre.length + 1 + k) (pre.length + 2 + 2 * k)) := by
  have hq : ∀ fuel, quoteTmp fuel tmp block = log_quoted_string fuel (pre ++ c :: rest) 0 0 := by
    intro fuel
    unfold quoteTmp
    rw [hn]
    simp only [ge_iff_le, Nat.not_le.mpr hfit, if_false]
    rw [htmp]
  refine ⟨?_, ?_, ?_⟩
  · intro fuel m
    rw [hq]
    exact (shared_never_returns pre c rest hpre hc fuel).1 m
  · intro fuel hf
    rw [hq]
    exact (shared_never_returns pre c rest hpre hc fuel).2 (by rw [← htmp]; exact hf)
  · intro k
    rw [hq]
    rcases shared_passes pre c rest hpre hc k with hf | ⟨m, e, _, _⟩
    · exact Or.inl hf
    · exact Or.inr ⟨m, e⟩

/-- C28, witnessed on a 12-byte tmp holding `a"b`, for which 7 bytes are
counted: after four passes the bytes at 7 and 8 have been written and the
write pointer is at 9; the call ends in a write beyond tmp. -/
theorem quote_in_tmp_overruns_witness :
    strlen exTmp = some 3 ∧ out_len 3 < exTmp.length ∧
    quoteTmp 12 exTmp [] = Outcome.fault ∧
    quoteTmp 4 exTmp []
      = Outcome.running ['a', '\\', '\\', '\\', '\\', '\\', '\\', '\\', '\\', NUL, NUL, NUL]
          5 9 :=
  ⟨by decide, by decide,
    (quote_in_tmp_overruns exTmp [] ['a'] '"' ['b', NUL, NUL, NUL, NUL, NUL, NUL, NUL, NUL, NUL]
      3 rfl (by decide) (Or.inl rfl) (by decide) (by decide)).2.1 12 (by decide),
    by decide⟩

/-- C29: when log_quoted_string is given one buffer as input and as output, as
Format::assemble gives it tmp, the first double quote or backslash is not
escaped but lost: the backslash written for it takes its place, and that
backslash, read back, takes the place of the character after it.  Two values
that differ in those two characters leave the same memory and the same
pointers after the first pass, so whatever the call does from there on is the
same for both; and it never returns. -/
theorem quote_in_tmp_forgets (pre : List Char) (c1 c2 x y : Char) (rest : List Char)
    (hpre : ∀ x ∈ pre, x ≠ NUL ∧ x ∉ quoteReject)
    (hc1 : c1 = '"' ∨ c1 = '\\') (hc2 : c2 = '"' ∨ c2 = '\\') (fuel : Nat) :
    log_quoted_string 1 (pre ++ c1 :: x :: rest) 0 0
      = Outcome.running (pre ++ '\\' :: '\\' :: rest) (pre.length + 1) (pre.length + 2) ∧
    log_quoted_string (fuel + 1) (pre ++ c1 :: x :: rest) 0 0
      = log_quoted_string (fuel + 1) (pre ++ c2 :: y :: rest) 0 0 ∧
    (∀ m, log_quoted_string fuel (pre ++ c1 :: x :: rest) 0 0 ≠ Outcome.returned m) := by
  have h1 := shared_first_pass pre c1 (x :: rest) hpre hc1
  have h2 := shared_first_pass pre c2 (y :: rest) hpre hc2
  simp only [] at h1 h2
  refine ⟨?_, ?_, (shared_never_returns pre c1 (x :: rest) hpre hc1 fuel).1⟩
  · simp only [log_quoted_string, quoteLoop, h1]
  · simp only [log_quoted_string, quoteLoop, h1, h2]

/-- C29, witnessed on the values `"a` and `\b` in an 8-byte buffer: the same
outcome for both, which is a write beyond the buffer. -/
theorem quote_in_tmp_forgets_witness :
    log_quoted_string 8 ([] ++ '"' :: 'a' :: [NUL, NUL, NUL, NUL, NUL, NUL]) 0 0
      = log_quoted_string 8 ([] ++ '\\' :: 'b' :: [NUL, NUL, NUL, NUL, NUL, NUL]) 0 0 ∧
    log_quoted_string 8 ([] ++ '"' :: 'a' :: [NUL, NUL, NUL, NUL, NUL, NUL]) 0 0
      = Outcome.fault :=
  ⟨(quote_in_tmp_forgets [] '"' '\\' 'a' 'b' [NUL, NUL, NUL, NUL, NUL, NUL]
      (by simp) (Or.inl rfl) (Or.inr rfl) 7).2.1,
    by decide⟩

end Format

namespace Rfc1123

/-! ## The calendar -/

theorem make_month_cons (x y z : Char) (rest : CStr) :
    make_month (x :: y :: z :: rest) = make_month [x, y, z] := rfl

theorem strchr_skip (w : CStr) (c : Char) (rest : CStr) (h : c ∉ w) :
    strchr (w ++ c :: rest) c = some (c :: rest) := by
  induction w with
  | nil => simp [strchr]
  | cons x w ih =>
    have hx : x ≠ c := fun e => h (by simp [e])
    have hw : c ∉ w := fun e => h (List.mem_cons_of_mem _ e)
    simp [strchr, hx, ih hw]

theorem strchr_isSome (s : CStr) (c : Char) : (strchr s c).isSome = true ↔ c ∈ s := by
  induction s with
  | nil => simp [strchr]
  | cons x s ih =>
    by_cases hx : x = c
    · simp [strchr, hx]
    · have hx2 : ¬ c = x := fun e => hx e.symm
      simp [strchr, hx, hx2, ih]

theorem strchr_none (s : CStr) (c : Char) (h : c ∉ s) : strchr s c = none := by
  cases hs : strchr s c with
  | none => rfl
  | some p =>
    have : (strchr s c).isSome = true := by rw [hs]; rfl
    exact absurd ((strchr_isSome s c).mp this) h

theorem skipSpaces_replicate (k : Nat) (x : Char) (rest : CStr) (hx : x ≠ ' ') :
    skipSpaces (List.replicate k ' ' ++ x :: rest) = x :: rest := by
  induction k with
  | zero => simp [skipSpaces, hx]
  | succ k ih => simp [List.replicate_succ, skipSpaces, ih]

/-- A date with a comma: what follows the comma and the spaces after it is
read in the first format when it holds a `-`, else in the second. -/
theorem parse_comma (toTime : tm → Int) (w : CStr) (k : Nat) (a0 : Char) (t : CStr)
    (hw : ',' ∉ w) (ha : a0 ≠ ' ') :
    parse_rfc1123 toTime (some (w ++ ',' :: (List.replicate k ' ' ++ a0 :: t)))
      = if '-' ∈ a0 :: t then
          (if (((a0 :: t).length : Nat) : Int) < 18 then -1
            else finish toTime (fieldsRfc850 (a0 :: t)))
        else
          (if (((a0 :: t).length : Nat) : Int) < 20 then -1
            else finish toTime (fieldsRfc1123 (a0 :: t))) := by
  unfold parse_rfc1123
  simp only [strchr_skip w ',' _ hw, List.drop_succ_cons, List.drop_zero,
    skipSpaces_replicate k a0 t ha]
  by_cases hd : '-' ∈ a0 :: t
  · have h1 : (strchr (a0 :: t) '-').isSome = true := (strchr_isSome _ _).mpr hd
    simp only [h1, if_true, hd]
  · have h1 : strchr (a0 :: t) '-' = none := strchr_none _ _ hd
    simp only [h1, hd, if_false, Option.isSome_none, Bool.false_eq_true]

/-- A date without a comma is read in the third format. -/
theorem parse_no_comma (toTime : tm → Int) (k : Nat) (b0 : Char) (t : CStr)
    (hc : ',' ∉ b0 :: t) (hb : b0 ≠ ' ') :
    parse_rfc1123 toTime (some (List.replicate k ' ' ++ b0 :: t))
      = if (((b0 :: t).length : Nat) : Int) < 24 then -1
        else finish toTime (fieldsAsctime (b0 :: t)) := by
  have hn : ',' ∉ List.replicate k ' ' ++ b0 :: t := by
    intro h
    rcases List.mem_append.mp h with h | h
    · have := List.eq_of_mem_replicate h
      exact absurd this (by decide)
    · exact hc h
  unfold parse_rfc1123
  simp only [strchr_none _ _ hn, skipSpaces_replicate k b0 t hb]

/-! ## A month that is no month -/

theorem make_month_garbage (m0 m1 m2 : Char) (rest : CStr)
    (hkey : monthKey [m0, m1, m2] ∉ month_names) :
    make_month (m0 :: m1 :: m2 :: rest) = 0 := by
  rw [make_month_cons]
  unfold make_month
  have h : month_names.indexOf? (monthKey [m0, m1, m2]) = none := by
    unfold List.indexOf?
    rw [List.findIdx?_eq_none_iff]
    intro x hx
    simp only [beq_eq_false_iff_ne, ne_eq]
    intro e
    exact hkey (e ▸ hx)
  rw [h]

theorem make_month_jan (rest : CStr) : make_month ('J' :: 'a' :: 'n' :: rest) = 0 := by
  rw [make_month_cons]
  decide

/-- C27, as the code has it: make_month returns 0 (the index of January) for
every three characters that match none of the twelve month names after case
normalisation.  parse_rfc1123 then reads the date as if the month were Jan,
whatever conversion the build uses, provided the three characters do not change
how the format is told: a date with a comma whose garbage month holds no `-`,
and a date without a comma whose garbage month holds no comma, parse to the
same result as the same date with the month Jan. -/
theorem garbage_month_reads_as_january (toTime : tm → Int) (m0 m1 m2 : Char)
    (hkey : monthKey [m0, m1, m2] ∉ month_names) :
    (∀ rest, make_month (m0 :: m1 :: m2 :: rest) = 0) ∧
    ('-' ∉ [m0, m1, m2] →
      ∀ (w : CStr) (k : Nat) (a0 a1 a2 : Char) (rest : CStr), ',' ∉ w → a0 ≠ ' ' →
        parse_rfc1123 toTime (some (w ++ ',' ::
          (List.replicate k ' ' ++ a0 :: a1 :: a2 :: m0 :: m1 :: m2 :: rest)))
        = parse_rfc1123 toTime (some (w ++ ',' ::
          (List.replicate k ' ' ++ a0 :: a1 :: a2 :: 'J' :: 'a' :: 'n' :: rest)))) ∧
    (',' ∉ [m0, m1, m2] →
      ∀ (k : Nat) (b0 b1 b2 b3 : Char) (rest : CStr),
        ',' ∉ b0 :: b1 :: b2 :: b3 :: rest → b0 ≠ ' ' →
        parse_rfc1123 toTime (some
          (List.replicate k ' ' ++ b0 :: b1 :: b2 :: b3 :: m0 :: m1 :: m2 :: rest))
        = parse_rfc1123 toTime (some
          (List.replicate k ' ' ++ b0 :: b1 :: b2 :: b3 :: 'J' :: 'a' :: 'n' :: rest))) := by
  refine ⟨fun rest => make_month_garbage m0 m1 m2 rest hkey, ?_, ?_⟩
  · intro hdash w k a0 a1 a2 rest hw ha
    rw [parse_comma toTime w k a0 _ hw ha, parse_comma toTime w k a0 _ hw ha]
    have hg := make_month_garbage m0 m1 m2 rest hkey
    have hj := make_month_jan rest
    have e1 : fieldsRfc850 (a0 :: a1 :: a2 :: m0 :: m1 :: m2 :: rest)
        = fieldsRfc850 (a0 :: a1 :: a2 :: 'J' :: 'a' :: 'n' :: rest) := by
      simp only [fieldsRfc850, List.drop_succ_cons, List.drop_zero, hg, hj]
      rfl
    have e2 : fieldsRfc1123 (a0 :: a1 :: a2 :: m0 :: m1 :: m2 :: rest)
        = fieldsRfc1123 (a0 :: a1 :: a2 :: 'J' :: 'a' :: 'n' :: rest) := by
      simp only [fieldsRfc1123, List.drop_succ_cons, List.drop_zero, hg, hj]
      rfl
    have e3 : ('-' ∈ a0 :: a1 :: a2 :: m0 :: m1 :: m2 :: rest)
        ↔ ('-' ∈ a0 :: a1 :: a2 :: 'J' :: 'a' :: 'n' :: rest) := by
      simp only [List.mem_cons, List.mem_singleton, List.not_mem_nil, or_false, not_or]
        at hdash
      obtain ⟨h0, h1, h2⟩ := hdash
      simp [h0, h1, h2]
    rw [e1, e2]
    simp only [e3, List.length_cons]
  · intro hcomma k b0 b1 b2 b3 rest hc hb
    simp only [List.mem_cons, List.mem_singleton, List.not_mem_nil, or_false, not_or]
      at hcomma hc
    obtain ⟨h0, h1, h2⟩ := hcomma
    obtain ⟨c0, c1, c2, c3, c4⟩ := hc
    rw [parse_no_comma toTime k b0 _ (by simp [c0, c1, c2, c3, c4, h0, h1, h2]) hb,
      parse_no_comma toTime k b0 _ (by simp [c0, c1, c2, c3, c4]) hb]
    have hg := make_month_garbage m0 m1 m2 rest hkey
    have hj := make_month_jan rest
    have e1 : fieldsAsctime (b0 :: b1 :: b2 :: b3 :: m0 :: m1 :: m2 :: rest)
        = fieldsAsctime (b0 :: b1 :: b2 :: b3 :: 'J' :: 'a' :: 'n' :: rest) := by
      simp only [fieldsAsctime, List.drop_succ_cons, List.drop_zero, hg, hj]
    rw [e1]
    simp only [List.length_cons]

/-- C27, witnessed on a date of the second format with the month Xyz: it
parses to 0, as the 1st of January 1970 does. -/
theorem garbage_month_reads_as_january_witness :
    make_month ['X', 'y', 'z'] = 0 ∧
    parse_rfc1123 timegm (some (['T', 'h', 'u'] ++ ',' :: (List.replicate 1 ' ' ++
      '0' :: '1' :: ' ' :: 'X' :: 'y' :: 'z' ::
        [' ', '1', '9', '7', '0', ' ', '0', '0', ':', '0', '0', ':', '0', '0', ' ', 'G', 'M',
          'T'])))
      = parse_rfc1123 timegm (some (['T', 'h', 'u'] ++ ',' :: (List.replicate 1 ' ' ++
      '0' :: '1' :: ' ' :: 'J' :: 'a' :: 'n' ::
        [' ', '1', '9', '7', '0', ' ', '0', '0', ':', '0', '0', ':', '0', '0', ' ', 'G', 'M',
          'T']))) ∧
    parse_rfc1123 timegm (some (['T', 'h', 'u'] ++ ',' :: (List.replicate 1 ' ' ++
      '0' :: '1' :: ' ' :: 'J' :: 'a' :: 'n' ::
        [' ', '1', '9', '7', '0', ' ', '0', '0', ':', '0', '0', ':', '0', '0', ' ', 'G', 'M',
          'T']))) = 0 :=
  ⟨(garbage_month_reads_as_january timegm 'X' 'y' 'z' (by decide)).1 [],
    (garbage_month_reads_as_january timegm 'X' 'y' 'z' (by decide)).2.1 (by decide)
      ['T', 'h', 'u'] 1 '0' '1' ' ' _ (by decide) (by decide),
    by decide⟩

/-- C27 refuted: the three characters J-n match no month name and make_month
returns 0 for them, yet the date `Thu, 01 J-n 1970 00:00:00 GMT`, valid in
every other field, parses to -1 (the `-` has it read in the first format),
while the same date in January parses to 0. -/
theorem garbage_month_with_dash_counterexample :
    monthKey ['J', '-', 'n'] ∉ month_names ∧
    make_month ['J', '-', 'n'] = 0 ∧
    parse_rfc1123 timegm (some ['T', 'h', 'u', ',', ' ', '0', '1', ' ', 'J', '-', 'n', ' ',
      '1', '9', '7', '0', ' ', '0', '0', ':', '0', '0', ':', '0', '0', ' ', 'G', 'M', 'T'])
      = -1 ∧
    parse_rfc1123 timegm (some ['T', 'h', 'u', ',', ' ', '0', '1', ' ', 'J', 'a', 'n', ' ',
      '1', '9', '7', '0', ' ', '0', '0', ':', '0', '0', ':', '0', '0', ' ', 'G', 'M', 'T'])
      = 0 := by
  decide

/-! ## A date as `strftime` writes it -/

end Rfc1123
